import Mathlib

/-!
# Diffserv traffic conditioner

A shallow embedding of the Diffserv package (`src/networklayer/diffserv`):
the meters of `StandardMeters.cc`, the multi-field classifier of
`MFClassifier.cc`, the behaviour-aggregate classifier of `BAClassifier.cc`
and the per-packet pipeline of `TrafficConditioner.cc`.

Modelling conventions.

* `long` values are unbounded integers (`Int`); the theorems on the meters
  are stated where no `long` overflows (`LongRange`). The variable
  `int packetSizeInBits` of the meters holds the 32-bit value of
  `8 * getByteLength()` (`toInt`); code points, colors and ports are integers.
* `double` values are the rationals that the type represents: the result of
  an operation is rounded to the nearest value of the type (`roundToDouble`).
  `simtime_t` values are rationals, converted by `SIMTIME_DBL`; the conversion
  `(long)(x)` of C++ is truncation toward zero (`truncToLong`).
* The simulation clock `simTime()` is an explicit argument `currentTime`.
* Objects mutated in place are passed and returned explicitly.
* A failed `ASSERT`, a failed `check_and_cast` and an array access outside
  the allocated cells are errors of the `Except String` monad.
-/

namespace Diffserv

set_option linter.unusedVariables false

/-! ## Constants -/

/-- Number of Diffserv code points (`DSCP_MAX` of `DSCP.msg`). -/
def DSCP_MAX : Int := 64

/-- Best-effort code point (`DSCP_BE`). -/
def DSCP_BE : Int := 0

/-- Expedited-forwarding code point (`DSCP_EF`, binary 101110). -/
def DSCP_EF : Int := 46

/-- Assured-forwarding code point AF11 (`DSCP_AF11`, binary 001010). -/
def DSCP_AF11 : Int := 10

/-- Protocol number of TCP (`IP_PROT_TCP`). -/
def IP_PROT_TCP : Int := 6

/-- Protocol number of UDP (`IP_PROT_UDP`). -/
def IP_PROT_UDP : Int := 17

/-- Color `IMeter::GREEN` of `enum Color {GREEN, YELLOW, RED}`. -/
def GREEN : Int := 0

/-- Color `IMeter::YELLOW`. -/
def YELLOW : Int := 1

/-- Color `IMeter::RED`. -/
def RED : Int := 2

/-! ## Packets -/

/-- IPv4 address, as its 32-bit value. -/
abbrev IPv4Address := Nat

/-- IPv6 address, as its 128-bit value. -/
abbrev IPv6Address := Nat

/-- The packet carried by a datagram, as far as the classifier looks at it:
a `UDPPacket`, a `TCPSegment`, a packet of another class, or none. -/
inductive EncapsulatedPacket where
  | udp (sourcePort destinationPort : Int)
  | tcp (srcPort destPort : Int)
  | other
  | none
deriving DecidableEq, Repr

/-- The fields of an `IPv4Datagram` read or written by the package. -/
structure IPv4Datagram where
  srcAddress : IPv4Address
  destAddress : IPv4Address
  transportProtocol : Int
  typeOfService : Nat
  encapsulatedPacket : EncapsulatedPacket
  byteLength : Nat
deriving DecidableEq, Repr

/-- The fields of an `IPv6Datagram` read or written by the package. -/
structure IPv6Datagram where
  srcAddress : IPv6Address
  destAddress : IPv6Address
  transportProtocol : Int
  trafficClass : Nat
  encapsulatedPacket : EncapsulatedPacket
  byteLength : Nat
deriving DecidableEq, Repr

/-- A `cPacket`: an IPv4 datagram, an IPv6 datagram, or a packet of any other
class (the three outcomes of the `dynamic_cast` tests). The length of a
`cPacket` is never negative. -/
inductive Packet where
  | ipv4 (datagram : IPv4Datagram)
  | ipv6 (datagram : IPv6Datagram)
  | other (byteLength : Nat)
deriving DecidableEq, Repr

/-- The value of `packet->getByteLength()`. -/
def Packet.getByteLength : Packet → Int
  | .ipv4 d => d.byteLength
  | .ipv6 d => d.byteLength
  | .other n => n

/-! ## Meters (`StandardMeters.cc`) -/

/-- The integer nearest to `x`, the even one of the two when `x` lies halfway
between two integers. -/
def roundHalfEven (x : ℚ) : Int :=
  if x - ⌊x⌋ < 1 / 2 then ⌊x⌋
  else if 1 / 2 < x - ⌊x⌋ then ⌊x⌋ + 1
  else if ⌊x⌋ % 2 = 0 then ⌊x⌋ else ⌊x⌋ + 1

/-- The spacing of the values of type `double` (IEEE 754 binary64) around `x`:
`2 ^ (e - 52)` for `2 ^ e ≤ |x| < 2 ^ (e + 1)`, and `2 ^ (-1074)` below
`2 ^ (-1022)`. -/
def doubleSpacing (x : ℚ) : ℚ := 2 ^ (max (Int.log 2 |x|) (-1022) - 52)

/-- The result of an operation of type `double` whose exact value is `x`: the
value of the type nearest to `x`, ties to even. Values beyond the largest
finite `double` do not occur where the theorems on the meters are stated. -/
def roundToDouble (x : ℚ) : ℚ :=
  if x = 0 then 0 else roundHalfEven (x / doubleSpacing x) * doubleSpacing x

/-- The macro `SIMTIME_DBL(t)`: the simulation time `t` as a `double`, the
value of the type nearest to `t`. -/
def SIMTIME_DBL (t : ℚ) : ℚ := roundToDouble t

/-- The conversion of a 64-bit integer to `int` (32 bits, two's complement),
as in `int packetSizeInBits = 8 * packet->getByteLength();`. -/
def toInt (x : Int) : Int := (x + 2147483648) % 4294967296 - 2147483648

/-- The integers that stand for values of type `long` (64 bits) without
overflow: the sum or the difference of two of them is a value of the type. -/
def LongRange (x : Int) : Prop := -2 ^ 62 ≤ x ∧ x ≤ 2 ^ 62

/-- The C++ conversion `(long)(x)` of a `double`: truncation toward zero. -/
def truncToLong (x : ℚ) : Int :=
  if 0 ≤ x then ⌊x⌋ else ⌈x⌉

/-- The value of `(long)(SIMTIME_DBL(elapsed) * rate)`, `elapsed` being the
difference `currentTime - lastUpdateTime` of simulation times: the product is
formed in the type `double`, then truncated. -/
def numTokens (elapsed rate : ℚ) : Int :=
  truncToLong (roundToDouble (SIMTIME_DBL elapsed * rate))

/-- State of a `TokenBucket` meter. -/
structure TokenBucket where
  CIR : ℚ
  CBS : Int
  Tc : Int
  lastUpdateTime : ℚ
deriving DecidableEq

/-- State left by `TokenBucket::configure`, given the parsed `cir` and `cbs`
attributes and the time of the call. -/
def TokenBucket.configure (cir : ℚ) (cbs : Int) (now : ℚ) : TokenBucket :=
  { CIR := cir, CBS := cbs, Tc := cbs, lastUpdateTime := now }

/-- Result of `TokenBucket::getNumberOfColors`. -/
def TokenBucket.getNumberOfColors (_ : TokenBucket) : Int := 2

/-- The token count of a `TokenBucket` after the statements under
"update token buckets". -/
def TokenBucket.refill (m : TokenBucket) (currentTime : ℚ) : Int :=
  let numTokens :=
    truncToLong (roundToDouble (SIMTIME_DBL (currentTime - m.lastUpdateTime) * m.CIR))
  if m.Tc + numTokens ≤ m.CBS then m.Tc + numTokens else m.Tc

/-- The method `TokenBucket::packetArrived`: new state and returned color. -/
def TokenBucket.packetArrived (m : TokenBucket) (currentTime : ℚ) (packet : Packet) :
    TokenBucket × Int :=
  let Tc := m.refill currentTime
  let packetSizeInBits := toInt (8 * packet.getByteLength)
  if Tc - packetSizeInBits ≥ 0 then
    ({ m with Tc := Tc - packetSizeInBits, lastUpdateTime := currentTime }, GREEN)
  else
    ({ m with Tc := Tc, lastUpdateTime := currentTime }, RED)

/-- State of an `SRTCM` meter. -/
structure SRTCM where
  CIR : ℚ
  CBS : Int
  EBS : Int
  Tc : Int
  Te : Int
  lastUpdateTime : ℚ
deriving DecidableEq

/-- State left by `SRTCM::configure`. -/
def SRTCM.configure (cir : ℚ) (cbs ebs : Int) (now : ℚ) : SRTCM :=
  { CIR := cir, CBS := cbs, EBS := ebs, Tc := cbs, Te := ebs, lastUpdateTime := now }

/-- Result of `SRTCM::getNumberOfColors`. -/
def SRTCM.getNumberOfColors (_ : SRTCM) : Int := 3

/-- The pair `(Tc, Te)` of an `SRTCM` after the statements under
"update token buckets". -/
def SRTCM.refill (m : SRTCM) (currentTime : ℚ) : Int × Int :=
  let numTokens :=
    truncToLong (roundToDouble (SIMTIME_DBL (currentTime - m.lastUpdateTime) * m.CIR))
  if m.Tc + numTokens ≤ m.CBS then
    (m.Tc + numTokens, m.Te)
  else
    let excessTokens := m.Tc + numTokens - m.CBS
    if m.Te + excessTokens ≤ m.EBS then (m.CBS, m.Te + excessTokens) else (m.CBS, m.EBS)

/-- The method `SRTCM::packetArrived`: new state and returned color. -/
def SRTCM.packetArrived (m : SRTCM) (currentTime : ℚ) (packet : Packet) : SRTCM × Int :=
  let Tc := (m.refill currentTime).1
  let Te := (m.refill currentTime).2
  let packetSizeInBits := toInt (8 * packet.getByteLength)
  if Tc - packetSizeInBits ≥ 0 then
    ({ m with Tc := Tc - packetSizeInBits, Te := Te, lastUpdateTime := currentTime }, GREEN)
  else if Te - packetSizeInBits ≥ 0 then
    ({ m with Tc := Tc, Te := Te - packetSizeInBits, lastUpdateTime := currentTime }, YELLOW)
  else
    ({ m with Tc := Tc, Te := Te, lastUpdateTime := currentTime }, RED)

/-- State of a `TRTCM` meter. -/
structure TRTCM where
  PIR : ℚ
  PBS : Int
  CIR : ℚ
  CBS : Int
  Tp : Int
  Tc : Int
  lastUpdateTime : ℚ
deriving DecidableEq

/-- State left by `TRTCM::configure`. -/
def TRTCM.configure (pir : ℚ) (pbs : Int) (cir : ℚ) (cbs : Int) (now : ℚ) : TRTCM :=
  { PIR := pir, PBS := pbs, CIR := cir, CBS := cbs, Tp := pbs, Tc := cbs,
    lastUpdateTime := now }

/-- Result of `TRTCM::getNumberOfColors`. -/
def TRTCM.getNumberOfColors (_ : TRTCM) : Int := 3

/-- The pair `(Tp, Tc)` of a `TRTCM` after the statements under
"update token buckets". -/
def TRTCM.refill (m : TRTCM) (currentTime : ℚ) : Int × Int :=
  let elapsedTime := SIMTIME_DBL (currentTime - m.lastUpdateTime)
  let numTokens := truncToLong (roundToDouble (elapsedTime * m.PIR))
  let Tp := if m.Tp + numTokens ≤ m.PBS then m.Tp + numTokens else m.PBS
  let numTokens := truncToLong (roundToDouble (elapsedTime * m.CIR))
  let Tc := if m.Tc + numTokens ≤ m.CBS then m.Tc + numTokens else m.CBS
  (Tp, Tc)

/-- The method `TRTCM::packetArrived`: new state and returned color. -/
def TRTCM.packetArrived (m : TRTCM) (currentTime : ℚ) (packet : Packet) : TRTCM × Int :=
  let Tp := (m.refill currentTime).1
  let Tc := (m.refill currentTime).2
  let packetSizeInBits := toInt (8 * packet.getByteLength)
  if Tp - packetSizeInBits < 0 then
    ({ m with Tp := Tp, Tc := Tc, lastUpdateTime := currentTime }, RED)
  else if Tc - packetSizeInBits < 0 then
    ({ m with Tp := Tp - packetSizeInBits, Tc := Tc, lastUpdateTime := currentTime }, YELLOW)
  else
    ({ m with Tp := Tp - packetSizeInBits, Tc := Tc - packetSizeInBits,
              lastUpdateTime := currentTime }, GREEN)

/-- The state of a `TokenBucket` after a sequence of arrivals, each given by
the clock value of the call and the packet. -/
def TokenBucket.arrivals (m : TokenBucket) (l : List (ℚ × Packet)) : TokenBucket :=
  l.foldl (fun s a => (s.packetArrived a.1 a.2).1) m

/-- The state of an `SRTCM` after a sequence of arrivals. -/
def SRTCM.arrivals (m : SRTCM) (l : List (ℚ × Packet)) : SRTCM :=
  l.foldl (fun s a => (s.packetArrived a.1 a.2).1) m

/-- The state of a `TRTCM` after a sequence of arrivals. -/
def TRTCM.arrivals (m : TRTCM) (l : List (ℚ × Packet)) : TRTCM :=
  l.foldl (fun s a => (s.packetArrived a.1 a.2).1) m

/-- The clock values of a sequence of arrivals never decrease, starting from
the time `t0` of the configuration. -/
def clockNonDecreasing (t0 : ℚ) (l : List (ℚ × Packet)) : Prop :=
  List.Chain (fun a b => a ≤ b) t0 (l.map Prod.fst)

/-- An `IMeter`: one of the three registered meter classes. -/
inductive IMeter where
  | tokenBucket (m : TokenBucket)
  | srtcm (m : SRTCM)
  | trtcm (m : TRTCM)
deriving DecidableEq

/-- Virtual call `meter->getNumberOfColors()`. -/
def IMeter.getNumberOfColors : IMeter → Int
  | .tokenBucket m => m.getNumberOfColors
  | .srtcm m => m.getNumberOfColors
  | .trtcm m => m.getNumberOfColors

/-- Virtual call `meter->packetArrived(packet)`. -/
def IMeter.packetArrived (meter : IMeter) (currentTime : ℚ) (packet : Packet) : IMeter × Int :=
  match meter with
  | .tokenBucket m => ((m.packetArrived currentTime packet).1 |> .tokenBucket,
                       (m.packetArrived currentTime packet).2)
  | .srtcm m => ((m.packetArrived currentTime packet).1 |> .srtcm,
                 (m.packetArrived currentTime packet).2)
  | .trtcm m => ((m.packetArrived currentTime packet).1 |> .trtcm,
                 (m.packetArrived currentTime packet).2)

/-! ## Classifiers (`MFClassifier.cc`, `BAClassifier.cc`) -/

/-- An `IPvXAddress`: an IPv4 or an IPv6 address. A default-constructed one is
the unspecified IPv4 address. -/
inductive IPvXAddress where
  | v4 (addr : IPv4Address)
  | v6 (addr : IPv6Address)
deriving DecidableEq, Repr

/-- The test `isIPv6()` of an `IPvXAddress`. -/
def IPvXAddress.isIPv6 : IPvXAddress → Bool
  | .v4 _ => false
  | .v6 _ => true

/-- Modelled from the spec: `IPv4Address::prefixMatches` is not among the
sources; the address predicate "address + prefix length" of a filter is read
as equality of the leading `numbits` bits of the two 32-bit addresses. -/
def IPv4Address.prefixMatches (addr to_cmp : IPv4Address) (numbits : Int) : Bool :=
  if numbits < 1 then true
  else if numbits > 31 then addr == to_cmp
  else addr / 2 ^ (32 - numbits.toNat) == to_cmp / 2 ^ (32 - numbits.toNat)

/-- Modelled from the spec: `IPv6Address::matches` is not among the sources;
the address predicate "address + prefix length" of a filter is read as
equality of the leading `prefixLength` bits of the two 128-bit addresses. -/
def IPv6Address.matches (addr pfx : IPv6Address) (prefixLength : Int) : Bool :=
  if prefixLength < 1 then true
  else if prefixLength > 127 then addr == pfx
  else addr / 2 ^ (128 - prefixLength.toNat) == pfx / 2 ^ (128 - prefixLength.toNat)

/-- A filter of the multi-field classifier (`MFClassifier::Filter`), with the
initial values of its constructor. -/
structure MFClassifier.Filter where
  dscp : Int := DSCP_BE
  srcAddr : IPvXAddress := .v4 0
  srcPrefixLength : Int := 0
  destAddr : IPvXAddress := .v4 0
  destPrefixLength : Int := 0
  protocol : Int := -1
  tos : Int := 0
  tosMask : Int := 0
  srcPortMin : Int := -1
  srcPortMax : Int := -1
  destPortMin : Int := -1
  destPortMax : Int := -1
deriving DecidableEq, Repr

/-- The ports read by `Filter::matches` from the encapsulated packet: those of
the `UDPPacket` for protocol UDP, those of the `TCPSegment` for protocol TCP
(each obtained by a `check_and_cast` that raises on a packet of another class
or a null pointer), and `-1, -1` for every other protocol. -/
def MFClassifier.Filter.transportPorts (transportProtocol : Int) (encapsulated : EncapsulatedPacket) :
    Except String (Int × Int) :=
  if transportProtocol == IP_PROT_UDP then
    match encapsulated with
    | .udp srcPort destPort => .ok (srcPort, destPort)
    | _ => .error "check_and_cast: not a UDPPacket"
  else if transportProtocol == IP_PROT_TCP then
    match encapsulated with
    | .tcp srcPort destPort => .ok (srcPort, destPort)
    | _ => .error "check_and_cast: not a TCPSegment"
  else .ok (-1, -1)

/-- The port tests at the end of `Filter::matches`, common to both overloads. -/
def MFClassifier.Filter.matchesPorts (f : MFClassifier.Filter) (transportProtocol : Int)
    (encapsulated : EncapsulatedPacket) : Except String Bool :=
  if f.srcPortMin ≥ 0 || f.destPortMin ≥ 0 then
    match MFClassifier.Filter.transportPorts transportProtocol encapsulated with
    | .error e => .error e
    | .ok (srcPort, destPort) =>
      if f.srcPortMin ≥ 0 && (srcPort < f.srcPortMin || srcPort > f.srcPortMax) then .ok false
      else if f.destPortMin ≥ 0 && (destPort < f.destPortMin || destPort > f.destPortMax) then
        .ok false
      else .ok true
  else .ok true

/-- The overload `Filter::matches(IPv4Datagram *)`. -/
def MFClassifier.Filter.matchesIPv4 (f : MFClassifier.Filter) (datagram : IPv4Datagram) :
    Except String Bool :=
  if f.srcPrefixLength > 0 &&
      (f.srcAddr.isIPv6 || !(match f.srcAddr with
        | .v4 a => IPv4Address.prefixMatches datagram.srcAddress a f.srcPrefixLength
        | .v6 _ => false)) then .ok false
  else if f.destPrefixLength > 0 &&
      (f.destAddr.isIPv6 || !(match f.destAddr with
        | .v4 a => IPv4Address.prefixMatches datagram.destAddress a f.destPrefixLength
        | .v6 _ => false)) then .ok false
  else if f.protocol ≥ 0 && datagram.transportProtocol != f.protocol then .ok false
  else if f.tosMask != 0 &&
      Int.land f.tos f.tosMask != Int.land datagram.typeOfService f.tosMask then .ok false
  else f.matchesPorts datagram.transportProtocol datagram.encapsulatedPacket

/-- The overload `Filter::matches(IPv6Datagram *)`. -/
def MFClassifier.Filter.matchesIPv6 (f : MFClassifier.Filter) (datagram : IPv6Datagram) :
    Except String Bool :=
  if f.srcPrefixLength > 0 &&
      (!f.srcAddr.isIPv6 || !(match f.srcAddr with
        | .v6 a => IPv6Address.matches datagram.srcAddress a f.srcPrefixLength
        | .v4 _ => false)) then .ok false
  else if f.destPrefixLength > 0 &&
      (!f.destAddr.isIPv6 || !(match f.destAddr with
        | .v6 a => IPv6Address.matches datagram.destAddress a f.destPrefixLength
        | .v4 _ => false)) then .ok false
  else if f.protocol ≥ 0 && datagram.transportProtocol != f.protocol then .ok false
  else if f.tosMask != 0 &&
      Int.land f.tos f.tosMask != Int.land datagram.trafficClass f.tosMask then .ok false
  else f.matchesPorts datagram.transportProtocol datagram.encapsulatedPacket

/-- The multi-field classifier: its vector of filters. -/
structure MFClassifier where
  filters : List MFClassifier.Filter
deriving DecidableEq, Repr

/-- The loop of `MFClassifier::classifyPacket` over the filters, for the test
`test` of one datagram: the code point of the first filter whose test is true,
`DSCP_BE` after the last filter; an error raised by a test ends the loop. -/
def MFClassifier.scanFilters (test : MFClassifier.Filter → Except String Bool) :
    List MFClassifier.Filter → Except String Int
  | [] => .ok DSCP_BE
  | f :: rest =>
    match test f with
    | .error e => .error e
    | .ok true => .ok f.dscp
    | .ok false => MFClassifier.scanFilters test rest

/-- The method `MFClassifier::classifyPacket`. -/
def MFClassifier.classifyPacket (c : MFClassifier) (msg : Packet) : Except String Int :=
  match msg with
  | .ipv4 datagram => MFClassifier.scanFilters (fun f => f.matchesIPv4 datagram) c.filters
  | .ipv6 datagram => MFClassifier.scanFilters (fun f => f.matchesIPv6 datagram) c.filters
  | .other _ => .ok DSCP_BE

/-- The method `BAClassifier::classifyPacket`. -/
def BAClassifier.classifyPacket (msg : Packet) : Int :=
  match msg with
  | .ipv4 datagram => Int.land datagram.typeOfService 0x3f
  | .ipv6 datagram => Int.land datagram.trafficClass 0x3f
  | .other _ => DSCP_BE

/-- An `IDSCPClassifier`: one of the two registered classifier classes. -/
inductive IDSCPClassifier where
  | ba
  | mf (c : MFClassifier)
deriving DecidableEq, Repr

/-- Virtual call `classifier->classifyPacket(packet)`. -/
def IDSCPClassifier.classifyPacket (classifier : IDSCPClassifier) (packet : Packet) :
    Except String Int :=
  match classifier with
  | .ba => .ok (BAClassifier.classifyPacket packet)
  | .mf c => c.classifyPacket packet

/-! ## Traffic conditioner (`TrafficConditioner.h`, `TrafficConditioner.cc`) -/

/-- An `ITrafficShaper`, as the capability the conditioner uses: it accepts a
packet and returns the packet to transmit now, or none. -/
structure ITrafficShaper where
  shapePacket : Packet → Option Packet

/-- The type `ActionCode`, an `unsigned char`. -/
abbrev ActionCode := Nat

/-- Conversion of an `int` to `unsigned char`. -/
def toUnsignedChar (x : Int) : Nat := (x % 256).toNat

/-- Action code `ShapeAction`. -/
def ShapeAction : Int := 253

/-- Action code `DropAction`. -/
def DropAction : Int := 254

/-- Action code `NopAction`. -/
def NopAction : Int := 255

/-- The encoding `MarkAction(dscp)`. -/
def MarkAction (dscp : Int) : Int := dscp

/-- The encoding `MarkAndShapeAction(dscp)`. -/
def MarkAndShapeAction (dscp : Int) : Int := Int.lor dscp 0x40

/-- The decoding `DscpOfMarkAction(action)`. -/
def DscpOfMarkAction (action : Int) : Int := Int.land action 0x3f

/-- The test `isMarkAction(action)`. -/
def isMarkAction (action : ActionCode) : Bool := Int.land action 0x80 == 0

/-- The test `isShapeAction(action)`. -/
def isShapeAction (action : ActionCode) : Bool :=
  Int.land action 0xc0 == 0x40 || (action : Int) == ShapeAction

/-- The state of a `TrafficConditioner` module. Meters are referred to by their
key in `meters`; `dscpToMeterMap` and `actions` are absent (null) or arrays;
`shapers` is the map from `(dscp, color)` to the shaper of the cell. -/
structure TrafficConditioner where
  classifier : Option IDSCPClassifier
  meters : List (String × IMeter)
  dscpToMeterMap : Option (List (Option String))
  numColors : Int
  actions : Option (List ActionCode)
  shapers : List ((Int × Int) × ITrafficShaper)

/-- The value of `numColors` after the loop of `initialize` over the meters:
it starts at 1 and takes the maximum with each meter's number of colors. -/
def TrafficConditioner.numColorsOfMeters (meters : List (String × IMeter)) : Int :=
  meters.foldl (fun n m => max n m.2.getNumberOfColors) 1

/-- The index `DSCP_MAX*color+dscp` of a cell in the array `actions`. -/
def TrafficConditioner.actionIndex (dscp color : Int) : Int := DSCP_MAX * color + dscp

/-- The accessor `getActionCode(dscp, color)`; a read outside the array is an
error. -/
def TrafficConditioner.getActionCode (tc : TrafficConditioner) (dscp color : Int) :
    Except String ActionCode :=
  match tc.actions with
  | none => .ok (toUnsignedChar NopAction)
  | some actions =>
    if TrafficConditioner.actionIndex dscp color < 0 then .error "actions: index out of range"
    else
      match actions[(TrafficConditioner.actionIndex dscp color).toNat]? with
      | some action => .ok action
      | none => .error "actions: index out of range"

/-- The method `TrafficConditioner::classifyPacket`. -/
def TrafficConditioner.classifyPacket (tc : TrafficConditioner) (packet : Packet) :
    Except String Int :=
  match tc.classifier with
  | some classifier => classifier.classifyPacket packet
  | none => .ok DSCP_BE

/-- The method `TrafficConditioner::meterPacket`: the conditioner with the
meter updated, and the color. -/
def TrafficConditioner.meterPacket (tc : TrafficConditioner) (currentTime : ℚ)
    (packet : Packet) (dscp : Int) : Except String (TrafficConditioner × Int) :=
  if ¬ (0 ≤ dscp ∧ dscp < DSCP_MAX) then .error "ASSERT: 0 <= dscp && dscp < DSCP_MAX"
  else
    match tc.dscpToMeterMap with
    | none => .ok (tc, GREEN)
    | some map =>
      match map[dscp.toNat]? with
      | none => .error "dscpToMeterMap: index out of range"
      | some none => .ok (tc, GREEN)
      | some (some name) =>
        match tc.meters.lookup name with
        | none => .error "dscpToMeterMap: no such meter"
        | some meter =>
          .ok ({ tc with
                  meters := tc.meters.map (fun entry =>
                    if entry.1 == name then (entry.1, (meter.packetArrived currentTime packet).1)
                    else entry) },
               (meter.packetArrived currentTime packet).2)

/-- The method `TrafficConditioner::markPacket`: the datagram with its
ToS / TrafficClass byte set to `dscp`; other packets are left as they are. -/
def TrafficConditioner.markPacket (packet : Packet) (dscp : Int) : Packet :=
  match packet with
  | .ipv4 datagram => .ipv4 { datagram with typeOfService := toUnsignedChar dscp }
  | .ipv6 datagram => .ipv6 { datagram with trafficClass := toUnsignedChar dscp }
  | .other n => .other n

/-- The method `TrafficConditioner::shapePacket`. -/
def TrafficConditioner.shapePacket (tc : TrafficConditioner) (packet : Packet)
    (dscp color : Int) : Except String (Option Packet) :=
  if ¬ (0 ≤ dscp ∧ dscp < DSCP_MAX) then .error "ASSERT: 0 <= dscp && dscp < DSCP_MAX"
  else if ¬ (0 ≤ color ∧ color < tc.numColors) then
    .error "ASSERT: 0 <= color && color < numColors"
  else
    match tc.shapers.lookup (dscp, color) with
    | some shaper => .ok (shaper.shapePacket packet)
    | none => .ok (some packet)

/-- The part of `TrafficConditioner::conditionPacket` after the metering: the
dispatch on the action code of the cell. The result is the packet to send, or
none (a dropped packet, or one held by a shaper). -/
def TrafficConditioner.applyAction (tc : TrafficConditioner) (packet : Packet)
    (dscp color : Int) (action : ActionCode) : Except String (Option Packet) :=
  if (action : Int) == NopAction then .ok (some packet)
  else if (action : Int) == DropAction then .ok none
  else
    let dscp := if isMarkAction action then DscpOfMarkAction action else dscp
    let packet :=
      if isMarkAction action then TrafficConditioner.markPacket packet (DscpOfMarkAction action)
      else packet
    if isShapeAction action then tc.shapePacket packet dscp color else .ok (some packet)

/-- The method `TrafficConditioner::conditionPacket`: the conditioner with the
meter updated, and the packet to send or none. -/
def TrafficConditioner.conditionPacket (tc : TrafficConditioner) (currentTime : ℚ)
    (packet : Packet) (dscp : Int) : Except String (TrafficConditioner × Option Packet) :=
  match tc.meterPacket currentTime packet dscp with
  | .error e => .error e
  | .ok (tc, color) =>
    match tc.getActionCode dscp color with
    | .error e => .error e
    | .ok action =>
      match tc.applyAction packet dscp color action with
      | .error e => .error e
      | .ok result => .ok (tc, result)

/-! ### Construction of the action table (`TrafficConditioner::initialize`) -/

/-- The accessor `setActionCode(dscp, color, action)`, writing the cell of
index `color*DSCP_MAX+dscp`; a write through a null pointer or outside the
array is an error. -/
def TrafficConditioner.setActionCode (tc : TrafficConditioner) (dscp color : Int)
    (action : Int) : Except String TrafficConditioner :=
  match tc.actions with
  | none => .error "actions: null pointer"
  | some actions =>
    if color * DSCP_MAX + dscp < 0 ∨ (actions.length : Int) ≤ color * DSCP_MAX + dscp then
      .error "actions: index out of range"
    else
      .ok { tc with
              actions := some (actions.set (color * DSCP_MAX + dscp).toNat
                (toUnsignedChar action)) }

/-- The assignment `shapers[key] = shaper` on the map of shapers: the entry of
the key is replaced, or added. -/
def setShaper (shapers : List ((Int × Int) × ITrafficShaper)) (key : Int × Int)
    (shaper : ITrafficShaper) : List ((Int × Int) × ITrafficShaper) :=
  (key, shaper) :: shapers.filter (fun entry => entry.1 != key)

/-- A child element of `<actions>` after its attributes are parsed: the
vectors `mathcingDSCPs` and `matchingColors`, and for `mark` the `value`
(-1 for `*`), for `shape` the shaper that `createOne` and `configure` give for
the element. Elements with another tag name have no effect. -/
inductive ActionElement where
  | drop (mathcingDSCPs matchingColors : List Int)
  | mark (mathcingDSCPs matchingColors : List Int) (value : Int)
  | shape (mathcingDSCPs matchingColors : List Int) (shaper : ITrafficShaper)
  | other (mathcingDSCPs matchingColors : List Int)

/-- A loop `for (...) body` over the elements of a vector, the body updating
the module or raising. -/
def forEachM {α : Type} (body : TrafficConditioner → α → Except String TrafficConditioner) :
    TrafficConditioner → List α → Except String TrafficConditioner
  | tc, [] => .ok tc
  | tc, a :: rest =>
    match body tc a with
    | .error e => .error e
    | .ok tc1 => forEachM body tc1 rest

/-- The two nested loops over `mathcingDSCPs` (index `j`) and `matchingColors`
(index `k`) with the given body. -/
def TrafficConditioner.forCells
    (body : TrafficConditioner → Int → Int → Except String TrafficConditioner)
    (tc : TrafficConditioner) (mathcingDSCPs matchingColors : List Int) :
    Except String TrafficConditioner :=
  forEachM (fun tc1 dscp => forEachM (fun tc2 color => body tc2 dscp color) tc1 matchingColors)
    tc mathcingDSCPs

/-- Body of the loops of a `drop` element. -/
def TrafficConditioner.dropCell (tc : TrafficConditioner) (dscp color : Int) :
    Except String TrafficConditioner :=
  tc.setActionCode dscp color DropAction

/-- Body of the loops of a `mark` element, `dscp` being the code point to mark
with. -/
def TrafficConditioner.markCell (value : Int) (tc : TrafficConditioner) (j k : Int) :
    Except String TrafficConditioner :=
  let dscp := if value != -1 then value else j
  match tc.getActionCode j k with
  | .error e => .error e
  | .ok action =>
    if (action : Int) == NopAction then tc.setActionCode j k (MarkAction dscp)
    else if (action : Int) == ShapeAction then tc.setActionCode j k (MarkAndShapeAction dscp)
    else .ok tc

/-- Body of the loops of a `shape` element. -/
def TrafficConditioner.shapeCell (shaper : ITrafficShaper) (tc : TrafficConditioner)
    (j k : Int) : Except String TrafficConditioner :=
  match tc.getActionCode j k with
  | .error e => .error e
  | .ok action =>
    match (if (action : Int) == NopAction then tc.setActionCode j k ShapeAction
           else if isMarkAction action then
             tc.setActionCode j k (MarkAndShapeAction (DscpOfMarkAction action))
           else .ok tc) with
    | .error e => .error e
    | .ok tc1 => .ok { tc1 with shapers := setShaper tc1.shapers (j, k) shaper }

/-- One iteration of the loop of `initialize` over the action elements. -/
def TrafficConditioner.applyActionElement (tc : TrafficConditioner) :
    ActionElement → Except String TrafficConditioner
  | .drop ds cs => tc.forCells TrafficConditioner.dropCell ds cs
  | .mark ds cs value => tc.forCells (TrafficConditioner.markCell value) ds cs
  | .shape ds cs shaper => tc.forCells (TrafficConditioner.shapeCell shaper) ds cs
  | .other _ _ => .ok tc

/-- The part of `initialize` run for an `<actions>` element: the array of
`DSCP_MAX * numColors` cells is allocated, every cell set to `NopAction`, and
the action elements are applied in order. -/
def TrafficConditioner.initializeActions (tc : TrafficConditioner)
    (actionElements : List ActionElement) : Except String TrafficConditioner :=
  forEachM TrafficConditioner.applyActionElement
    { tc with actions := some (List.replicate (DSCP_MAX * tc.numColors).toNat
                (toUnsignedChar NopAction)) }
    actionElements

/-- The vector `parseDSCPs` gives for `*`: all code points, 0 to 63. -/
def allDSCPs : List Int := (List.range 64).map Int.ofNat

/-- The vector `parseColors` gives for `*`: the colors 0 to `numColors - 1`. -/
def allColors (numColors : Int) : List Int := (List.range numColors.toNat).map Int.ofNat

/-- The vectors of an action element. -/
def ActionElement.cells : ActionElement → List Int × List Int
  | .drop ds cs => (ds, cs)
  | .mark ds cs _ => (ds, cs)
  | .shape ds cs _ => (ds, cs)
  | .other ds cs => (ds, cs)

/-- The element names the cell `(dscp, color)`: the cell is among those its
loops visit. -/
def ActionElement.covers (e : ActionElement) (dscp color : Int) : Prop :=
  dscp ∈ e.cells.1 ∧ color ∈ e.cells.2

/-- An action element as the parsing functions deliver it for a module with
`n` colors: code points in `[0,64)`, colors in `[0,n)`, and a mark value that
is a code point or -1 (for `*`). -/
def ActionElement.WellFormed (n : Nat) (e : ActionElement) : Prop :=
  (∀ d ∈ e.cells.1, 0 ≤ d ∧ d < 64) ∧ (∀ c ∈ e.cells.2, 0 ≤ c ∧ c < (n : Int)) ∧
  (match e with
   | .mark _ _ value => value = -1 ∨ (0 ≤ value ∧ value < 64)
   | _ => True)

/-- The effect of a `mark` to `dscp` on the code of a cell it visits. -/
def markCode (dscp : Int) (code : ActionCode) : ActionCode :=
  if (code : Int) == NopAction then toUnsignedChar (MarkAction dscp)
  else if (code : Int) == ShapeAction then toUnsignedChar (MarkAndShapeAction dscp)
  else code

/-- The effect of a `shape` on the code of a cell it visits. -/
def shapeCode (code : ActionCode) : ActionCode :=
  if (code : Int) == NopAction then toUnsignedChar ShapeAction
  else if isMarkAction code then toUnsignedChar (MarkAndShapeAction (DscpOfMarkAction code))
  else code

/-- The code an action element gives to a cell it visits. -/
def ActionElement.cellCode (e : ActionElement) (dscp : Int) (code : ActionCode) : ActionCode :=
  match e with
  | .drop _ _ => toUnsignedChar DropAction
  | .mark _ _ value => markCode (if value != -1 then value else dscp) code
  | .shape _ _ _ => shapeCode code
  | .other _ _ => code

/-- The shaper an action element registers for a cell it visits, if any. -/
def ActionElement.cellShaper : ActionElement → Option ITrafficShaper
  | .shape _ _ shaper => some shaper
  | _ => none

/-- The module with the code of cell `(dscp, color)` replaced by its image
under `g` and, when a shaper is given, that shaper registered for the cell. -/
def TrafficConditioner.updateCell (tc : TrafficConditioner) (dscp color : Int)
    (g : ActionCode → ActionCode) (shaper : Option ITrafficShaper) : TrafficConditioner :=
  { tc with
      actions := tc.actions.map (fun actions =>
        actions.set (color * DSCP_MAX + dscp).toNat
          (g (actions.getD (color * DSCP_MAX + dscp).toNat 0)))
      shapers := match shaper with
        | some sh => setShaper tc.shapers (dscp, color) sh
        | none => tc.shapers }

/-- The code stored for cell `(dscp, color)`, 0 outside the array. -/
def TrafficConditioner.code (tc : TrafficConditioner) (dscp color : Int) : ActionCode :=
  (tc.actions.getD []).getD (color * DSCP_MAX + dscp).toNat 0

/-- The array `actions` is allocated with `DSCP_MAX * n` cells. -/
def TrafficConditioner.TableOk (tc : TrafficConditioner) (n : Nat) : Prop :=
  ∃ actions, tc.actions = some actions ∧ actions.length = 64 * n

/-- A well-formed action code: no-op, drop, shape-only, mark (0..63) or
mark-and-shape (64..127). -/
def ActionCode.WellFormed (code : ActionCode) : Prop :=
  code = 255 ∨ code = 254 ∨ code = 253 ∨ code < 128

/-- The module after the cells of `ds × cs` are updated in the order of the
nested loops, cell `(d, c)` by `G d` and the given shaper. -/
def TrafficConditioner.updateCells (tc : TrafficConditioner)
    (G : Int → ActionCode → ActionCode) (shaper : Option ITrafficShaper)
    (ds cs : List Int) : TrafficConditioner :=
  ds.foldl (fun tc1 d => cs.foldl (fun tc2 c => tc2.updateCell d c (G d) shaper) tc1) tc

instance (e : ActionElement) (dscp color : Int) : Decidable (e.covers dscp color) := by
  unfold ActionElement.covers
  infer_instance

/-- The element is a `drop`. -/
def ActionElement.isDrop : ActionElement → Bool
  | .drop _ _ => true
  | _ => false

/-- The element is a `shape`. -/
def ActionElement.isShape : ActionElement → Bool
  | .shape _ _ _ => true
  | _ => false

/-- The code of cell `(dscp, color)` after one action element, from its code
before: the element's code for a cell it covers, the same code otherwise. -/
def ActionElement.stepCode (e : ActionElement) (dscp color : Int) (code : ActionCode) :
    ActionCode :=
  if e.covers dscp color then e.cellCode dscp code else code

/-- The shaper registered for cell `(dscp, color)` after one action element,
from the one registered before. -/
def ActionElement.stepShaper (e : ActionElement) (dscp color : Int)
    (shaper : Option ITrafficShaper) : Option ITrafficShaper :=
  match e.cellShaper with
  | some sh => if e.covers dscp color then some sh else shaper
  | none => shaper

/-- The code of cell `(dscp, color)` after a list of action elements. -/
def codeAfter (es : List ActionElement) (dscp color : Int) (code : ActionCode) : ActionCode :=
  es.foldl (fun x e => e.stepCode dscp color x) code

/-- The shaper registered for cell `(dscp, color)` after a list of action
elements. -/
def shaperAfter (es : List ActionElement) (dscp color : Int)
    (shaper : Option ITrafficShaper) : Option ITrafficShaper :=
  es.foldl (fun x e => e.stepShaper dscp color x) shaper

/-! ### Reference steps of the meters, in the words of the specification -/

/-- Token bucket of scenario 1: CIR = 1,000,000 bits/s, CBS = 10,000 bits,
configured at time 0. -/
def scenarioTokenBucket : TokenBucket := TokenBucket.configure 1000000 10000 0

/-- Token bucket with CIR = 0 and CBS = 0, configured at time 0. -/
def emptyTokenBucket : TokenBucket := TokenBucket.configure 0 0 0

/-- A shaper that holds every packet it is given. -/
def holdingShaper : ITrafficShaper := { shapePacket := fun _ => none }

/-- A shaper that returns every packet it is given. -/
def passingShaper : ITrafficShaper := { shapePacket := fun packet => some packet }

/-- The conditioner left by the rules `mark dscp=1 value=2`, `shape dscp=1`
(creating shaper `A`) and `shape dscp=2` (creating shaper `B`), without
classifier or meters: one color, cell `(1,0)` holds mark-to-2-and-shape (66),
cell `(2,0)` holds shape-only (253), `A` is registered under `(1,0)` and `B`
under `(2,0)`. -/
def markAndShapeConditioner (A B : ITrafficShaper) : TrafficConditioner :=
  { classifier := none, meters := [], dscpToMeterMap := none, numColors := 1,
    actions := some (((List.replicate 64 255).set 1 66).set 2 253),
    shapers := [((1, 0), A), ((2, 0), B)] }

/-- An IPv4 datagram of 100 bytes carrying UDP, with ToS 1. -/
def scenarioDatagram : IPv4Datagram :=
  { srcAddress := 0x0a000001, destAddress := 0x0a000002, transportProtocol := 17,
    typeOfService := 1, encapsulatedPacket := .udp 1000 2000, byteLength := 100 }

/-- The conditioner whose only meter is the token bucket `emptyTokenBucket`,
named `tb` and assigned to every code point; `numColors` is computed as in
`initialize` and the action table has `DSCP_MAX * numColors` no-op cells. -/
def tokenBucketConditioner : TrafficConditioner :=
  { classifier := none,
    meters := [("tb", .tokenBucket emptyTokenBucket)],
    dscpToMeterMap := some (List.replicate 64 (some "tb")),
    numColors := TrafficConditioner.numColorsOfMeters [("tb", .tokenBucket emptyTokenBucket)],
    actions := some (List.replicate 128 255),
    shapers := [] }

/-- Filter list of scenario 3: protocol UDP gives EF, everything else BE. -/
def scenarioFilters : List MFClassifier.Filter :=
  [{ protocol := IP_PROT_UDP, dscp := DSCP_EF }, { dscp := DSCP_BE }]

/-- An IPv4 datagram carrying a UDP packet. -/
def scenarioUdpDatagram : IPv4Datagram :=
  { srcAddress := 0x0a000001, destAddress := 0x0a000002, transportProtocol := 17,
    typeOfService := 0, encapsulatedPacket := .udp 1000 2000, byteLength := 128 }

/-- An IPv4 datagram carrying a TCP segment. -/
def scenarioTcpDatagram : IPv4Datagram :=
  { srcAddress := 0x0a000001, destAddress := 0x0a000002, transportProtocol := 6,
    typeOfService := 0, encapsulatedPacket := .tcp 1000 80, byteLength := 128 }

/-- A module of one color whose table holds no-op in cell 0, shape-only in
cell 1, drop in cell 2 and no-op elsewhere, without shapers. -/
def scenarioMarkTable : TrafficConditioner :=
  { classifier := none, meters := [], dscpToMeterMap := none, numColors := 1,
    actions := some (((List.replicate 64 255).set 1 253).set 2 254),
    shapers := [] }

/-- The relation kept between the code `x` of a cell `(d, c)` and the shaper
`s` registered for the key `(d, c)` while the action elements are applied: the
code is well formed; a registered shaper belongs to a cell of the table whose
code is shape-only, mark-and-shape or drop; and a cell whose code includes
shaping has a shaper. -/
def cellInvariant (n : Nat) (d c : Int) (x : Nat) (s : Option ITrafficShaper) : Prop :=
  ActionCode.WellFormed x ∧
  (s.isSome = true →
    (0 ≤ d ∧ d < 64 ∧ 0 ≤ c ∧ c < (n : Int)) ∧ (x = 253 ∨ (64 ≤ x ∧ x < 128) ∨ x = 254)) ∧
  ((x = 253 ∨ (64 ≤ x ∧ x < 128)) → s.isSome = true)

/-- The module before the construction of its action table: `n` colors, no
classifier, no meters, no table and no shapers. -/
def conditionerWithColors (n : Int) : TrafficConditioner :=
  { classifier := none, meters := [], dscpToMeterMap := none, numColors := n,
    actions := none, shapers := [] }

/-- A module with three colors whose only meter is a single-rate marker with
CIR = 0, CBS = 0 and EBS = 0, named `m` and assigned to every code point, before
the construction of its action table. -/
def scenarioRedConditioner : TrafficConditioner :=
  { classifier := none,
    meters := [("m", .srtcm (SRTCM.configure 0 0 0 0))],
    dscpToMeterMap := some (List.replicate 64 (some "m")),
    numColors := TrafficConditioner.numColorsOfMeters [("m", .srtcm (SRTCM.configure 0 0 0 0))],
    actions := none,
    shapers := [] }

/-- Modelled from the spec: `IPvXAddress::isUnspecified` is not among the
sources; a "specified" address is read as one that is not all zero. -/
def IPvXAddress.isUnspecified : IPvXAddress → Bool
  | .v4 addr => addr == 0
  | .v6 addr => addr == 0

/-- The checks of `MFClassifier::addFilter`, in the order of the source: each
is the condition of an `if` and the message of the error it raises. -/
def MFClassifier.Filter.checks (filter : MFClassifier.Filter) : List (Bool × String) :=
  [ (decide (filter.dscp < 0 ∨ filter.dscp ≥ DSCP_MAX), "dscp is out of range [0,64)."),
    (decide (filter.srcAddr.isUnspecified = false ∧
        ((filter.srcAddr.isIPv6 = true ∧ filter.srcPrefixLength > 128) ∨
         (filter.srcAddr.isIPv6 = false ∧ filter.srcPrefixLength > 32))),
      "srcPrefixLength is invalid"),
    (decide (filter.destAddr.isUnspecified = false ∧
        ((filter.destAddr.isIPv6 = true ∧ filter.destPrefixLength > 128) ∨
         (filter.destAddr.isIPv6 = false ∧ filter.destPrefixLength > 32))),
      "srcPrefixLength is invalid"),
    (decide (filter.protocol ≠ -1 ∧ (filter.protocol < 0 ∨ filter.protocol > 0xff)),
      "protocol is not a valid protocol number"),
    (decide (filter.tos ≠ -1 ∧ (filter.tos < 0 ∨ filter.tos > 0xff)), "tos is not valid"),
    (decide (filter.tosMask < 0 ∨ filter.tosMask > 0xff), "tosMask is not valid"),
    (decide (filter.srcPortMin ≠ -1 ∧ (filter.srcPortMin < 0 ∨ filter.srcPortMin > 0xffff)),
      "srcPortMin is not a valid port number"),
    (decide (filter.srcPortMax ≠ -1 ∧ (filter.srcPortMax < 0 ∨ filter.srcPortMax > 0xffff)),
      "srcPortMax is not a valid port number"),
    (decide (filter.srcPortMin ≠ -1 ∧ filter.srcPortMin > filter.srcPortMax),
      "srcPortMin > srcPortMax"),
    (decide (filter.destPortMin ≠ -1 ∧ (filter.destPortMin < 0 ∨ filter.destPortMin > 0xffff)),
      "destPortMin is not a valid port number"),
    (decide (filter.destPortMax ≠ -1 ∧ (filter.destPortMax < 0 ∨ filter.destPortMax > 0xffff)),
      "destPortMax is not a valid port number"),
    (decide (filter.destPortMin ≠ -1 ∧ filter.destPortMin > filter.destPortMax),
      "destPortMin > destPortMax") ]

/-- The method `MFClassifier::addFilter`: the classifier after the call, and
how the call completes: raising the error of the first check that fails, the
filter list being as it was, or normally, the filter being appended. -/
def MFClassifier.addFilter (c : MFClassifier) (filter : MFClassifier.Filter) :
    MFClassifier × Except String Unit :=
  match filter.checks.find? (fun check => check.1) with
  | some check => (c, .error check.2)
  | none => ({ filters := c.filters ++ [filter] }, .ok ())

/-- A classifier whose filter list is obtained from the empty list by calls of
`addFilter` that did not raise. -/
inductive MFClassifier.Built : MFClassifier → Prop where
  | empty : MFClassifier.Built { filters := [] }
  | add {c : MFClassifier} (f : MFClassifier.Filter) :
      MFClassifier.Built c → (c.addFilter f).2 = .ok () →
      MFClassifier.Built (c.addFilter f).1

/-- The bound on the prefix length of a filter address, in the words of the
specification: at most 32 for a specified IPv4 address, at most 128 for a
specified IPv6 address. -/
def prefixLengthOk (addr : IPvXAddress) (prefixLength : Int) : Prop :=
  match addr with
  | .v4 a => a ≠ 0 → prefixLength ≤ 32
  | .v6 a => a ≠ 0 → prefixLength ≤ 128

/-- The requirements on a filter, in the words of the specification: code
point in `[0,64)`; protocol unset (-1) or in `[0,255]`; prefix lengths within
the bound of the address family; each port range that is set (min ≠ -1) with
`0 ≤ min ≤ max ≤ 65535`. -/
def MFClassifier.Filter.Valid (f : MFClassifier.Filter) : Prop :=
  (0 ≤ f.dscp ∧ f.dscp < 64) ∧
  (f.protocol = -1 ∨ (0 ≤ f.protocol ∧ f.protocol ≤ 255)) ∧
  prefixLengthOk f.srcAddr f.srcPrefixLength ∧
  prefixLengthOk f.destAddr f.destPrefixLength ∧
  (f.srcPortMin ≠ -1 → 0 ≤ f.srcPortMin ∧ f.srcPortMin ≤ f.srcPortMax ∧ f.srcPortMax ≤ 65535) ∧
  (f.destPortMin ≠ -1 →
    0 ≤ f.destPortMin ∧ f.destPortMin ≤ f.destPortMax ∧ f.destPortMax ≤ 65535)

/-- The encapsulated packet of a datagram is of the class its protocol number
announces: a `UDPPacket` for UDP, a `TCPSegment` for TCP. -/
def EncapsulatedPacket.agrees (transportProtocol : Int) : EncapsulatedPacket → Prop
  | .udp _ _ => transportProtocol ≠ IP_PROT_TCP
  | .tcp _ _ => transportProtocol ≠ IP_PROT_UDP
  | .other => transportProtocol ≠ IP_PROT_UDP ∧ transportProtocol ≠ IP_PROT_TCP
  | .none => transportProtocol ≠ IP_PROT_UDP ∧ transportProtocol ≠ IP_PROT_TCP

/-- The encapsulated packet of the packet, when it is an IP datagram, is of the
class its protocol number announces. -/
def Packet.transportAgrees : Packet → Prop
  | .ipv4 d => d.encapsulatedPacket.agrees d.transportProtocol
  | .ipv6 d => d.encapsulatedPacket.agrees d.transportProtocol
  | .other _ => True

/-- An IPv4 datagram with ToS byte `0xC1`: code point 1 and both upper bits set. -/
def upperBitsDatagram : IPv4Datagram :=
  { srcAddress := 0x0a000001, destAddress := 0x0a000002, transportProtocol := 17,
    typeOfService := 0xC1, encapsulatedPacket := .udp 1000 2000, byteLength := 100 }

/-! ### Scenario data for the defaults, the filters and the configuration -/

/-- The array `dscpToMeterMap`, when allocated, has `DSCP_MAX` entries, and each
meter it refers to is in `meters`. -/
def TrafficConditioner.MeterMapOk (tc : TrafficConditioner) : Prop :=
  ∀ map, tc.dscpToMeterMap = some map →
    map.length = 64 ∧ ∀ name, some name ∈ map → (tc.meters.lookup name).isSome = true

/-- An IPv4 datagram of 84 bytes carrying ICMP (protocol 1). -/
def scenarioIcmpDatagram : IPv4Datagram :=
  { srcAddress := 0x0a000001, destAddress := 0x0a000002, transportProtocol := 1,
    typeOfService := 0, encapsulatedPacket := .other, byteLength := 84 }

/-- An IPv6 datagram of 104 bytes carrying ICMPv6 (protocol 58). -/
def scenarioIcmpv6Datagram : IPv6Datagram :=
  { srcAddress := 1, destAddress := 2, transportProtocol := 58,
    trafficClass := 0, encapsulatedPacket := .other, byteLength := 104 }

/-- A filter with the destination address 10.0.0.2 and the destination prefix
length 33, otherwise as constructed. -/
def longDestPrefixFilter : MFClassifier.Filter :=
  { destAddr := .v4 0x0a000002, destPrefixLength := 33 }

/-! ### Configuration of the multi-field classifier (`MFClassifier::configure`) -/

/-- An XML element (`cXMLElement`), as far as the package reads it: its
attributes in document order and the text of `getSourceLocation()`. -/
structure cXMLElement where
  attributes : List (String × String)
  sourceLocation : String
deriving DecidableEq, Repr

/-- The accessor `getAttribute(attrName)`: the value of the attribute, or none
(a null pointer) when the element has no such attribute. -/
def cXMLElement.getAttribute (element : cXMLElement) (attrName : String) : Option String :=
  element.attributes.lookup attrName

/-- Modelled from the spec: the parsing functions of `DiffservUtil` are only
declared among the sources and `IPvXAddressResolver` is not among them; they
are taken as given functions from the text of an attribute (none for a null
pointer) and the attribute name to the value returned or the error raised. -/
structure AttributeParsers where
  parseDSCP : Option String → String → Except String Int
  parseProtocol : Option String → String → Except String Int
  parseIntAttribute : Option String → String → Except String Int
  resolve : String → Except String IPvXAddress

/-- The body of the `try` block of `MFClassifier::configure` up to the call of
`addFilter`: the filter built from the attributes of a `<filter>` element. The
mask is parsed from `tosAttr`, and no statement sets a prefix length, as in
the source. -/
def MFClassifier.filterOfElement (u : AttributeParsers) (filterElement : cXMLElement) :
    Except String MFClassifier.Filter := do
  let dscpAttr := filterElement.getAttribute "dscp"
  let srcAddrAttr := filterElement.getAttribute "srcAddress"
  let destAddrAttr := filterElement.getAttribute "destAddress"
  let protocolAttr := filterElement.getAttribute "protocol"
  let tosAttr := filterElement.getAttribute "tos"
  let tosMaskAttr := filterElement.getAttribute "tosMask"
  let srcPortAttr := filterElement.getAttribute "srcPort"
  let destPortAttr := filterElement.getAttribute "destPort"
  let filter : MFClassifier.Filter := {}
  let dscp ← u.parseDSCP dscpAttr "dscp"
  let filter := { filter with dscp := dscp }
  let filter ← match srcAddrAttr with
    | some attr => do
      let srcAddr ← u.resolve attr
      pure { filter with srcAddr := srcAddr }
    | none => pure filter
  let filter ← match destAddrAttr with
    | some attr => do
      let destAddr ← u.resolve attr
      pure { filter with destAddr := destAddr }
    | none => pure filter
  let filter ← match protocolAttr with
    | some _ => do
      let protocol ← u.parseProtocol protocolAttr "protocol"
      pure { filter with protocol := protocol }
    | none => pure filter
  let filter ← match tosAttr with
    | some _ => do
      let tos ← u.parseIntAttribute tosAttr "tos"
      pure { filter with tos := tos }
    | none => pure filter
  let filter ← match tosMaskAttr with
    | some _ => do
      let tosMask ← u.parseIntAttribute tosAttr "tosMask"
      pure { filter with tosMask := tosMask }
    | none => pure filter
  let filter ← match srcPortAttr with
    | some _ => do
      let srcPort ← u.parseIntAttribute srcPortAttr "srcPort"
      pure { filter with srcPortMin := srcPort, srcPortMax := srcPort }
    | none => pure filter
  let filter ← match destPortAttr with
    | some _ => do
      let destPort ← u.parseIntAttribute destPortAttr "destPort"
      pure { filter with destPortMin := destPort, destPortMax := destPort }
    | none => pure filter
  pure filter

/-- The method `MFClassifier::configure`, on the list of the `<filter>`
children of the configuration element: each filter is built and handed to
`addFilter`; an error raised on the way is raised again with the location of
the element, the filters added before staying in the list. -/
def MFClassifier.configure (u : AttributeParsers) (c : MFClassifier) :
    List cXMLElement → MFClassifier × Except String Unit
  | [] => (c, .ok ())
  | filterElement :: rest =>
    match MFClassifier.filterOfElement u filterElement with
    | .error e =>
      (c, .error ("Error in XML <filter> element at " ++ filterElement.sourceLocation ++ ": " ++ e))
    | .ok filter =>
      match c.addFilter filter with
      | (c1, .error e) =>
        (c1, .error ("Error in XML <filter> element at " ++ filterElement.sourceLocation
          ++ ": " ++ e))
      | (c1, .ok ()) => MFClassifier.configure u c1 rest

/-- The value of a decimal numeral, none for a text with another character. -/
def decimalValue : List Char → Nat → Option Nat
  | [], acc => some acc
  | ch :: rest, acc =>
    if ch.isDigit then decimalValue rest (10 * acc + (ch.toNat - 48)) else none

/-- The value of a dotted-decimal IPv4 address, none for a text with another
character. -/
def dottedValue : List Char → Nat → Nat → Option Nat
  | [], acc, cur => some (256 * acc + cur)
  | ch :: rest, acc, cur =>
    if ch = '.' then dottedValue rest (256 * acc + cur) 0
    else if ch.isDigit then dottedValue rest acc (10 * cur + (ch.toNat - 48))
    else none

/-- Parsing of a decimal attribute in the scenarios. -/
def parseDecimal (attrValue : Option String) (attrName : String) : Except String Int :=
  match attrValue with
  | none => .error ("missing " ++ attrName ++ " attribute")
  | some text =>
    match decimalValue text.data 0 with
    | some value => .ok value
    | none => .error ("malformed " ++ attrName ++ " attribute")

/-- The parsing functions assumed in the scenarios: numbers are decimal
numerals and addresses are dotted-decimal IPv4 addresses. -/
def scenarioParsers : AttributeParsers :=
  { parseDSCP := parseDecimal,
    parseProtocol := parseDecimal,
    parseIntAttribute := parseDecimal,
    resolve := fun text =>
      match dottedValue text.data 0 0 with
      | some addr => .ok (.v4 addr)
      | none => .error "cannot resolve address" }

/-- The rule `<filter dscp="46" tos="16" tosMask="255"/>`. -/
def tosRuleElement : cXMLElement :=
  { attributes := [("dscp", "46"), ("tos", "16"), ("tosMask", "255")],
    sourceLocation := "config.xml:3" }

/-- The rule `<filter dscp="46" srcAddress="10.0.0.1" srcPrefixLength="32"/>`. -/
def srcPrefixRuleElement : cXMLElement :=
  { attributes := [("dscp", "46"), ("srcAddress", "10.0.0.1"), ("srcPrefixLength", "32")],
    sourceLocation := "config.xml:4" }

/-- The rule `<filter dscp="46" destAddress="10.0.0.2" destPrefixLength="32"/>`. -/
def destPrefixRuleElement : cXMLElement :=
  { attributes := [("dscp", "46"), ("destAddress", "10.0.0.2"), ("destPrefixLength", "32")],
    sourceLocation := "config.xml:5" }

/-- An IPv4 datagram from 192.168.0.1 to 192.168.0.2 with ToS byte 17. -/
def foreignDatagram : IPv4Datagram :=
  { srcAddress := 0xc0a80001, destAddress := 0xc0a80002, transportProtocol := 17,
    typeOfService := 17, encapsulatedPacket := .udp 1000 2000, byteLength := 100 }

/-! ### Assignment of meters to code points (`TrafficConditioner::initialize`) -/

/-- A `<traffic-profile>` element after its attributes are read: the value of
the required attribute `meter`, and the code points that `parseDSCP` gives for
the tokens of the attribute `dscp`, none when the element has no such
attribute. -/
structure ProfileElement where
  meter : String
  dscp : Option (List Int)
deriving DecidableEq, Repr

/-- The assignment `dscpToMeterMap[index] = meter`; a write outside the array
is an error. -/
def setMeter (map : List (Option String)) (index : Int) (meter : String) :
    Except String (List (Option String)) :=
  if index < 0 ∨ (map.length : Int) ≤ index then .error "dscpToMeterMap: index out of range"
  else .ok (map.set index.toNat (some meter))

/-- The loop of `initialize` over the tokens of the attribute `dscp` of a
traffic profile, with its `ASSERT`. -/
def assignTokens (meter : String) :
    List (Option String) → List Int → Except String (List (Option String))
  | map, [] => .ok map
  | map, dscp :: rest =>
    if ¬ (0 ≤ dscp ∧ dscp ≤ DSCP_MAX) then .error "ASSERT: 0 <= dscp && dscp <= DSCP_MAX"
    else
      match setMeter map dscp meter with
      | .error e => .error e
      | .ok map1 => assignTokens meter map1 rest

/-- The loop `for (int j = 0; i < DSCP_MAX; ++j) dscpToMeterMap[j] = meter;` of
a traffic profile without the attribute `dscp`, from the index `j` on and for
at most `fuel` evaluations of its condition: none when they are used up before
the loop ends. The condition tests `i`, the index of the profile element, as
in the source. -/
def assignAll (i : Int) (meter : String) :
    Nat → Int → List (Option String) → Option (Except String (List (Option String)))
  | 0, _, _ => none
  | fuel + 1, j, map =>
    if i < DSCP_MAX then
      match setMeter map j meter with
      | .error e => some (.error e)
      | .ok map1 => assignAll i meter fuel (j + 1) map1
    else some (.ok map)

/-- The loop of `initialize` over the traffic profiles, from the element of
index `i` on; each loop over all code points has `fuel` evaluations of its
condition. -/
def assignProfiles (meters : List (String × IMeter)) (fuel : Nat) :
    Int → List ProfileElement → List (Option String) →
      Option (Except String (List (Option String)))
  | _, [], map => some (.ok map)
  | i, profileElement :: rest, map =>
    match meters.lookup profileElement.meter with
    | none => some (.error ("meter named '" ++ profileElement.meter ++ "' not found"))
    | some _ =>
      match (match profileElement.dscp with
             | some tokens => some (assignTokens profileElement.meter map tokens)
             | none => assignAll i profileElement.meter fuel 0 map) with
      | none => none
      | some (.error e) => some (.error e)
      | some (.ok map1) => assignProfiles meters fuel (i + 1) rest map1

/-- The part of `initialize` that assigns meters to code points: nothing is
done for an empty list of traffic profiles; otherwise the array of `DSCP_MAX`
null entries is allocated and the profiles are processed in order. The result
is none when a loop does not end within `fuel` evaluations of its condition. -/
def TrafficConditioner.initializeProfiles (tc : TrafficConditioner) (fuel : Nat)
    (profileElements : List ProfileElement) : Option (Except String TrafficConditioner) :=
  if profileElements.isEmpty then some (.ok tc)
  else
    match assignProfiles tc.meters fuel 0 profileElements
        (List.replicate DSCP_MAX.toNat none) with
    | none => none
    | some (.error e) => some (.error e)
    | some (.ok map) => some (.ok { tc with dscpToMeterMap := some map })

/-- Two token buckets named `a` and `b`. -/
def scenarioTwoMeters : List (String × IMeter) :=
  [("a", .tokenBucket emptyTokenBucket), ("b", .tokenBucket emptyTokenBucket)]

/-! ### Runs of the token bucket -/

/-- The total size in bits of the packets that the token bucket colors GREEN
in a sequence of arrivals, each given by the clock value of the call and the
packet. -/
def TokenBucket.greenBits (m : TokenBucket) : List (ℚ × Packet) → Int
  | [] => 0
  | a :: rest =>
    (if (m.packetArrived a.1 a.2).2 = GREEN then 8 * a.2.getByteLength else 0)
      + TokenBucket.greenBits (m.packetArrived a.1 a.2).1 rest

/-- The refill amounts of a sequence of arrivals, in the words of the
specification: `floor(elapsed * CIR)` for each arrival, `elapsed` being the
time since the previous call. -/
def TokenBucket.refillAmounts (m : TokenBucket) : List (ℚ × Packet) → List Int
  | [] => []
  | a :: rest =>
    ⌊(a.1 - m.lastUpdateTime) * m.CIR⌋
      :: TokenBucket.refillAmounts (m.packetArrived a.1 a.2).1 rest

/-- The refill amounts of a sequence of arrivals as the source computes them:
`(long)(SIMTIME_DBL(elapsed) * CIR)` for each arrival. -/
def TokenBucket.numTokensOf (m : TokenBucket) : List (ℚ × Packet) → List Int
  | [] => []
  | a :: rest =>
    numTokens (a.1 - m.lastUpdateTime) m.CIR
      :: TokenBucket.numTokensOf (m.packetArrived a.1 a.2).1 rest

/-- The colors that the token bucket returns for a sequence of arrivals. -/
def TokenBucket.colors (m : TokenBucket) : List (ℚ × Packet) → List Int
  | [] => []
  | a :: rest =>
    (m.packetArrived a.1 a.2).2 :: TokenBucket.colors (m.packetArrived a.1 a.2).1 rest

/-- The arrivals of the given packets one second apart, the first at time `t`. -/
def secondApart (t : ℚ) : List Packet → List (ℚ × Packet)
  | [] => []
  | p :: rest => (t, p) :: secondApart (t + 1) rest

/-! ## Theorems -/

/-! ### Arithmetic of the types `double`, `long` and `int` -/

theorem truncToLong_eq_floor {x : ℚ} (h : 0 ≤ x) : truncToLong x = ⌊x⌋ := by
  simp [truncToLong, h]

theorem truncToLong_nonneg {x : ℚ} (h : 0 ≤ x) : 0 ≤ truncToLong x := by
  rw [truncToLong_eq_floor h]
  exact Int.floor_nonneg.mpr h

theorem roundHalfEven_eq (x : ℚ) (n : Int) (h : |x - n| < 1 / 2) : roundHalfEven x = n := by
  rw [abs_lt] at h
  have hf1 : (⌊x⌋ : ℚ) ≤ x := Int.floor_le x
  have hf2 : x < ⌊x⌋ + 1 := Int.lt_floor_add_one x
  unfold roundHalfEven
  split_ifs with h1 h2 h3
  · have a : (n : ℚ) < ⌊x⌋ + 1 := by linarith
    have b : (⌊x⌋ : ℚ) < n + 1 := by linarith
    have a' : n < ⌊x⌋ + 1 := by exact_mod_cast a
    have b' : ⌊x⌋ < n + 1 := by exact_mod_cast b
    omega
  · have a : (n : ℚ) < ⌊x⌋ + 2 := by linarith
    have b : (⌊x⌋ : ℚ) < n := by linarith
    have a' : n < ⌊x⌋ + 2 := by exact_mod_cast a
    have b' : ⌊x⌋ < n := by exact_mod_cast b
    omega
  · exfalso
    have e : x - ⌊x⌋ = 1 / 2 := le_antisymm (not_lt.mp h2) (not_lt.mp h1)
    have a : (n : ℚ) < ⌊x⌋ + 1 := by linarith
    have b : (⌊x⌋ : ℚ) < n := by linarith
    have a' : n < ⌊x⌋ + 1 := by exact_mod_cast a
    have b' : ⌊x⌋ < n := by exact_mod_cast b
    omega
  · exfalso
    have e : x - ⌊x⌋ = 1 / 2 := le_antisymm (not_lt.mp h2) (not_lt.mp h1)
    have a : (n : ℚ) < ⌊x⌋ + 1 := by linarith
    have b : (⌊x⌋ : ℚ) < n := by linarith
    have a' : n < ⌊x⌋ + 1 := by exact_mod_cast a
    have b' : ⌊x⌋ < n := by exact_mod_cast b
    omega

theorem roundHalfEven_nonneg {x : ℚ} (h : 0 ≤ x) : 0 ≤ roundHalfEven x := by
  have hf : 0 ≤ ⌊x⌋ := Int.floor_nonneg.mpr h
  unfold roundHalfEven
  split_ifs <;> omega

theorem doubleSpacing_pos (x : ℚ) : 0 < doubleSpacing x := by
  unfold doubleSpacing
  positivity

theorem doubleSpacing_eq (x : ℚ) (e : Int) (he : -1022 ≤ e) (h1 : (2 : ℚ) ^ e ≤ |x|)
    (h2 : |x| < (2 : ℚ) ^ (e + 1)) : doubleSpacing x = 2 ^ (e - 52) := by
  have hpos : 0 < |x| := lt_of_lt_of_le (by positivity) h1
  have a : e ≤ Int.log 2 |x| :=
    (Int.zpow_le_iff_le_log (by norm_num) hpos).mp (by exact_mod_cast h1)
  have b : Int.log 2 |x| < e + 1 :=
    (Int.lt_zpow_iff_log_lt (by norm_num) hpos).mp (by exact_mod_cast h2)
  have c : Int.log 2 |x| = e := by omega
  unfold doubleSpacing
  rw [c, max_eq_left he]

theorem roundToDouble_zero : roundToDouble 0 = 0 := by simp [roundToDouble]

theorem roundToDouble_nonneg {x : ℚ} (h : 0 ≤ x) : 0 ≤ roundToDouble x := by
  unfold roundToDouble
  split_ifs
  · exact le_refl 0
  · have hq := doubleSpacing_pos x
    have : 0 ≤ roundHalfEven (x / doubleSpacing x) := roundHalfEven_nonneg (div_nonneg h hq.le)
    have h2 : (0 : ℚ) ≤ (roundHalfEven (x / doubleSpacing x) : ℚ) := by exact_mod_cast this
    positivity

/-- The double nearest to `x`, from the binade `2 ^ e ≤ |x| < 2 ^ (e + 1)` of
`x` and the integer `n` nearest to `x` in units of the spacing `q`. -/
theorem roundToDouble_eq (x : ℚ) (e n : Int) (q : ℚ) (hq : q = 2 ^ (e - 52)) (he : -1022 ≤ e)
    (h1 : (2 : ℚ) ^ e ≤ |x|) (h2 : |x| < (2 : ℚ) ^ (e + 1)) (hn : |x / q - n| < 1 / 2) :
    roundToDouble x = n * q := by
  have hx : x ≠ 0 := by
    intro h0
    rw [h0, abs_zero] at h1
    exact absurd h1 (not_le.mpr (by positivity))
  unfold roundToDouble
  rw [if_neg hx, doubleSpacing_eq x e he h1 h2, ← hq, roundHalfEven_eq _ n hn]

theorem roundToDouble_one : roundToDouble 1 = 1 := by
  rw [roundToDouble_eq 1 0 (2 ^ 52) (1 / 2 ^ 52) (by norm_num) (by norm_num) (by norm_num)
    (by norm_num) (by norm_num)]
  norm_num

theorem roundToDouble_million : roundToDouble 1000000 = 1000000 := by
  rw [roundToDouble_eq 1000000 19 (1000000 * 2 ^ 33) (1 / 2 ^ 33) (by norm_num) (by norm_num)
    (by norm_num) (by norm_num) (by norm_num)]
  norm_num

theorem toInt_eq {x : Int} (h0 : 0 ≤ x) (h1 : x < 2 ^ 31) : toInt x = x := by
  unfold toInt
  omega

theorem numTokens_nonneg {elapsed rate : ℚ} (he : 0 ≤ elapsed) (hr : 0 ≤ rate) :
    0 ≤ numTokens elapsed rate :=
  truncToLong_nonneg (roundToDouble_nonneg (mul_nonneg (roundToDouble_nonneg he) hr))

theorem numTokens_zero_rate (elapsed : ℚ) : numTokens elapsed 0 = 0 := by
  simp [numTokens, roundToDouble_zero, truncToLong]

theorem numTokens_second_million : numTokens 1 1000000 = 1000000 := by
  simp only [numTokens, SIMTIME_DBL, roundToDouble_one, one_mul, roundToDouble_million]
  rw [truncToLong_eq_floor (by norm_num)]
  rw [Int.floor_eq_iff]; norm_num

theorem tokenBucket_packetArrived_frame (m : TokenBucket) (now : ℚ) (p : Packet) :
    (m.packetArrived now p).1.CIR = m.CIR ∧ (m.packetArrived now p).1.CBS = m.CBS ∧
    (m.packetArrived now p).1.lastUpdateTime = now := by
  simp only [TokenBucket.packetArrived]
  split_ifs <;> exact ⟨rfl, rfl, rfl⟩

/-- C2, at a token bucket with CIR = 0 and CBS = 0 and a one-byte packet:
`packetArrived` returns RED, the integer 2, while `getNumberOfColors` is 2, so
the returned color is not below the number of colors of the meter. The two
three-color markers do return colors from 0 up to, and not including, their
number of colors, in every state and for every packet. -/
theorem tokenBucket_red_not_below_number_of_colors :
    (emptyTokenBucket.packetArrived 0 (Packet.other 1)).2 = RED ∧
    RED = 2 ∧
    emptyTokenBucket.getNumberOfColors = 2 ∧
    ¬ (emptyTokenBucket.packetArrived 0 (Packet.other 1)).2
        < emptyTokenBucket.getNumberOfColors ∧
    (∀ (m : SRTCM) (now : ℚ) (p : Packet),
      0 ≤ (m.packetArrived now p).2 ∧ (m.packetArrived now p).2 < m.getNumberOfColors) ∧
    (∀ (m : TRTCM) (now : ℚ) (p : Packet),
      0 ≤ (m.packetArrived now p).2 ∧ (m.packetArrived now p).2 < m.getNumberOfColors) := by
  refine ⟨?_, rfl, rfl, ?_, ?_, ?_⟩
  · norm_num [emptyTokenBucket, TokenBucket.configure, TokenBucket.packetArrived,
      TokenBucket.refill, SIMTIME_DBL, roundToDouble_zero, truncToLong, toInt,
      Packet.getByteLength]
  · norm_num [emptyTokenBucket, TokenBucket.configure, TokenBucket.packetArrived,
      TokenBucket.refill, TokenBucket.getNumberOfColors, SIMTIME_DBL, roundToDouble_zero,
      truncToLong, toInt, Packet.getByteLength, RED]
  · intro m now p
    simp only [SRTCM.packetArrived, SRTCM.getNumberOfColors]
    split_ifs <;> simp [GREEN, YELLOW, RED]
  · intro m now p
    simp only [TRTCM.packetArrived, TRTCM.getNumberOfColors]
    split_ifs <;> simp [GREEN, YELLOW, RED]

theorem packet_sizeInBits_nonneg (p : Packet) : (0 : Int) ≤ 8 * p.getByteLength := by
  cases p <;> simp [Packet.getByteLength]

theorem packetSizeInBits_eq (p : Packet) (hs : 8 * p.getByteLength < 2 ^ 31) :
    toInt (8 * p.getByteLength) = 8 * p.getByteLength :=
  toInt_eq (packet_sizeInBits_nonneg p) hs

/-- C1, evaluated on the conditioner built from `mark dscp=1 value=2`,
`shape dscp=1` (shaper `A`) and `shape dscp=2` (shaper `B`): for a packet of
class 1 the cell `(1,0)` holds mark-to-2-and-shape, the packet is marked 2 and
then given to `B`, the shaper registered under `(2,0)`, not to `A`, the one
registered under the original key `(1,0)`. With `A` passing and `B` holding
every packet, nothing is sent, where `A` would have returned the packet. -/
theorem conditionPacket_mark_and_shape_uses_marked_key :
    (∀ (A B : ITrafficShaper) (now : ℚ) (packet : Packet),
      ((markAndShapeConditioner A B).getActionCode 1 GREEN).toOption
          = some (toUnsignedChar (MarkAndShapeAction 2)) ∧
      ((markAndShapeConditioner A B).conditionPacket now packet 1).toOption.map Prod.snd
        = some (B.shapePacket (TrafficConditioner.markPacket packet 2))) ∧
    ((markAndShapeConditioner passingShaper holdingShaper).conditionPacket 0
        (Packet.ipv4 scenarioDatagram) 1).toOption.map Prod.snd = some none ∧
    passingShaper.shapePacket (TrafficConditioner.markPacket (Packet.ipv4 scenarioDatagram) 2)
      = some (Packet.ipv4 { scenarioDatagram with typeOfService := 2 }) := by
  have key : ∀ (A B : ITrafficShaper) (now : ℚ) (packet : Packet),
      ((markAndShapeConditioner A B).conditionPacket now packet 1).toOption.map Prod.snd
        = some (B.shapePacket (TrafficConditioner.markPacket packet 2)) := by
    intro A B now packet
    rfl
  refine ⟨fun A B now packet => ⟨rfl, key A B now packet⟩, ?_, rfl⟩
  rw [key]
  rfl

/-- C3, evaluated on a conditioner whose only meter is a token bucket:
`numColors` is 2 and the action table has `DSCP_MAX * numColors = 128` cells;
a one-byte packet of class 0 is metered RED (2), so `conditionPacket` reads the
cell of index `DSCP_MAX * 2 + 0 = 128`, which is not below 128: the read is
outside the table. -/
theorem conditionPacket_reads_outside_action_table :
    tokenBucketConditioner.numColors = 2 ∧
    tokenBucketConditioner.actions.map List.length = some 128 ∧
    DSCP_MAX * tokenBucketConditioner.numColors = 128 ∧
    (tokenBucketConditioner.meterPacket 0 (Packet.other 1) 0).toOption.map Prod.snd
      = some RED ∧
    TrafficConditioner.actionIndex 0 RED = 128 ∧
    ¬ TrafficConditioner.actionIndex 0 RED < DSCP_MAX * tokenBucketConditioner.numColors ∧
    (tokenBucketConditioner.conditionPacket 0 (Packet.other 1) 0).toOption.map Prod.snd
      = none := by
  have hn : tokenBucketConditioner.numColors = 2 := by
    simp [tokenBucketConditioner, TrafficConditioner.numColorsOfMeters,
      IMeter.getNumberOfColors, TokenBucket.getNumberOfColors]
  have hc : (emptyTokenBucket.packetArrived 0 (Packet.other 1)).2 = RED := by
    norm_num [emptyTokenBucket, TokenBucket.configure, TokenBucket.packetArrived,
      TokenBucket.refill, SIMTIME_DBL, roundToDouble_zero, truncToLong, toInt,
      Packet.getByteLength]
  have hm : (tokenBucketConditioner.meterPacket 0 (Packet.other 1) 0).toOption.map Prod.snd
      = some RED := by
    simp [tokenBucketConditioner, TrafficConditioner.meterPacket, DSCP_MAX, List.lookup,
      IMeter.packetArrived, hc, Except.toOption]
  refine ⟨hn, ?_, ?_, hm, ?_, ?_, ?_⟩
  · simp [tokenBucketConditioner]
  · rw [hn]; decide
  · decide
  · rw [hn]; decide
  · simp [tokenBucketConditioner, TrafficConditioner.conditionPacket,
      TrafficConditioner.meterPacket, TrafficConditioner.getActionCode,
      TrafficConditioner.actionIndex, DSCP_MAX, List.lookup,
      IMeter.packetArrived, hc, Except.toOption, RED]

/-! ### Multi-field classifier: the first matching filter decides -/

theorem scanFilters_first (test : MFClassifier.Filter → Except String Bool)
    (pre : List MFClassifier.Filter) (f : MFClassifier.Filter)
    (post : List MFClassifier.Filter)
    (hpre : ∀ g ∈ pre, test g = .ok false) (hf : test f = .ok true) :
    MFClassifier.scanFilters test (pre ++ f :: post) = .ok f.dscp := by
  induction pre with
  | nil => simp [MFClassifier.scanFilters, hf]
  | cons g pre ih =>
    have hg : test g = .ok false := hpre g (List.mem_cons_self g pre)
    simp only [List.cons_append, MFClassifier.scanFilters, hg]
    exact ih (fun x hx => hpre x (List.mem_cons_of_mem g hx))

theorem scanFilters_none (test : MFClassifier.Filter → Except String Bool)
    (filters : List MFClassifier.Filter) (h : ∀ g ∈ filters, test g = .ok false) :
    MFClassifier.scanFilters test filters = .ok DSCP_BE := by
  induction filters with
  | nil => rfl
  | cons g rest ih =>
    have hg : test g = .ok false := h g (List.mem_cons_self g rest)
    simp only [MFClassifier.scanFilters, hg]
    exact ih (fun x hx => h x (List.mem_cons_of_mem g hx))

/-- C10: for every filter list and every IPv4 or IPv6 datagram,
`MFClassifier::classifyPacket` returns the code point of the first filter in
list order whose `matches()` is true (every filter before it having returned
false), whatever filters follow it; it returns BE (0) when every filter
returns false, when the list is empty, and when the packet is not an IP
datagram. -/
theorem mfClassifier_first_match_decides (pre : List MFClassifier.Filter)
    (f : MFClassifier.Filter) (post filters : List MFClassifier.Filter)
    (d4 : IPv4Datagram) (d6 : IPv6Datagram) (n : Nat) :
    ((∀ g ∈ pre, g.matchesIPv4 d4 = .ok false) → f.matchesIPv4 d4 = .ok true →
      (MFClassifier.mk (pre ++ f :: post)).classifyPacket (.ipv4 d4) = .ok f.dscp) ∧
    ((∀ g ∈ pre, g.matchesIPv6 d6 = .ok false) → f.matchesIPv6 d6 = .ok true →
      (MFClassifier.mk (pre ++ f :: post)).classifyPacket (.ipv6 d6) = .ok f.dscp) ∧
    ((∀ g ∈ filters, g.matchesIPv4 d4 = .ok false) →
      (MFClassifier.mk filters).classifyPacket (.ipv4 d4) = .ok DSCP_BE) ∧
    ((∀ g ∈ filters, g.matchesIPv6 d6 = .ok false) →
      (MFClassifier.mk filters).classifyPacket (.ipv6 d6) = .ok DSCP_BE) ∧
    (MFClassifier.mk []).classifyPacket (.ipv4 d4) = .ok DSCP_BE ∧
    (MFClassifier.mk []).classifyPacket (.ipv6 d6) = .ok DSCP_BE ∧
    (MFClassifier.mk filters).classifyPacket (.other n) = .ok DSCP_BE ∧
    DSCP_BE = 0 :=
  ⟨fun hpre hf => scanFilters_first _ pre f post hpre hf,
   fun hpre hf => scanFilters_first _ pre f post hpre hf,
   fun h => scanFilters_none _ filters h,
   fun h => scanFilters_none _ filters h,
   rfl, rfl, rfl, rfl⟩

/-- Scenario 3 through the theorem of C10: with the filters
`[{protocol=UDP, dscp=EF}, {dscp=BE}]` a UDP datagram is classified EF (the
first filter matches, the wildcard after it is not consulted) and a TCP
datagram is classified BE (the first filter returns false, the second true). -/
theorem mfClassifier_first_match_decides_scenario :
    (MFClassifier.mk scenarioFilters).classifyPacket (.ipv4 scenarioUdpDatagram) = .ok DSCP_EF ∧
    (MFClassifier.mk scenarioFilters).classifyPacket (.ipv4 scenarioTcpDatagram) = .ok DSCP_BE :=
  ⟨(mfClassifier_first_match_decides [] { protocol := IP_PROT_UDP, dscp := DSCP_EF }
      [{ dscp := DSCP_BE }] [] scenarioUdpDatagram
      ⟨0, 0, 0, 0, .none, 0⟩ 0).1 (by simp) rfl,
   (mfClassifier_first_match_decides [{ protocol := IP_PROT_UDP, dscp := DSCP_EF }]
      { dscp := DSCP_BE } [] [] scenarioTcpDatagram
      ⟨0, 0, 0, 0, .none, 0⟩ 0).1
      (by
        intro g hg
        rw [List.mem_singleton] at hg
        subst hg
        rfl)
      rfl⟩

/-! ### Action codes -/

theorem lor_64_of_dscp {D : Int} (h0 : 0 ≤ D) (h1 : D < 64) : Int.lor D 0x40 = D + 64 := by
  lift D to Nat using h0
  have hm : D < 64 := by omega
  exact (by decide : ∀ m : Fin 64, Int.lor (m.val : Int) 0x40 = m.val + 64) ⟨D, hm⟩

theorem land_63_nat (x : Nat) : Int.land (x : Int) 0x3f = ((x % 64 : Nat) : Int) := by
  have : Int.land (x : Int) 0x3f = ((x &&& 63 : Nat) : Int) := rfl
  rw [this]
  have := Nat.and_pow_two_sub_one_eq_mod x 6
  simp at this
  rw [this]

theorem toUnsignedChar_of_byte {x : Int} (h0 : 0 ≤ x) (h1 : x < 256) :
    toUnsignedChar x = x.toNat := by
  unfold toUnsignedChar
  rw [Int.emod_eq_of_lt h0 h1]

theorem isMarkAction_of_lt {x : Nat} (h : x < 128) : isMarkAction x = true := by
  have : Int.land (x : Int) 0x80 = ((x &&& 128 : Nat) : Int) := rfl
  have h2 := (by decide : ∀ y : Fin 128, y.val &&& 128 = 0) ⟨x, h⟩
  simp only at h2
  simp [isMarkAction, this, h2]

set_option maxRecDepth 100000 in
theorem isMarkAction_byte {x : Nat} (h0 : 128 ≤ x) (h : x < 256) : isMarkAction x = false := by
  have : Int.land (x : Int) 0x80 = ((x &&& 128 : Nat) : Int) := rfl
  have h2 := (by decide : ∀ y : Fin 256, 128 ≤ y.val → y.val &&& 128 = 128) ⟨x, h⟩ h0
  simp only at h2
  simp [isMarkAction, this, h2]

theorem shapeCode_of_isMark {x : Nat} (h : isMarkAction x = true) :
    shapeCode x = (x % 64 + 64 : Nat) := by
  have hx : x ≠ 255 := by
    rintro rfl
    exact absurd h (by decide)
  have hb : (0 : Int) ≤ ((x % 64 : Nat) : Int) ∧ ((x % 64 : Nat) : Int) < 64 := by omega
  have hn : ((x : Int) == NopAction) = false := by
    simp only [NopAction, beq_eq_false_iff_ne, ne_eq]; omega
  unfold shapeCode
  rw [hn, h]
  simp only [MarkAndShapeAction, DscpOfMarkAction, land_63_nat, lor_64_of_dscp hb.1 hb.2,
    Bool.false_eq_true, if_false, if_true]
  rw [toUnsignedChar_of_byte (by omega) (by omega)]
  have key : ((((x % 64 : Nat) : Int) + 64).toNat : Nat) = x % 64 + 64 := by omega
  exact key

theorem shapeCode_of_not_isMark {x : Nat} (h : isMarkAction x = false) (hx : x ≠ 255) :
    shapeCode x = (x : Nat) := by
  have hn : ((x : Int) == NopAction) = false := by
    simp only [NopAction, beq_eq_false_iff_ne, ne_eq]; omega
  unfold shapeCode
  rw [hn, h]
  simp

theorem shapeCode_255 : shapeCode 255 = (253 : Nat) := by decide

theorem shapeCode_idem (x : Nat) : shapeCode (shapeCode x) = shapeCode x := by
  by_cases h255 : x = 255
  · subst h255; decide
  · cases hm : isMarkAction x
    · rw [shapeCode_of_not_isMark hm h255, shapeCode_of_not_isMark hm h255]
    · rw [shapeCode_of_isMark hm]
      have hy : isMarkAction (x % 64 + 64) = true := isMarkAction_of_lt (by omega)
      rw [shapeCode_of_isMark hy]
      have key : ((x % 64 + 64) % 64 + 64 : Nat) = x % 64 + 64 := by omega
      exact key


/-! ### Cells of the action table -/

theorem cellIndex_lt {n : Nat} {d c : Int} (hd0 : 0 ≤ d) (hd1 : d < 64) (hc0 : 0 ≤ c)
    (hc1 : c < (n : Int)) : 0 ≤ c * DSCP_MAX + d ∧ (c * DSCP_MAX + d).toNat < 64 * n := by
  simp only [DSCP_MAX]
  constructor <;> omega

theorem cellIndex_inj {d c d' c' : Int} (hd0 : 0 ≤ d) (hd1 : d < 64) (hc0 : 0 ≤ c)
    (hd0' : 0 ≤ d') (hd1' : d' < 64) (hc0' : 0 ≤ c') :
    (c * DSCP_MAX + d).toNat = (c' * DSCP_MAX + d').toNat ↔ (d = d' ∧ c = c') := by
  simp only [DSCP_MAX]
  constructor
  · intro h; constructor <;> omega
  · rintro ⟨rfl, rfl⟩; rfl

theorem getActionCode_eq_code {tc : TrafficConditioner} {n : Nat} (ht : tc.TableOk n)
    {d c : Int} (hd0 : 0 ≤ d) (hd1 : d < 64) (hc0 : 0 ≤ c) (hc1 : c < (n : Int)) :
    tc.getActionCode d c = .ok (tc.code d c) := by
  obtain ⟨actions, ha, hl⟩ := ht
  obtain ⟨h0, h1⟩ := cellIndex_lt hd0 hd1 hc0 hc1
  have hidx : TrafficConditioner.actionIndex d c = c * DSCP_MAX + d := by
    simp only [TrafficConditioner.actionIndex]; ring
  have hlt : (c * DSCP_MAX + d).toNat < actions.length := by omega
  simp only [TrafficConditioner.getActionCode, TrafficConditioner.code, ha, hidx,
    Option.getD_some, List.getD_eq_getElem?_getD, List.getElem?_eq_getElem hlt,
    Option.getD_some]
  rw [if_neg (by omega)]

theorem setActionCode_eq_updateCell {tc : TrafficConditioner} {n : Nat} (ht : tc.TableOk n)
    {d c : Int} (hd0 : 0 ≤ d) (hd1 : d < 64) (hc0 : 0 ≤ c) (hc1 : c < (n : Int)) (a : Int) :
    tc.setActionCode d c a = .ok (tc.updateCell d c (fun _ => toUnsignedChar a) none) := by
  obtain ⟨actions, ha, hl⟩ := ht
  obtain ⟨h0, h1⟩ := cellIndex_lt hd0 hd1 hc0 hc1
  simp only [TrafficConditioner.setActionCode, TrafficConditioner.updateCell, ha, Option.map_some']
  rw [if_neg (by omega)]

theorem updateCell_id_of_fix {tc : TrafficConditioner} {n : Nat} (ht : tc.TableOk n)
    {d c : Int} (g : ActionCode → ActionCode) (hg : g (tc.code d c) = tc.code d c) :
    tc.updateCell d c g none = tc := by
  obtain ⟨actions, ha, hl⟩ := ht
  have : actions.set (c * DSCP_MAX + d).toNat (g (actions.getD (c * DSCP_MAX + d).toNat 0))
      = actions := by
    have hg' : g (actions.getD (c * DSCP_MAX + d).toNat 0)
        = actions.getD (c * DSCP_MAX + d).toNat 0 := by
      simpa [TrafficConditioner.code, ha] using hg
    rw [hg']
    apply List.ext_getElem?
    intro i
    rw [List.getElem?_set]
    split_ifs with h1 h2
    · subst h1
      simp [List.getD_eq_getElem?_getD, List.getElem?_eq_getElem h2]
    · subst h1
      rw [List.getElem?_eq_none (by omega)]
    · rfl
  cases tc
  simp only [TrafficConditioner.updateCell] at *
  subst ha
  simp only [Option.map_some', this]


theorem updateCell_congr (tc : TrafficConditioner) (d c : Int) (g g' : ActionCode → ActionCode)
    (s : Option ITrafficShaper) (h : g (tc.code d c) = g' (tc.code d c)) :
    tc.updateCell d c g s = tc.updateCell d c g' s := by
  cases tc with
  | mk cl me dm nc actions sh =>
    cases actions with
    | none => rfl
    | some actions =>
      simp only [TrafficConditioner.code, Option.getD_some] at h
      simp only [TrafficConditioner.updateCell, Option.map_some', h]

theorem updateCell_tableOk {tc : TrafficConditioner} {n : Nat} (ht : tc.TableOk n) (d c : Int)
    (g : ActionCode → ActionCode) (s : Option ITrafficShaper) :
    (tc.updateCell d c g s).TableOk n := by
  obtain ⟨actions, ha, hl⟩ := ht
  refine ⟨actions.set (c * DSCP_MAX + d).toNat (g (actions.getD (c * DSCP_MAX + d).toNat 0)),
    ?_, ?_⟩
  · simp only [TrafficConditioner.updateCell, ha, Option.map_some']
  · rw [List.length_set]; exact hl

theorem code_updateCell {tc : TrafficConditioner} {n : Nat} (ht : tc.TableOk n)
    {d c d' c' : Int} (hd0 : 0 ≤ d) (hd1 : d < 64) (hc0 : 0 ≤ c) (hc1 : c < (n : Int))
    (hd0' : 0 ≤ d') (hd1' : d' < 64) (hc0' : 0 ≤ c')
    (g : ActionCode → ActionCode) (s : Option ITrafficShaper) :
    (tc.updateCell d c g s).code d' c'
      = if d' = d ∧ c' = c then g (tc.code d c) else tc.code d' c' := by
  obtain ⟨actions, ha, hl⟩ := ht
  obtain ⟨h0, h1⟩ := cellIndex_lt hd0 hd1 hc0 hc1
  have hinj := @cellIndex_inj d c d' c' hd0 hd1 hc0 hd0' hd1' hc0'
  simp only [TrafficConditioner.code, TrafficConditioner.updateCell, ha, Option.map_some',
    Option.getD_some, List.getD_eq_getElem?_getD, List.getElem?_set]
  by_cases h : d' = d ∧ c' = c
  · obtain ⟨rfl, rfl⟩ := h
    simp only [and_self, if_true]
    rw [if_pos (by omega)]
    rfl
  · rw [if_neg h, if_neg]
    intro heq
    exact h ((hinj.mp heq).elim fun a b => ⟨a.symm, b.symm⟩)

theorem lookup_filter_ne (shapers : List ((Int × Int) × ITrafficShaper)) (key k : Int × Int)
    (h : k ≠ key) :
    (shapers.filter (fun entry => entry.1 != key)).lookup k = shapers.lookup k := by
  have hb : (k == key) = false := by simpa using h
  induction shapers with
  | nil => rfl
  | cons e rest ih =>
    obtain ⟨ek, ev⟩ := e
    by_cases he : ek = key
    · subst he
      have : (((ek, ev) : (Int × Int) × ITrafficShaper).1 != ek) = false := by simp
      rw [List.filter_cons, this]
      simp only [Bool.false_eq_true, if_false, List.lookup_cons, hb]
      exact ih
    · have : (((ek, ev) : (Int × Int) × ITrafficShaper).1 != key) = true := by simp [he]
      rw [List.filter_cons, this]
      simp only [if_true, List.lookup_cons]
      rw [ih]

theorem lookup_setShaper (shapers : List ((Int × Int) × ITrafficShaper)) (key k : Int × Int)
    (sh : ITrafficShaper) :
    (setShaper shapers key sh).lookup k = if k = key then some sh else shapers.lookup k := by
  simp only [setShaper, List.lookup_cons]
  by_cases h : k = key
  · subst h; simp
  · have hb : (k == key) = false := by simpa using h
    rw [hb, if_neg h]
    exact lookup_filter_ne shapers key k h

theorem lookup_updateCell (tc : TrafficConditioner) (d c : Int) (g : ActionCode → ActionCode)
    (s : Option ITrafficShaper) (k : Int × Int) :
    (tc.updateCell d c g s).shapers.lookup k
      = match s with
        | some sh => if k = (d, c) then some sh else tc.shapers.lookup k
        | none => tc.shapers.lookup k := by
  cases s with
  | none => rfl
  | some sh => simp only [TrafficConditioner.updateCell, lookup_setShaper]

theorem dropCell_eq {tc : TrafficConditioner} {n : Nat} (ht : tc.TableOk n)
    {d c : Int} (hd0 : 0 ≤ d) (hd1 : d < 64) (hc0 : 0 ≤ c) (hc1 : c < (n : Int)) :
    tc.dropCell d c = .ok (tc.updateCell d c (fun _ => toUnsignedChar DropAction) none) :=
  setActionCode_eq_updateCell ht hd0 hd1 hc0 hc1 DropAction

theorem markCell_eq {tc : TrafficConditioner} {n : Nat} (ht : tc.TableOk n) (value : Int)
    {d c : Int} (hd0 : 0 ≤ d) (hd1 : d < 64) (hc0 : 0 ≤ c) (hc1 : c < (n : Int)) :
    TrafficConditioner.markCell value tc d c
      = .ok (tc.updateCell d c (markCode (if value != -1 then value else d)) none) := by
  simp only [TrafficConditioner.markCell, getActionCode_eq_code ht hd0 hd1 hc0 hc1]
  generalize (if (value != -1) = true then value else d) = D
  split_ifs with h1 h2
  · rw [setActionCode_eq_updateCell ht hd0 hd1 hc0 hc1]
    congr 1
    apply updateCell_congr
    simp only [markCode, h1, if_true]
  · rw [setActionCode_eq_updateCell ht hd0 hd1 hc0 hc1]
    congr 1
    apply updateCell_congr
    simp only [markCode, h1, h2, if_true, Bool.false_eq_true, if_false]
  · congr 1
    symm
    apply updateCell_id_of_fix ht
    simp only [markCode, h1, h2, Bool.false_eq_true, if_false]

theorem shapeCell_eq {tc : TrafficConditioner} {n : Nat} (ht : tc.TableOk n)
    (shaper : ITrafficShaper)
    {d c : Int} (hd0 : 0 ≤ d) (hd1 : d < 64) (hc0 : 0 ≤ c) (hc1 : c < (n : Int)) :
    TrafficConditioner.shapeCell shaper tc d c
      = .ok (tc.updateCell d c shapeCode (some shaper)) := by
  have key : (if ((tc.code d c : Nat) : Int) == NopAction then tc.setActionCode d c ShapeAction
           else if isMarkAction (tc.code d c) then
             tc.setActionCode d c (MarkAndShapeAction (DscpOfMarkAction (tc.code d c)))
           else .ok tc) = .ok (tc.updateCell d c shapeCode none) := by
    split_ifs with h1 h2
    · rw [setActionCode_eq_updateCell ht hd0 hd1 hc0 hc1]
      congr 1
      apply updateCell_congr
      simp only [shapeCode, h1, if_true]
    · rw [setActionCode_eq_updateCell ht hd0 hd1 hc0 hc1]
      congr 1
      apply updateCell_congr
      simp only [shapeCode, h1, h2, if_true, Bool.false_eq_true, if_false]
    · congr 1
      symm
      apply updateCell_id_of_fix ht
      simp only [shapeCode, h1, h2, Bool.false_eq_true, if_false]
  simp only [TrafficConditioner.shapeCell, getActionCode_eq_code ht hd0 hd1 hc0 hc1, key]
  rfl


/-! ### The loops over the cells of an action element -/

theorem forEachM_eq_foldl {α : Type}
    (body : TrafficConditioner → α → Except String TrafficConditioner)
    (P : TrafficConditioner → α → TrafficConditioner) (Inv : TrafficConditioner → Prop)
    (l : List α)
    (h : ∀ tc a, a ∈ l → Inv tc → body tc a = .ok (P tc a) ∧ Inv (P tc a)) :
    ∀ tc, Inv tc → forEachM body tc l = .ok (l.foldl P tc) ∧ Inv (l.foldl P tc) := by
  induction l with
  | nil => intro tc ht; exact ⟨rfl, ht⟩
  | cons a rest ih =>
    intro tc ht
    obtain ⟨h1, h2⟩ := h tc a (List.mem_cons_self a rest) ht
    simp only [forEachM, h1, List.foldl_cons]
    exact ih (fun tc b hb => h tc b (List.mem_cons_of_mem a hb)) _ h2

theorem foldl_colors_spec {n : Nat} (g : ActionCode → ActionCode) (s : Option ITrafficShaper)
    (hg : ∀ x, g (g x) = g x) {d : Int} (hd0 : 0 ≤ d) (hd1 : d < 64) (cs : List Int)
    (hcs : ∀ c ∈ cs, 0 ≤ c ∧ c < (n : Int)) :
    ∀ tc : TrafficConditioner, tc.TableOk n →
      (cs.foldl (fun t c => t.updateCell d c g s) tc).TableOk n ∧
      (∀ d' c', 0 ≤ d' → d' < 64 → 0 ≤ c' →
        (cs.foldl (fun t c => t.updateCell d c g s) tc).code d' c'
          = if d' = d ∧ c' ∈ cs then g (tc.code d' c') else tc.code d' c') ∧
      (∀ k : Int × Int,
        (cs.foldl (fun t c => t.updateCell d c g s) tc).shapers.lookup k
          = match s with
            | some sh => if k.1 = d ∧ k.2 ∈ cs then some sh else tc.shapers.lookup k
            | none => tc.shapers.lookup k) := by
  induction cs with
  | nil =>
    intro tc ht
    refine ⟨ht, fun d' c' _ _ _ => by simp, fun k => ?_⟩
    cases s <;> simp
  | cons c rest ih =>
    intro tc ht
    have hc := hcs c (List.mem_cons_self c rest)
    have ht1 := updateCell_tableOk ht d c g s
    obtain ⟨i1, i2, i3⟩ := ih (fun x hx => hcs x (List.mem_cons_of_mem c hx))
      (tc.updateCell d c g s) ht1
    simp only [List.foldl_cons]
    refine ⟨i1, fun d' c' hd0' hd1' hc0' => ?_, fun k => ?_⟩
    · rw [i2 d' c' hd0' hd1' hc0',
        code_updateCell ht hd0 hd1 hc.1 hc.2 hd0' hd1' hc0' g s]
      by_cases h1 : d' = d
      · subst h1
        by_cases h2 : c' = c
        · subst h2
          by_cases h3 : c' ∈ rest <;> simp [h3, hg]
        · by_cases h3 : c' ∈ rest <;> simp [h2, h3]
      · simp [h1]
    · rw [i3 k, lookup_updateCell]
      cases s with
      | none => rfl
      | some sh =>
        simp only
        by_cases h1 : k.1 = d
        · by_cases h2 : k.2 = c
          · have : k = (d, c) := Prod.ext h1 h2
            by_cases h3 : k.2 ∈ rest <;> simp [h1, h2, h3, this]
          · have : k ≠ (d, c) := fun h => h2 (by rw [h])
            by_cases h3 : k.2 ∈ rest <;> simp [h1, h2, h3, this]
        · have : k ≠ (d, c) := fun h => h1 (by rw [h])
          simp [h1, this]

theorem updateCells_spec {n : Nat} (G : Int → ActionCode → ActionCode)
    (s : Option ITrafficShaper) (ds cs : List Int)
    (hG : ∀ d ∈ ds, ∀ x, G d (G d x) = G d x)
    (hds : ∀ d ∈ ds, 0 ≤ d ∧ d < 64) (hcs : ∀ c ∈ cs, 0 ≤ c ∧ c < (n : Int)) :
    ∀ tc : TrafficConditioner, tc.TableOk n →
      (tc.updateCells G s ds cs).TableOk n ∧
      (∀ d' c', 0 ≤ d' → d' < 64 → 0 ≤ c' →
        (tc.updateCells G s ds cs).code d' c'
          = if d' ∈ ds ∧ c' ∈ cs then G d' (tc.code d' c') else tc.code d' c') ∧
      (∀ k : Int × Int,
        (tc.updateCells G s ds cs).shapers.lookup k
          = match s with
            | some sh => if k.1 ∈ ds ∧ k.2 ∈ cs then some sh else tc.shapers.lookup k
            | none => tc.shapers.lookup k) := by
  induction ds with
  | nil =>
    intro tc ht
    refine ⟨ht, fun d' c' _ _ _ => by simp [TrafficConditioner.updateCells], fun k => ?_⟩
    cases s <;> simp [TrafficConditioner.updateCells]
  | cons d rest ih =>
    intro tc ht
    have hd := hds d (List.mem_cons_self d rest)
    obtain ⟨j1, j2, j3⟩ := foldl_colors_spec (G d) s (hG d (List.mem_cons_self d rest))
      hd.1 hd.2 cs hcs tc ht
    obtain ⟨i1, i2, i3⟩ := ih (fun x hx => hG x (List.mem_cons_of_mem d hx))
      (fun x hx => hds x (List.mem_cons_of_mem d hx)) _ j1
    simp only [TrafficConditioner.updateCells, List.foldl_cons] at i1 i2 i3 ⊢
    refine ⟨i1, fun d' c' hd0' hd1' hc0' => ?_, fun k => ?_⟩
    · rw [i2 d' c' hd0' hd1' hc0', j2 d' c' hd0' hd1' hc0']
      by_cases h1 : d' = d
      · subst h1
        by_cases h2 : c' ∈ cs
        · by_cases h3 : d' ∈ rest
          · simp [h2, h3, hG d' (List.mem_cons_self d' rest)]
          · simp [h2, h3]
        · simp [h2]
      · by_cases h3 : d' ∈ rest <;> simp [h1, h3]
    · rw [i3 k, j3 k]
      cases s with
      | none => rfl
      | some sh =>
        simp only
        by_cases h1 : k.1 = d
        · by_cases h2 : k.2 ∈ cs
          · by_cases h3 : k.1 ∈ rest <;> simp [h1, h2, h3]
          · simp [h1, h2]
        · by_cases h3 : k.1 ∈ rest <;> simp [h1, h3]

theorem forCells_eq_updateCells {n : Nat}
    (body : TrafficConditioner → Int → Int → Except String TrafficConditioner)
    (G : Int → ActionCode → ActionCode) (s : Option ITrafficShaper)
    (hbody : ∀ (tc : TrafficConditioner) (d c : Int), tc.TableOk n → 0 ≤ d → d < 64 → 0 ≤ c →
      c < (n : Int) → body tc d c = .ok (tc.updateCell d c (G d) s))
    (ds cs : List Int) (hds : ∀ d ∈ ds, 0 ≤ d ∧ d < 64)
    (hcs : ∀ c ∈ cs, 0 ≤ c ∧ c < (n : Int)) (tc : TrafficConditioner) (ht : tc.TableOk n) :
    tc.forCells body ds cs = .ok (tc.updateCells G s ds cs) := by
  have inner : ∀ (t : TrafficConditioner) (d : Int), d ∈ ds → t.TableOk n →
      forEachM (fun t2 c => body t2 d c) t cs
        = .ok (cs.foldl (fun t2 c => t2.updateCell d c (G d) s) t) ∧
      (cs.foldl (fun t2 c => t2.updateCell d c (G d) s) t).TableOk n := by
    intro t d hd ht'
    exact forEachM_eq_foldl (fun t2 c => body t2 d c) (fun t2 c => t2.updateCell d c (G d) s)
      (fun t => t.TableOk n) cs
      (fun t2 c hc ht2 => ⟨hbody t2 d c ht2 (hds d hd).1 (hds d hd).2 (hcs c hc).1 (hcs c hc).2,
        updateCell_tableOk ht2 d c (G d) s⟩) t ht'
  exact (forEachM_eq_foldl
    (fun t1 d => forEachM (fun t2 c => body t2 d c) t1 cs)
    (fun t1 d => cs.foldl (fun t2 c => t2.updateCell d c (G d) s) t1)
    (fun t => t.TableOk n) ds (fun t d hd ht' => inner t d hd ht') tc ht).1


theorem markCode_idem {D : Int} (h0 : 0 ≤ D) (h1 : D < 64) (x : ActionCode) :
    markCode D (markCode D x) = markCode D x := by
  simp only [markCode, MarkAction, MarkAndShapeAction, NopAction, ShapeAction,
    lor_64_of_dscp h0 h1]
  rw [toUnsignedChar_of_byte h0 (by omega), toUnsignedChar_of_byte (by omega) (by omega)]
  simp only [beq_iff_eq]
  split_ifs <;> first | rfl | omega

theorem updateCell_frame (tc : TrafficConditioner) (d c : Int) (g : ActionCode → ActionCode)
    (s : Option ITrafficShaper) :
    (tc.updateCell d c g s).numColors = tc.numColors ∧
    (tc.updateCell d c g s).meters = tc.meters ∧
    (tc.updateCell d c g s).dscpToMeterMap = tc.dscpToMeterMap ∧
    (tc.updateCell d c g s).classifier = tc.classifier :=
  ⟨rfl, rfl, rfl, rfl⟩

/-- The fields of the module that the construction of the action table leaves
as they are. -/
theorem updateCells_frame (G : Int → ActionCode → ActionCode) (s : Option ITrafficShaper)
    (ds cs : List Int) (tc : TrafficConditioner) :
    (tc.updateCells G s ds cs).numColors = tc.numColors ∧
    (tc.updateCells G s ds cs).meters = tc.meters ∧
    (tc.updateCells G s ds cs).dscpToMeterMap = tc.dscpToMeterMap ∧
    (tc.updateCells G s ds cs).classifier = tc.classifier := by
  have inner : ∀ (d : Int) (t : TrafficConditioner),
      (cs.foldl (fun t2 c => t2.updateCell d c (G d) s) t).numColors = t.numColors ∧
      (cs.foldl (fun t2 c => t2.updateCell d c (G d) s) t).meters = t.meters ∧
      (cs.foldl (fun t2 c => t2.updateCell d c (G d) s) t).dscpToMeterMap = t.dscpToMeterMap ∧
      (cs.foldl (fun t2 c => t2.updateCell d c (G d) s) t).classifier = t.classifier := by
    intro d
    induction cs with
    | nil => intro t; exact ⟨rfl, rfl, rfl, rfl⟩
    | cons c rest ih =>
      intro t
      simp only [List.foldl_cons]
      obtain ⟨a1, a2, a3, a4⟩ := ih (t.updateCell d c (G d) s)
      exact ⟨a1, a2, a3, a4⟩
  induction ds generalizing tc with
  | nil => exact ⟨rfl, rfl, rfl, rfl⟩
  | cons d rest ih =>
    simp only [TrafficConditioner.updateCells, List.foldl_cons] at ih ⊢
    obtain ⟨a1, a2, a3, a4⟩ := ih (cs.foldl (fun t2 c => t2.updateCell d c (G d) s) tc)
    obtain ⟨b1, b2, b3, b4⟩ := inner d tc
    exact ⟨a1.trans b1, a2.trans b2, a3.trans b3, a4.trans b4⟩

theorem cellCode_idem {n : Nat} (e : ActionElement) (he : e.WellFormed n) :
    ∀ d ∈ e.cells.1, ∀ x, e.cellCode d (e.cellCode d x) = e.cellCode d x := by
  intro d hd x
  obtain ⟨h1, _, h3⟩ := he
  cases e with
  | drop ds cs => rfl
  | mark ds cs value =>
    simp only [ActionElement.cellCode]
    have hd' := h1 d hd
    simp only at h3
    by_cases hv : value = -1
    · subst hv
      simp only [bne_self_eq_false, Bool.false_eq_true, if_false]
      exact markCode_idem hd'.1 hd'.2 x
    · have hb : (value != -1) = true := by simpa using hv
      simp only [hb, if_true]
      rcases h3 with h3 | h3
      · exact absurd h3 hv
      · exact markCode_idem h3.1 h3.2 x
  | shape ds cs sh => exact shapeCode_idem x
  | other ds cs => rfl

/-- One action element, applied to a module whose table is allocated: the
loops succeed, and they change each cell as `stepCode` and `stepShaper`
describe. -/
theorem applyActionElement_spec {n : Nat} (tc : TrafficConditioner) (ht : tc.TableOk n)
    (e : ActionElement) (he : e.WellFormed n) :
    ∃ tc', tc.applyActionElement e = .ok tc' ∧ tc'.TableOk n ∧
      (∀ d c, 0 ≤ d → d < 64 → 0 ≤ c →
        tc'.code d c = e.stepCode d c (tc.code d c)) ∧
      (∀ k : Int × Int, tc'.shapers.lookup k = e.stepShaper k.1 k.2 (tc.shapers.lookup k)) ∧
      tc'.numColors = tc.numColors ∧ tc'.meters = tc.meters ∧
      tc'.dscpToMeterMap = tc.dscpToMeterMap ∧ tc'.classifier = tc.classifier := by
  have hidem := cellCode_idem e he
  obtain ⟨h1, h2, h3⟩ := he
  have main : ∀ (body : TrafficConditioner → Int → Int → Except String TrafficConditioner),
      (∀ (t : TrafficConditioner) (d c : Int), t.TableOk n → 0 ≤ d → d < 64 → 0 ≤ c →
        c < (n : Int) → body t d c = .ok (t.updateCell d c (e.cellCode d) e.cellShaper)) →
      ∃ tc', tc.forCells body e.cells.1 e.cells.2 = .ok tc' ∧ tc'.TableOk n ∧
        (∀ d c, 0 ≤ d → d < 64 → 0 ≤ c →
          tc'.code d c = e.stepCode d c (tc.code d c)) ∧
        (∀ k : Int × Int, tc'.shapers.lookup k = e.stepShaper k.1 k.2 (tc.shapers.lookup k)) ∧
        tc'.numColors = tc.numColors ∧ tc'.meters = tc.meters ∧
        tc'.dscpToMeterMap = tc.dscpToMeterMap ∧ tc'.classifier = tc.classifier := by
    intro body hbody
    obtain ⟨s1, s2, s3⟩ := updateCells_spec e.cellCode e.cellShaper e.cells.1 e.cells.2
      hidem h1 h2 tc ht
    obtain ⟨f1, f2, f3, f4⟩ := updateCells_frame e.cellCode e.cellShaper e.cells.1 e.cells.2 tc
    refine ⟨_, forCells_eq_updateCells body e.cellCode e.cellShaper hbody _ _ h1 h2 tc ht,
      s1, ?_, ?_, f1, f2, f3, f4⟩
    · intro d c hd0 hd1 hc0
      rw [s2 d c hd0 hd1 hc0]
      rfl
    · intro k
      rw [s3 k]
      simp only [ActionElement.stepShaper, ActionElement.covers]
  cases e with
  | drop ds cs =>
    exact main TrafficConditioner.dropCell
      (fun t d c ht' a b c' d' => dropCell_eq ht' a b c' d')
  | mark ds cs value =>
    exact main (TrafficConditioner.markCell value)
      (fun t d c ht' a b c' d' => markCell_eq ht' value a b c' d')
  | shape ds cs sh =>
    exact main (TrafficConditioner.shapeCell sh)
      (fun t d c ht' a b c' d' => shapeCell_eq ht' sh a b c' d')
  | other ds cs =>
    refine ⟨tc, rfl, ht, ?_, ?_, rfl, rfl, rfl, rfl⟩
    · intro d c _ _ _
      simp [ActionElement.stepCode, ActionElement.cellCode]
    · intro k
      rfl

/-- A list of action elements, applied in order to a module whose table is
allocated: the loop succeeds, and each cell ends with the code and the shaper
that `codeAfter` and `shaperAfter` describe. -/
theorem applyActionElements_spec {n : Nat} (es : List ActionElement)
    (hes : ∀ e ∈ es, e.WellFormed n) :
    ∀ tc : TrafficConditioner, tc.TableOk n →
    ∃ tc', forEachM TrafficConditioner.applyActionElement tc es = .ok tc' ∧ tc'.TableOk n ∧
      (∀ d c, 0 ≤ d → d < 64 → 0 ≤ c → tc'.code d c = codeAfter es d c (tc.code d c)) ∧
      (∀ k : Int × Int, tc'.shapers.lookup k = shaperAfter es k.1 k.2 (tc.shapers.lookup k)) ∧
      tc'.numColors = tc.numColors ∧ tc'.meters = tc.meters ∧
      tc'.dscpToMeterMap = tc.dscpToMeterMap ∧ tc'.classifier = tc.classifier := by
  induction es with
  | nil =>
    intro tc ht
    exact ⟨tc, rfl, ht, fun _ _ _ _ _ => rfl, fun _ => rfl, rfl, rfl, rfl, rfl⟩
  | cons e rest ih =>
    intro tc ht
    obtain ⟨tc1, a1, a2, a3, a4, a5, a6, a7, a8⟩ :=
      applyActionElement_spec tc ht e (hes e (List.mem_cons_self e rest))
    obtain ⟨tc2, b1, b2, b3, b4, b5, b6, b7, b8⟩ :=
      ih (fun x hx => hes x (List.mem_cons_of_mem e hx)) tc1 a2
    refine ⟨tc2, ?_, b2, ?_, ?_, b5.trans a5, b6.trans a6, b7.trans a7, b8.trans a8⟩
    · simp only [forEachM, a1, b1]
    · intro d c hd0 hd1 hc0
      rw [b3 d c hd0 hd1 hc0, a3 d c hd0 hd1 hc0]
      rfl
    · intro k
      rw [b4 k, a4 k]
      rfl

/-- The construction of the action table from well-formed action elements
succeeds; each cell of the table ends with the code that `codeAfter` gives
from `NopAction`, and each key with the shaper that `shaperAfter` gives. -/
theorem initializeActions_spec {n : Nat} (tc : TrafficConditioner) (hn : tc.numColors = n)
    (es : List ActionElement) (hes : ∀ e ∈ es, e.WellFormed n) :
    ∃ tc', tc.initializeActions es = .ok tc' ∧ tc'.TableOk n ∧
      (∀ d c, 0 ≤ d → d < 64 → 0 ≤ c → c < (n : Int) →
        tc'.getActionCode d c = .ok (codeAfter es d c 255)) ∧
      (∀ k : Int × Int, tc'.shapers.lookup k = shaperAfter es k.1 k.2 (tc.shapers.lookup k)) ∧
      tc'.numColors = tc.numColors ∧ tc'.meters = tc.meters ∧
      tc'.dscpToMeterMap = tc.dscpToMeterMap ∧ tc'.classifier = tc.classifier := by
  have ht0 : ({ tc with actions := some (List.replicate (DSCP_MAX * tc.numColors).toNat
      (toUnsignedChar NopAction)) } : TrafficConditioner).TableOk n := by
    refine ⟨_, rfl, ?_⟩
    rw [List.length_replicate, hn]
    simp only [DSCP_MAX]
    omega
  obtain ⟨tc', a1, a2, a3, a4, a5, a6, a7, a8⟩ := applyActionElements_spec es hes _ ht0
  refine ⟨tc', a1, a2, ?_, a4, a5, a6, a7, a8⟩
  intro d c hd0 hd1 hc0 hc1
  rw [getActionCode_eq_code a2 hd0 hd1 hc0 hc1, a3 d c hd0 hd1 hc0]
  congr 2
  obtain ⟨h0, h1⟩ := cellIndex_lt hd0 hd1 hc0 hc1
  simp only [TrafficConditioner.code, Option.getD_some, List.getD_eq_getElem?_getD]
  rw [List.getElem?_replicate, if_pos]
  · rfl
  · rw [hn]
    simp only [DSCP_MAX] at h1 ⊢
    omega


/-! ### The codes given by the action elements -/

theorem markCode_eq {D : Int} (h0 : 0 ≤ D) (h1 : D < 64) (x : Nat) :
    markCode D x = (if x = 255 then D.toNat else if x = 253 then D.toNat + 64 else x : Nat) := by
  simp only [markCode, MarkAction, MarkAndShapeAction, NopAction, ShapeAction,
    lor_64_of_dscp h0 h1]
  rw [toUnsignedChar_of_byte h0 (by omega), toUnsignedChar_of_byte (by omega) (by omega)]
  simp only [beq_iff_eq]
  have e1 : ((x : Int) = 255) ↔ x = 255 := by omega
  have e2 : ((x : Int) = 253) ↔ x = 253 := by omega
  simp only [e1, e2]
  split_ifs
  · rfl
  · have key : ((D + 64).toNat : Nat) = D.toNat + 64 := by omega
    exact key
  · rfl

theorem markCode_254 (D : Int) : markCode D 254 = (254 : Nat) := by
  simp [markCode, NopAction, ShapeAction]

theorem shapeCode_eq {x : Nat} (hx : ActionCode.WellFormed x) :
    shapeCode x = (if x = 255 then 253 else if x < 64 then x + 64 else x : Nat) := by
  rcases hx with rfl | rfl | rfl | h
  · decide
  · decide
  · decide
  · have h' : (x : Nat) < 128 := h
    rw [shapeCode_of_isMark (isMarkAction_of_lt h')]
    have key : (x % 64 + 64 : Nat) = if x = 255 then 253 else if x < 64 then x + 64 else x := by
      split_ifs <;> omega
    exact key

theorem stepCode_254 (e : ActionElement) (d c : Int) : e.stepCode d c 254 = (254 : Nat) := by
  unfold ActionElement.stepCode
  split_ifs
  · cases e with
    | drop ds cs => rfl
    | mark ds cs v => exact markCode_254 _
    | shape ds cs sh => exact (by decide : shapeCode 254 = 254)
    | other ds cs => rfl
  · rfl

theorem stepCode_drop {e : ActionElement} (he : e.isDrop = true) {d c : Int}
    (hc : e.covers d c) (x : Nat) : e.stepCode d c x = (254 : Nat) := by
  unfold ActionElement.stepCode
  rw [if_pos hc]
  cases e with
  | drop ds cs => rfl
  | mark ds cs v => simp [ActionElement.isDrop] at he
  | shape ds cs sh => simp [ActionElement.isDrop] at he
  | other ds cs => simp [ActionElement.isDrop] at he

theorem codeAfter_254 (es : List ActionElement) (d c : Int) : codeAfter es d c 254 = (254 : Nat) := by
  induction es with
  | nil => rfl
  | cons e rest ih =>
    simp only [codeAfter, List.foldl_cons] at ih ⊢
    rw [stepCode_254]
    exact ih

theorem codeAfter_of_drop (es : List ActionElement) (d c : Int)
    (h : ∃ e ∈ es, e.isDrop = true ∧ e.covers d c) :
    ∀ x : Nat, codeAfter es d c x = (254 : Nat) := by
  induction es with
  | nil => obtain ⟨e, he, _⟩ := h; simp at he
  | cons e rest ih =>
    intro x
    simp only [codeAfter, List.foldl_cons]
    obtain ⟨e', he', hd, hc⟩ := h
    rcases List.mem_cons.mp he' with rfl | hr
    · rw [stepCode_drop hd hc]
      exact codeAfter_254 rest d c
    · exact ih ⟨e', hr, hd, hc⟩ _

theorem toUnsignedChar_DropAction : toUnsignedChar DropAction = (254 : Nat) := by decide

/-- C11: for every ordered list of action elements, when some `drop` element
of the list covers the cell `(dscp, color)`, the construction of the action
table succeeds and the final code of the cell is `DropAction`, whatever `mark`
and `shape` elements covering the cell stand before or after the `drop`; in
particular a `mark` element applied to a table in which the cell is drop leaves
it drop. -/
theorem drop_element_decides_cell (n : Nat) (tc : TrafficConditioner)
    (hn : tc.numColors = n) (es : List ActionElement) (hes : ∀ e ∈ es, e.WellFormed n) :
    (∃ tc', tc.initializeActions es = .ok tc' ∧
      ∀ d c, 0 ≤ d → d < 64 → 0 ≤ c → c < (n : Int) →
        (∃ e ∈ es, e.isDrop = true ∧ e.covers d c) →
        tc'.getActionCode d c = .ok (toUnsignedChar DropAction)) ∧
    (∀ (t : TrafficConditioner) (ds cs : List Int) (value : Int), t.TableOk n →
      (ActionElement.mark ds cs value).WellFormed n →
      ∃ t', t.applyActionElement (.mark ds cs value) = .ok t' ∧
        ∀ d c, 0 ≤ d → d < 64 → 0 ≤ c → c < (n : Int) →
          t.getActionCode d c = .ok (toUnsignedChar DropAction) →
          t'.getActionCode d c = .ok (toUnsignedChar DropAction)) := by
  constructor
  · obtain ⟨tc', a1, a2, a3, -⟩ := initializeActions_spec tc hn es hes
    refine ⟨tc', a1, fun d c hd0 hd1 hc0 hc1 hdrop => ?_⟩
    rw [a3 d c hd0 hd1 hc0 hc1, codeAfter_of_drop es d c hdrop, toUnsignedChar_DropAction]
  · intro t ds cs value ht hwf
    obtain ⟨t', b1, b2, b3, -⟩ := applyActionElement_spec t ht _ hwf
    refine ⟨t', b1, fun d c hd0 hd1 hc0 hc1 hx => ?_⟩
    rw [getActionCode_eq_code ht hd0 hd1 hc0 hc1] at hx
    rw [getActionCode_eq_code b2 hd0 hd1 hc0 hc1, b3 d c hd0 hd1 hc0]
    have hx' : t.code d c = 254 := by
      have := Except.ok.inj hx
      rw [this, toUnsignedChar_DropAction]
    rw [hx', stepCode_254, toUnsignedChar_DropAction]


/-- The theorem of C11 on the element list `mark dscp=1 value=2`,
`drop dscp=1`, `shape dscp=1`, `mark dscp=1 value=3` for a module of one
color: the cell `(1, 0)` ends as drop. -/
theorem drop_element_decides_cell_scenario :
    ∃ tc', scenarioMarkTable.initializeActions
        [.mark [1] [0] 2, .drop [1] [0], .shape [1] [0] passingShaper, .mark [1] [0] 3]
          = .ok tc' ∧
      tc'.getActionCode 1 0 = .ok 254 := by
  obtain ⟨⟨tc', h1, h2⟩, -⟩ := drop_element_decides_cell 1 scenarioMarkTable rfl
    [.mark [1] [0] 2, .drop [1] [0], .shape [1] [0] passingShaper, .mark [1] [0] 3]
    (by
      intro e he
      simp only [List.mem_cons, List.mem_singleton, List.not_mem_nil, or_false] at he
      rcases he with rfl | rfl | rfl | rfl
      · exact ⟨by decide, by decide, Or.inr (by decide)⟩
      · exact ⟨by decide, by decide, trivial⟩
      · exact ⟨by decide, by decide, trivial⟩
      · exact ⟨by decide, by decide, Or.inr (by decide)⟩)
  exact ⟨tc', h1, h2 1 0 (by decide) (by decide) (by decide) (by decide)
    ⟨.drop [1] [0], by simp, rfl, by decide⟩⟩

theorem toUnsignedChar_MarkAction {D : Int} (h0 : 0 ≤ D) (h1 : D < 64) :
    toUnsignedChar (MarkAction D) = D.toNat := by
  rw [MarkAction, toUnsignedChar_of_byte h0 (by omega)]

theorem toUnsignedChar_MarkAndShapeAction {D : Int} (h0 : 0 ≤ D) (h1 : D < 64) :
    toUnsignedChar (MarkAndShapeAction D) = D.toNat + 64 := by
  rw [MarkAndShapeAction, lor_64_of_dscp h0 h1, toUnsignedChar_of_byte (by omega) (by omega)]
  omega

/-- C12: a `mark` element with target `D` in `[0,64)`, applied to a table,
changes the code of a cell it covers from no-op (255) to mark-to-D (`D`) and
from shape-only (253) to mark-to-D-and-shape (`64 + D`); every other code of a
covered cell (drop, a mark, a mark-and-shape) is kept, cells it does not cover
keep their code, and the shapers are left as they are. -/
theorem mark_element_effect (n : Nat) (tc : TrafficConditioner) (ht : tc.TableOk n)
    (ds cs : List Int) (D : Int) (hD0 : 0 ≤ D) (hD1 : D < 64)
    (hds : ∀ d ∈ ds, 0 ≤ d ∧ d < 64) (hcs : ∀ c ∈ cs, 0 ≤ c ∧ c < (n : Int)) :
    toUnsignedChar (MarkAction D) = D.toNat ∧
    toUnsignedChar (MarkAndShapeAction D) = D.toNat + 64 ∧
    ∃ tc', tc.applyActionElement (.mark ds cs D) = .ok tc' ∧
      (∀ k : Int × Int, tc'.shapers.lookup k = tc.shapers.lookup k) ∧
      ∀ d c, 0 ≤ d → d < 64 → 0 ≤ c → c < (n : Int) →
        ∃ x : Nat, tc.getActionCode d c = .ok x ∧
          tc'.getActionCode d c = .ok
            (if d ∈ ds ∧ c ∈ cs then
              (if x = 255 then D.toNat else if x = 253 then D.toNat + 64 else x)
             else x) := by
  refine ⟨toUnsignedChar_MarkAction hD0 hD1, toUnsignedChar_MarkAndShapeAction hD0 hD1, ?_⟩
  have hwf : (ActionElement.mark ds cs D).WellFormed n := ⟨hds, hcs, Or.inr ⟨hD0, hD1⟩⟩
  obtain ⟨tc', b1, b2, b3, b4, -⟩ := applyActionElement_spec tc ht _ hwf
  refine ⟨tc', b1, fun k => by rw [b4 k]; rfl, fun d c hd0 hd1 hc0 hc1 => ?_⟩
  refine ⟨tc.code d c, getActionCode_eq_code ht hd0 hd1 hc0 hc1, ?_⟩
  rw [getActionCode_eq_code b2 hd0 hd1 hc0 hc1, b3 d c hd0 hd1 hc0]
  congr 1
  have hne : (D != -1) = true := by
    simp only [bne_iff_ne, ne_eq]; omega
  simp only [ActionElement.stepCode, ActionElement.covers, ActionElement.cells,
    ActionElement.cellCode, hne, if_true]
  by_cases h : d ∈ ds ∧ c ∈ cs
  · rw [if_pos h, if_pos h]
    exact markCode_eq hD0 hD1 (tc.code d c)
  · rw [if_neg h, if_neg h]

/-- The theorem of C12 on a table of one color whose cells 0, 1 and 2 hold
no-op, shape-only and drop: `mark dscp="0 1 2" value=5` leaves the codes 5
(mark-to-5), 69 (mark-to-5-and-shape) and 254 (drop), and cell 3 as it was. -/
theorem mark_element_effect_scenario :
    ∃ tc', scenarioMarkTable.applyActionElement (.mark [0, 1, 2] [0] 5) = .ok tc' ∧
      tc'.getActionCode 0 0 = .ok 5 ∧ tc'.getActionCode 1 0 = .ok 69 ∧
      tc'.getActionCode 2 0 = .ok 254 ∧ tc'.getActionCode 3 0 = .ok 255 := by
  have ht : scenarioMarkTable.TableOk 1 := ⟨_, rfl, by decide⟩
  obtain ⟨-, -, tc', h1, -, h3⟩ := mark_element_effect 1 scenarioMarkTable ht [0, 1, 2] [0] 5
    (by decide) (by decide) (by decide) (by decide)
  refine ⟨tc', h1, ?_, ?_, ?_, ?_⟩
  · obtain ⟨x, hx, hx'⟩ := h3 0 0 (by decide) (by decide) (by decide) (by decide)
    have : x = 255 := (Except.ok.inj hx).symm
    subst this
    exact hx'
  · obtain ⟨x, hx, hx'⟩ := h3 1 0 (by decide) (by decide) (by decide) (by decide)
    have : x = 253 := (Except.ok.inj hx).symm
    subst this
    exact hx'
  · obtain ⟨x, hx, hx'⟩ := h3 2 0 (by decide) (by decide) (by decide) (by decide)
    have : x = 254 := (Except.ok.inj hx).symm
    subst this
    exact hx'
  · obtain ⟨x, hx, hx'⟩ := h3 3 0 (by decide) (by decide) (by decide) (by decide)
    have : x = 255 := (Except.ok.inj hx).symm
    subst this
    exact hx'


theorem stepShaper_of_not_shape_covering (e : ActionElement) (d c : Int)
    (h : e.isShape = true → ¬ e.covers d c) (s : Option ITrafficShaper) :
    e.stepShaper d c s = s := by
  cases e with
  | drop ds cs => rfl
  | mark ds cs v => rfl
  | shape ds cs sh =>
    simp only [ActionElement.stepShaper, ActionElement.cellShaper]
    rw [if_neg (h rfl)]
  | other ds cs => rfl

theorem shaperAfter_of_no_shape (es : List ActionElement) (d c : Int)
    (h : ∀ e ∈ es, e.isShape = true → ¬ e.covers d c) (s : Option ITrafficShaper) :
    shaperAfter es d c s = s := by
  induction es generalizing s with
  | nil => rfl
  | cons e rest ih =>
    simp only [shaperAfter, List.foldl_cons] at ih ⊢
    rw [stepShaper_of_not_shape_covering e d c (h e (List.mem_cons_self e rest))]
    exact ih (fun x hx => h x (List.mem_cons_of_mem e hx)) s

theorem shaperAfter_last_shape (pre post : List ActionElement) (ds cs : List Int)
    (sh : ITrafficShaper) (d c : Int) (hcov : d ∈ ds ∧ c ∈ cs)
    (hpost : ∀ e ∈ post, e.isShape = true → ¬ e.covers d c) (s : Option ITrafficShaper) :
    shaperAfter (pre ++ .shape ds cs sh :: post) d c s = some sh := by
  have h1 : (ActionElement.shape ds cs sh).stepShaper d c
      (List.foldl (fun x e => e.stepShaper d c x) s pre) = some sh := by
    have hc : (ActionElement.shape ds cs sh).covers d c := hcov
    simp only [ActionElement.stepShaper, ActionElement.cellShaper]
    rw [if_pos hc]
  have h2 := shaperAfter_of_no_shape post d c hpost (some sh)
  simp only [shaperAfter] at h2
  simp only [shaperAfter, List.foldl_append, List.foldl_cons, h1, h2]

/-- C13: a `shape` element, applied to a table, changes the code of a cell it
covers from no-op (255) to shape-only (253) and from mark-to-D (`D < 64`) to
mark-to-D-and-shape (`D + 64`), and keeps a code that is already shape-only,
mark-and-shape or drop; cells it does not cover keep their code; it registers
its shaper for every cell it covers; applying the element a second time
changes no code; and after a list of elements, the shaper registered for a cell
is the one of the last `shape` element covering the cell. -/
theorem shape_element_effect (n : Nat) (tc : TrafficConditioner) (ht : tc.TableOk n)
    (ds cs : List Int) (sh : ITrafficShaper)
    (hds : ∀ d ∈ ds, 0 ≤ d ∧ d < 64) (hcs : ∀ c ∈ cs, 0 ≤ c ∧ c < (n : Int))
    (tc0 : TrafficConditioner) (hn0 : tc0.numColors = n) (pre post : List ActionElement)
    (hpre : ∀ e ∈ pre, e.WellFormed n) (hpost : ∀ e ∈ post, e.WellFormed n)
    (d0 c0 : Int) (hcov : d0 ∈ ds ∧ c0 ∈ cs)
    (hlast : ∀ e ∈ post, e.isShape = true → ¬ e.covers d0 c0) :
    (∃ tc', tc.applyActionElement (.shape ds cs sh) = .ok tc' ∧
      (∀ d c, 0 ≤ d → d < 64 → 0 ≤ c → c < (n : Int) →
        ∃ x : Nat, tc.getActionCode d c = .ok x ∧
          (ActionCode.WellFormed x →
            tc'.getActionCode d c = .ok
              (if d ∈ ds ∧ c ∈ cs then (if x = 255 then 253 else if x < 64 then x + 64 else x)
               else x))) ∧
      (∀ d c, d ∈ ds → c ∈ cs → tc'.shapers.lookup (d, c) = some sh) ∧
      ∃ tc'', tc'.applyActionElement (.shape ds cs sh) = .ok tc'' ∧
        ∀ d c, 0 ≤ d → d < 64 → 0 ≤ c → c < (n : Int) →
          tc''.getActionCode d c = tc'.getActionCode d c) ∧
    (∃ tcF, tc0.initializeActions (pre ++ .shape ds cs sh :: post) = .ok tcF ∧
      tcF.shapers.lookup (d0, c0) = some sh) := by
  have hwf : (ActionElement.shape ds cs sh).WellFormed n := ⟨hds, hcs, trivial⟩
  constructor
  · obtain ⟨tc', b1, b2, b3, b4, -⟩ := applyActionElement_spec tc ht _ hwf
    obtain ⟨tc'', c1, c2, c3, -⟩ := applyActionElement_spec tc' b2 _ hwf
    refine ⟨tc', b1, fun d c hd0 hd1 hc0 hc1 => ?_, fun d c hd hc => ?_, tc'', c1,
      fun d c hd0 hd1 hc0 hc1 => ?_⟩
    · refine ⟨tc.code d c, getActionCode_eq_code ht hd0 hd1 hc0 hc1, fun hx => ?_⟩
      rw [getActionCode_eq_code b2 hd0 hd1 hc0 hc1, b3 d c hd0 hd1 hc0]
      congr 1
      simp only [ActionElement.stepCode, ActionElement.covers, ActionElement.cells,
        ActionElement.cellCode]
      by_cases h : d ∈ ds ∧ c ∈ cs
      · rw [if_pos h, if_pos h]
        exact shapeCode_eq hx
      · rw [if_neg h, if_neg h]
    · rw [b4 (d, c)]
      simp only [ActionElement.stepShaper, ActionElement.cellShaper, ActionElement.covers,
        ActionElement.cells]
      rw [if_pos ⟨hd, hc⟩]
    · rw [getActionCode_eq_code c2 hd0 hd1 hc0 hc1, getActionCode_eq_code b2 hd0 hd1 hc0 hc1,
        c3 d c hd0 hd1 hc0, b3 d c hd0 hd1 hc0]
      congr 1
      simp only [ActionElement.stepCode, ActionElement.cellCode]
      split_ifs
      · exact shapeCode_idem _
      · rfl
  · have hall : ∀ e ∈ pre ++ .shape ds cs sh :: post, e.WellFormed n := by
      intro e he
      rcases List.mem_append.mp he with h | h
      · exact hpre e h
      · rcases List.mem_cons.mp h with rfl | h'
        · exact hwf
        · exact hpost e h'
    obtain ⟨tcF, a1, -, -, a4, -⟩ := initializeActions_spec tc0 hn0 _ hall
    refine ⟨tcF, a1, ?_⟩
    rw [a4 (d0, c0)]
    exact shaperAfter_last_shape pre post ds cs sh d0 c0 hcov hlast _

/-- The theorem of C13 on a table of one color whose cells 0, 1 and 2 hold
no-op, shape-only and drop, and on the element list `shape dscp=0` (a holding
shaper), `shape dscp="0 1 2"` (a passing shaper), `mark dscp=0 value=5`: the
table ends with shape-only in cells 0 and 1 and drop in cell 2, and the shaper
registered for cell 0 by the list is the passing one. -/
theorem shape_element_effect_scenario :
    (∃ tc', scenarioMarkTable.applyActionElement (.shape [0, 1, 2] [0] passingShaper) = .ok tc' ∧
      tc'.getActionCode 0 0 = .ok 253 ∧ tc'.getActionCode 1 0 = .ok 253 ∧
      tc'.getActionCode 2 0 = .ok 254) ∧
    (∃ tcF, scenarioMarkTable.initializeActions
        [.shape [0] [0] holdingShaper, .shape [0, 1, 2] [0] passingShaper, .mark [0] [0] 5]
          = .ok tcF ∧
      tcF.shapers.lookup (0, 0) = some passingShaper) := by
  have ht : scenarioMarkTable.TableOk 1 := ⟨_, rfl, by decide⟩
  obtain ⟨⟨tc', h1, h2, -⟩, hF⟩ := shape_element_effect 1 scenarioMarkTable ht [0, 1, 2] [0]
    passingShaper (by decide) (by decide) scenarioMarkTable rfl
    [.shape [0] [0] holdingShaper] [.mark [0] [0] 5]
    (by
      intro e he
      rw [List.mem_singleton] at he
      subst he
      exact ⟨by decide, by decide, trivial⟩)
    (by
      intro e he
      rw [List.mem_singleton] at he
      subst he
      exact ⟨by decide, by decide, Or.inr (by decide)⟩)
    0 0 (by decide)
    (by
      intro e he hs
      rw [List.mem_singleton] at he
      subst he
      exact absurd hs (by decide))
  refine ⟨⟨tc', h1, ?_, ?_, ?_⟩, hF⟩
  · obtain ⟨x, hx, hx'⟩ := h2 0 0 (by decide) (by decide) (by decide) (by decide)
    have : x = 255 := (Except.ok.inj hx).symm
    subst this
    exact hx' (Or.inl rfl)
  · obtain ⟨x, hx, hx'⟩ := h2 1 0 (by decide) (by decide) (by decide) (by decide)
    have : x = 253 := (Except.ok.inj hx).symm
    subst this
    exact hx' (Or.inr (Or.inr (Or.inl rfl)))
  · obtain ⟨x, hx, hx'⟩ := h2 2 0 (by decide) (by decide) (by decide) (by decide)
    have : x = 254 := (Except.ok.inj hx).symm
    subst this
    exact hx' (Or.inr (Or.inl rfl))


/-! ### The cells that have a shaper -/

theorem cellInvariant_step {n : Nat} (e : ActionElement) (he : e.WellFormed n) (d c : Int)
    (x : Nat) (s : Option ITrafficShaper) (h : cellInvariant n d c x s) :
    cellInvariant n d c (e.stepCode d c x) (e.stepShaper d c s) := by
  obtain ⟨hw, h1, h2⟩ := h
  obtain ⟨w1, w2, w3⟩ := he
  by_cases hc : e.covers d c
  · have hd := w1 d hc.1
    have hcc := w2 c hc.2
    cases e with
    | drop ds cs =>
      have e1 : (ActionElement.drop ds cs).stepCode d c x = (254 : Nat) :=
        stepCode_drop (e := .drop ds cs) rfl hc x
      rw [e1]
      refine ⟨Or.inr (Or.inl rfl), fun hs => ⟨(h1 hs).1, Or.inr (Or.inr rfl)⟩, ?_⟩
      rintro (h | h) <;> omega
    | mark ds cs v =>
      have hD : ∃ D : Int, 0 ≤ D ∧ D < 64 ∧
          (ActionElement.mark ds cs v).stepCode d c x = markCode D x := by
        simp only at w3
        by_cases hv : v = -1
        · subst hv
          refine ⟨d, hd.1, hd.2, ?_⟩
          simp [ActionElement.stepCode, hc, ActionElement.cellCode]
        · rcases w3 with w3 | w3
          · exact absurd w3 hv
          · refine ⟨v, w3.1, w3.2, ?_⟩
            have hb : (v != -1) = true := by simpa using hv
            simp [ActionElement.stepCode, hc, ActionElement.cellCode, hb]
      obtain ⟨D, hD0, hD1, hstep⟩ := hD
      have hs' : (ActionElement.mark ds cs v).stepShaper d c s = s := rfl
      rw [hstep, hs', markCode_eq hD0 hD1 x]
      have hw' : x = 255 ∨ x = 254 ∨ x = 253 ∨ x < 128 := hw
      refine ⟨?_, fun hs => ⟨(h1 hs).1, ?_⟩, ?_⟩
      · show (_ : Nat) = 255 ∨ (_ : Nat) = 254 ∨ (_ : Nat) = 253 ∨ (_ : Nat) < 128
        split_ifs <;> omega
      · have := (h1 hs).2
        split_ifs <;> omega
      · intro hx
        apply h2
        split_ifs at hx <;> omega
    | shape ds cs sh =>
      have e1 : (ActionElement.shape ds cs sh).stepCode d c x = shapeCode x := by
        simp [ActionElement.stepCode, hc, ActionElement.cellCode]
      have e2 : (ActionElement.shape ds cs sh).stepShaper d c s = some sh := by
        simp only [ActionElement.stepShaper, ActionElement.cellShaper]
        rw [if_pos hc]
      rw [e1, e2, shapeCode_eq hw]
      have hw' : x = 255 ∨ x = 254 ∨ x = 253 ∨ x < 128 := hw
      refine ⟨?_, fun _ => ⟨⟨hd.1, hd.2, hcc.1, hcc.2⟩, ?_⟩, fun _ => rfl⟩
      · show (_ : Nat) = 255 ∨ (_ : Nat) = 254 ∨ (_ : Nat) = 253 ∨ (_ : Nat) < 128
        split_ifs <;> omega
      · split_ifs <;> omega
    | other ds cs =>
      have e1 : (ActionElement.other ds cs).stepCode d c x = x := by
        simp [ActionElement.stepCode, ActionElement.cellCode]
      rw [e1]
      exact ⟨hw, h1, h2⟩
  · have e1 : e.stepCode d c x = x := by
      simp [ActionElement.stepCode, hc]
    have e2 : e.stepShaper d c s = s := by
      unfold ActionElement.stepShaper
      cases e.cellShaper with
      | none => rfl
      | some sh => simp only; rw [if_neg hc]
    rw [e1, e2]
    exact ⟨hw, h1, h2⟩

theorem cellInvariant_after {n : Nat} (es : List ActionElement)
    (hes : ∀ e ∈ es, e.WellFormed n) (d c : Int) :
    ∀ (x : Nat) (s : Option ITrafficShaper), cellInvariant n d c x s →
      cellInvariant n d c (codeAfter es d c x) (shaperAfter es d c s) := by
  induction es with
  | nil => intro x s h; exact h
  | cons e rest ih =>
    intro x s h
    simp only [codeAfter, shaperAfter, List.foldl_cons]
    exact ih (fun a ha => hes a (List.mem_cons_of_mem e ha)) _ _
      (cellInvariant_step e (hes e (List.mem_cons_self e rest)) d c x s h)

/-- C14, as the claim states it, fails: after `drop dscp=0 color=0` followed by
`shape dscp=0 color=0` the cell `(0, 0)` holds drop (254) and a shaper is
registered under the key `(0, 0)`. -/
theorem shaper_registered_for_drop_cell :
    ((conditionerWithColors 1).initializeActions
        [.drop [0] [0], .shape [0] [0] passingShaper]).toOption.map
          (fun tc => ((tc.getActionCode 0 0).toOption, (tc.shapers.lookup (0, 0)).isSome))
      = some (some 254, true) := by
  rfl

/-- C14, amended: after the action table and the shapers are built from any
ordered list of action elements, every key `(dscp, color)` with a registered
shaper is a cell of the table whose final code is shape-only (253),
mark-and-shape (64..127) or drop (254); no cell whose final code is no-op or
mark-only has a shaper registered; and every cell whose final code includes
shaping has one. -/
theorem shaper_registry_cells (n : Nat) (tc : TrafficConditioner) (hn : tc.numColors = n)
    (hs : tc.shapers = []) (es : List ActionElement) (hes : ∀ e ∈ es, e.WellFormed n) :
    ∃ tc', tc.initializeActions es = .ok tc' ∧
      (∀ (d c : Int) (sh : ITrafficShaper), tc'.shapers.lookup (d, c) = some sh →
        (0 ≤ d ∧ d < 64 ∧ 0 ≤ c ∧ c < (n : Int)) ∧
        ∃ x : Nat, tc'.getActionCode d c = .ok x ∧ (x = 253 ∨ (64 ≤ x ∧ x < 128) ∨ x = 254)) ∧
      (∀ (d c : Int), 0 ≤ d → d < 64 → 0 ≤ c → c < (n : Int) →
        ∃ x : Nat, tc'.getActionCode d c = .ok x ∧
          ((x = 255 ∨ x < 64) → tc'.shapers.lookup (d, c) = none) ∧
          ((x = 253 ∨ (64 ≤ x ∧ x < 128)) → (tc'.shapers.lookup (d, c)).isSome = true)) := by
  obtain ⟨tc', a1, a2, a3, a4, -⟩ := initializeActions_spec tc hn es hes
  have inv : ∀ d c, cellInvariant n d c (codeAfter es d c 255) (tc'.shapers.lookup (d, c)) := by
    intro d c
    rw [a4 (d, c), hs]
    exact cellInvariant_after es hes d c 255 none
      ⟨Or.inl rfl, fun h => by simp at h, fun h => by omega⟩
  refine ⟨tc', a1, fun d c sh hsh => ?_, fun d c hd0 hd1 hc0 hc1 => ?_⟩
  · obtain ⟨-, i1, -⟩ := inv d c
    obtain ⟨hr, hx⟩ := i1 (by rw [hsh]; rfl)
    exact ⟨hr, _, a3 d c hr.1 hr.2.1 hr.2.2.1 hr.2.2.2, hx⟩
  · obtain ⟨-, i1, i2⟩ := inv d c
    refine ⟨_, a3 d c hd0 hd1 hc0 hc1, fun hx => ?_, i2⟩
    cases hl : tc'.shapers.lookup (d, c) with
    | none => rfl
    | some sh =>
      have := (i1 (by rw [hl]; rfl)).2
      omega

/-- The amended C14 on the list `drop dscp=0`, `shape dscp="0 1"`,
`mark dscp=2 value=5` for a module of one color: the keys `(0, 0)` (a drop
cell) and `(1, 0)` (a shape-only cell) have a shaper, the mark-only cell
`(2, 0)` has none. -/
theorem shaper_registry_cells_scenario :
    ∃ tc', (conditionerWithColors 1).initializeActions
        [.drop [0] [0], .shape [0, 1] [0] passingShaper, .mark [2] [0] 5] = .ok tc' ∧
      (∀ (d c : Int) (sh : ITrafficShaper), tc'.shapers.lookup (d, c) = some sh →
        (0 ≤ d ∧ d < 64 ∧ 0 ≤ c ∧ c < ((1 : Nat) : Int)) ∧
        ∃ x : Nat, tc'.getActionCode d c = .ok x ∧ (x = 253 ∨ (64 ≤ x ∧ x < 128) ∨ x = 254)) := by
  obtain ⟨tc', h1, h2, -⟩ := shaper_registry_cells 1 (conditionerWithColors 1) rfl rfl
    [.drop [0] [0], .shape [0, 1] [0] passingShaper, .mark [2] [0] 5]
    (by
      intro e he
      simp only [List.mem_cons, List.mem_singleton, List.not_mem_nil, or_false] at he
      rcases he with rfl | rfl | rfl
      · exact ⟨by decide, by decide, trivial⟩
      · exact ⟨by decide, by decide, trivial⟩
      · exact ⟨by decide, by decide, Or.inr (by decide)⟩)
  exact ⟨tc', h1, h2⟩


/-! ### Scenario 4: mark everything, drop one cell -/

theorem mem_allDSCPs (d : Int) : d ∈ allDSCPs ↔ 0 ≤ d ∧ d < 64 := by
  simp only [allDSCPs, List.mem_map, List.mem_range]
  constructor
  · rintro ⟨a, ha, rfl⟩
    simp only [Int.ofNat_eq_coe]
    omega
  · rintro ⟨h0, h1⟩
    exact ⟨d.toNat, by omega, by simp only [Int.ofNat_eq_coe]; omega⟩

theorem mem_allColors (n : Nat) (c : Int) : c ∈ allColors n ↔ 0 ≤ c ∧ c < (n : Int) := by
  simp only [allColors, List.mem_map, List.mem_range, Int.toNat_ofNat]
  constructor
  · rintro ⟨a, ha, rfl⟩
    simp only [Int.ofNat_eq_coe]
    omega
  · rintro ⟨h0, h1⟩
    exact ⟨c.toNat, by omega, by simp only [Int.ofNat_eq_coe]; omega⟩

theorem meterPacket_frame {tc tc1 : TrafficConditioner} {now : ℚ} {p : Packet} {d c : Int}
    (h : tc.meterPacket now p d = .ok (tc1, c)) :
    tc1.actions = tc.actions ∧ tc1.shapers = tc.shapers ∧ tc1.numColors = tc.numColors := by
  unfold TrafficConditioner.meterPacket at h
  split_ifs at h
  split at h
  · cases h; exact ⟨rfl, rfl, rfl⟩
  · split at h
    · cases h
    · cases h; exact ⟨rfl, rfl, rfl⟩
    · split at h
      · cases h
      · cases h; exact ⟨rfl, rfl, rfl⟩

theorem getActionCode_congr {tc tc1 : TrafficConditioner} (h : tc1.actions = tc.actions)
    (d c : Int) : tc1.getActionCode d c = tc.getActionCode d c := by
  simp only [TrafficConditioner.getActionCode, h]

theorem applyAction_drop (tc : TrafficConditioner) (p : Packet) (d c : Int) :
    tc.applyAction p d c 254 = .ok none := by
  rfl

theorem applyAction_mark (tc : TrafficConditioner) (p : Packet) (d c : Int) {V : Int}
    (h0 : 0 ≤ V) (h1 : V < 64) :
    tc.applyAction p d c V.toNat = .ok (some (TrafficConditioner.markPacket p V)) ∧
    isShapeAction V.toNat = false := by
  lift V to Nat using h0
  have hV : V < 64 := by omega
  have key := (by decide : ∀ m : Fin 64,
    ((m.val : Int) == NopAction) = false ∧ ((m.val : Int) == DropAction) = false ∧
    isMarkAction m.val = true ∧ DscpOfMarkAction (m.val : Int) = (m.val : Int) ∧
    isShapeAction m.val = false) ⟨V, hV⟩
  obtain ⟨k1, k2, k3, k4, k5⟩ := key
  simp only [Int.toNat_ofNat]
  refine ⟨?_, k5⟩
  simp only [TrafficConditioner.applyAction, k1, k2, k3, k4, k5, Bool.false_eq_true, if_false,
    if_true]

theorem markPacket_classified {V : Int} (h0 : 0 ≤ V) (h1 : V < 64) (p : Packet)
    (hp : ∀ len, p ≠ .other len) :
    BAClassifier.classifyPacket (TrafficConditioner.markPacket p V) = V := by
  lift V to Nat using h0
  have hV : V < 64 := by omega
  have e1 : toUnsignedChar (V : Int) = V := by
    rw [toUnsignedChar_of_byte (by omega) (by omega)]; simp
  have e2 : Int.land ((V : Nat) : Int) 0x3f = (V : Int) := by
    rw [land_63_nat]; congr 1; omega
  cases p with
  | ipv4 dg => simp only [TrafficConditioner.markPacket, BAClassifier.classifyPacket, e1, e2]
  | ipv6 dg => simp only [TrafficConditioner.markPacket, BAClassifier.classifyPacket, e1, e2]
  | other len => exact absurd rfl (hp len)

theorem codeAfter_scenario4 (n : Nat) {V d0 c0 d c : Int} (hV0 : 0 ≤ V) (hV1 : V < 64)
    (hd0 : 0 ≤ d) (hd1 : d < 64) (hc0 : 0 ≤ c) (hc1 : c < (n : Int)) :
    codeAfter [.mark allDSCPs (allColors n) V, .drop [d0] [c0]] d c 255
      = (if d = d0 ∧ c = c0 then 254 else V.toNat : Nat) := by
  have hcov : (ActionElement.mark allDSCPs (allColors n) V).covers d c :=
    ⟨(mem_allDSCPs d).mpr ⟨hd0, hd1⟩, (mem_allColors n c).mpr ⟨hc0, hc1⟩⟩
  have hne : (V != -1) = true := by
    simp only [bne_iff_ne, ne_eq]; omega
  have e1 : (ActionElement.mark allDSCPs (allColors n) V).stepCode d c 255 = (V.toNat : Nat) := by
    simp only [ActionElement.stepCode, if_pos hcov, ActionElement.cellCode, hne, if_true]
    rw [markCode_eq hV0 hV1]
    simp
  simp only [codeAfter, List.foldl_cons, List.foldl_nil]
  rw [e1]
  simp only [ActionElement.stepCode, ActionElement.covers, ActionElement.cells,
    List.mem_singleton, ActionElement.cellCode]
  split_ifs
  · rfl
  · rfl

/-- C15: for every `V` and `d0` in `[0,64)`, every number of colors and every
color `c0` below it, the table built from `mark dscp=* color=* value=V`,
`drop dscp=d0 color=c0` makes `conditionPacket` return no packet for a packet
of class `d0` metered `c0`, and for every other class and color below the
number of colors return the packet marked `V` (code 0..63, which is not a
shape code, so no shaper is consulted); an IP datagram so marked carries the
code point `V`. -/
theorem mark_all_drop_one (n : Nat) (tc0 : TrafficConditioner) (hn : tc0.numColors = n)
    (V d0 c0 : Int) (hV0 : 0 ≤ V) (hV1 : V < 64) (hd0 : 0 ≤ d0) (hd1 : d0 < 64)
    (hc0 : 0 ≤ c0) (hc1 : c0 < (n : Int)) :
    ∃ tc, tc0.initializeActions [.mark allDSCPs (allColors tc0.numColors) V, .drop [d0] [c0]]
        = .ok tc ∧
      tc.meters = tc0.meters ∧ tc.dscpToMeterMap = tc0.dscpToMeterMap ∧
      ∀ (now : ℚ) (packet : Packet) (d c : Int) (tc1 : TrafficConditioner),
        0 ≤ d → d < 64 → 0 ≤ c → c < (n : Int) →
        tc.meterPacket now packet d = .ok (tc1, c) →
        (d = d0 ∧ c = c0 → tc.conditionPacket now packet d = .ok (tc1, none)) ∧
        (¬ (d = d0 ∧ c = c0) →
          tc.conditionPacket now packet d
            = .ok (tc1, some (TrafficConditioner.markPacket packet V)) ∧
          tc1.getActionCode d c = .ok V.toNat ∧ isShapeAction V.toNat = false ∧
          ((∀ len, packet ≠ .other len) →
            BAClassifier.classifyPacket (TrafficConditioner.markPacket packet V) = V)) := by
  have hwf : ∀ e ∈ [ActionElement.mark allDSCPs (allColors tc0.numColors) V,
      ActionElement.drop [d0] [c0]], e.WellFormed n := by
    intro e he
    simp only [List.mem_cons, List.mem_singleton, List.not_mem_nil, or_false] at he
    rcases he with rfl | rfl
    · refine ⟨fun d hd => (mem_allDSCPs d).mp hd, fun c hc => ?_, Or.inr ⟨hV0, hV1⟩⟩
      rw [hn] at hc
      exact (mem_allColors n c).mp hc
    · refine ⟨fun d hd => ?_, fun c hc => ?_, trivial⟩
      · rw [List.mem_singleton.mp hd]; exact ⟨hd0, hd1⟩
      · rw [List.mem_singleton.mp hc]; exact ⟨hc0, hc1⟩
  obtain ⟨tc, a1, a2, a3, a4, a5, a6, a7, a8⟩ := initializeActions_spec tc0 hn _ hwf
  refine ⟨tc, a1, a6, a7, fun now packet d c tc1 hdl hdu hcl hcu hm => ?_⟩
  obtain ⟨f1, -, -⟩ := meterPacket_frame hm
  have hcode : tc1.getActionCode d c
      = .ok (if d = d0 ∧ c = c0 then 254 else V.toNat : Nat) := by
    rw [getActionCode_congr f1, a3 d c hdl hdu hcl hcu, hn,
      codeAfter_scenario4 n hV0 hV1 hdl hdu hcl hcu]
  constructor
  · intro h
    rw [if_pos h] at hcode
    simp only [TrafficConditioner.conditionPacket, hm, hcode, applyAction_drop]
  · intro h
    rw [if_neg h] at hcode
    refine ⟨?_, hcode, (applyAction_mark tc1 packet d c hV0 hV1).2,
      markPacket_classified hV0 hV1 packet⟩
    simp only [TrafficConditioner.conditionPacket, hm, hcode,
      (applyAction_mark tc1 packet d c hV0 hV1).1]


theorem scenarioRed_color :
    ((IMeter.srtcm (SRTCM.configure 0 0 0 0)).packetArrived 0 (Packet.ipv4 scenarioDatagram)).2
      = RED := by
  norm_num [IMeter.packetArrived, SRTCM.configure, SRTCM.packetArrived, SRTCM.refill,
    SIMTIME_DBL, roundToDouble_zero, truncToLong, toInt, Packet.getByteLength, scenarioDatagram]

/-- Scenario 4 through the theorem of C15: with `V` = AF11, `d0` = EF,
`c0` = RED and three colors, on a module whose meter colors every packet RED,
a datagram of class EF is dropped and a datagram of class BE is sent marked
AF11. -/
theorem mark_all_drop_one_scenario :
    ∃ tc, scenarioRedConditioner.initializeActions
        [.mark allDSCPs (allColors 3) DSCP_AF11, .drop [DSCP_EF] [RED]] = .ok tc ∧
      (tc.conditionPacket 0 (Packet.ipv4 scenarioDatagram) DSCP_EF).toOption.map Prod.snd
        = some none ∧
      (tc.conditionPacket 0 (Packet.ipv4 scenarioDatagram) DSCP_BE).toOption.map Prod.snd
        = some (some (TrafficConditioner.markPacket (Packet.ipv4 scenarioDatagram) DSCP_AF11)) := by
  obtain ⟨tc, h1, m1, m2, h⟩ := mark_all_drop_one 3 scenarioRedConditioner rfl
    DSCP_AF11 DSCP_EF RED (by decide) (by decide) (by decide) (by decide) (by decide)
    (by decide)
  have hm : ∀ d : Int, (d = DSCP_EF ∨ d = DSCP_BE) →
      ∃ tc1, tc.meterPacket 0 (Packet.ipv4 scenarioDatagram) d = .ok (tc1, RED) := by
    intro d hd
    have hc : (tc.meterPacket 0 (Packet.ipv4 scenarioDatagram) d).toOption.map Prod.snd
        = some RED := by
      rcases hd with rfl | rfl
      · simp only [TrafficConditioner.meterPacket, m1, m2, scenarioRedConditioner]
        simp [DSCP_EF, DSCP_MAX, List.lookup, scenarioRed_color, Except.toOption]
      · simp only [TrafficConditioner.meterPacket, m1, m2, scenarioRedConditioner]
        simp [DSCP_BE, DSCP_MAX, List.lookup, scenarioRed_color, Except.toOption]
    cases hres : tc.meterPacket 0 (Packet.ipv4 scenarioDatagram) d with
    | error e => rw [hres] at hc; simp [Except.toOption] at hc
    | ok r =>
      obtain ⟨t, c⟩ := r
      rw [hres] at hc
      simp only [Except.toOption, Option.map_some', Option.some.injEq] at hc
      subst hc
      exact ⟨t, rfl⟩
  obtain ⟨t1, ht1⟩ := hm DSCP_EF (Or.inl rfl)
  obtain ⟨t2, ht2⟩ := hm DSCP_BE (Or.inr rfl)
  refine ⟨tc, h1, ?_, ?_⟩
  · rw [(h 0 _ DSCP_EF RED t1 (by decide) (by decide) (by decide) (by decide) ht1).1 ⟨rfl, rfl⟩]
    rfl
  · rw [((h 0 _ DSCP_BE RED t2 (by decide) (by decide) (by decide) (by decide) ht2).2
      (by decide)).1]
    rfl


/-! ### Validation of filters -/

theorem prefixLengthOk_iff (addr : IPvXAddress) (len : Int) :
    prefixLengthOk addr len ↔
      ¬ (addr.isUnspecified = false ∧
        ((addr.isIPv6 = true ∧ len > 128) ∨ (addr.isIPv6 = false ∧ len > 32))) := by
  cases addr with
  | v4 a =>
    simp only [prefixLengthOk, IPvXAddress.isUnspecified, IPvXAddress.isIPv6]
    by_cases h : a = 0
    · simp [h]
    · simp [h]
  | v6 a =>
    simp only [prefixLengthOk, IPvXAddress.isUnspecified, IPvXAddress.isIPv6]
    by_cases h : a = 0
    · simp [h]
    · simp [h]

/-- The two possible outcomes of `addFilter`: an error with the list as it
was, or normal completion with the filter appended. -/
theorem addFilter_cases (c : MFClassifier) (f : MFClassifier.Filter) :
    (∃ msg, c.addFilter f = (c, .error msg)) ∨
    c.addFilter f = ({ filters := c.filters ++ [f] }, .ok ()) := by
  unfold MFClassifier.addFilter
  cases f.checks.find? (fun check => check.1) with
  | none => exact Or.inr rfl
  | some check => exact Or.inl ⟨_, rfl⟩

theorem addFilter_ok_iff_checks (c : MFClassifier) (f : MFClassifier.Filter) :
    (c.addFilter f).2 = .ok () ↔ ∀ check ∈ f.checks, check.1 = false := by
  unfold MFClassifier.addFilter
  cases h : f.checks.find? (fun check => check.1) with
  | none =>
    simp only [true_iff]
    intro check hc
    have := List.find?_eq_none.mp h check hc
    simpa using this
  | some check =>
    simp only [reduceCtorEq, false_iff]
    intro hall
    have h1 := List.find?_some h
    have h2 := hall check (List.mem_of_find?_eq_some h)
    simp only at h1
    rw [h2] at h1
    exact absurd h1 (by decide)

theorem addFilter_ok_valid (c : MFClassifier) (f : MFClassifier.Filter)
    (h : (c.addFilter f).2 = .ok ()) :
    f.Valid ∧ (f.tos = -1 ∨ (0 ≤ f.tos ∧ f.tos ≤ 255)) ∧ (0 ≤ f.tosMask ∧ f.tosMask ≤ 255) := by
  rw [addFilter_ok_iff_checks] at h
  simp only [MFClassifier.Filter.checks, List.mem_cons, List.mem_singleton, List.not_mem_nil,
    or_false, forall_eq_or_imp, forall_eq, decide_eq_false_iff_not, DSCP_MAX] at h
  obtain ⟨h1, h2, h3, h4, h5, h6, h7, h8, h9, h10, h11, h12⟩ := h
  simp only [MFClassifier.Filter.Valid, prefixLengthOk_iff]
  exact ⟨⟨by omega, by omega, h2, h3, fun h => by omega, fun h => by omega⟩,
    by omega, by omega⟩

/-- C20: `addFilter` raises an error and leaves the filter list as it was for
every filter that violates one of the requirements (code point in `[0,64)`;
protocol -1 or in `[0,255]`; prefix length at most 32 for a specified IPv4
address and at most 128 for a specified IPv6 one, source and destination; each
port range that is set with `0 ≤ min ≤ max ≤ 65535`); every filter it accepts
satisfies all of them and is appended at the end of the list, the earlier
filters keeping their order; and whenever it raises, the list is unchanged. -/
theorem addFilter_validates (c : MFClassifier) (f : MFClassifier.Filter) :
    (¬ f.Valid → ∃ msg, c.addFilter f = (c, .error msg)) ∧
    ((c.addFilter f).2 = .ok () →
      f.Valid ∧ (c.addFilter f).1.filters = c.filters ++ [f]) ∧
    (∀ msg, (c.addFilter f).2 = .error msg → (c.addFilter f).1 = c) := by
  refine ⟨fun hv => ?_, fun hok => ?_, fun msg hmsg => ?_⟩
  · rcases addFilter_cases c f with h | h
    · exact h
    · exact absurd (addFilter_ok_valid c f (by rw [h])).1 hv
  · refine ⟨(addFilter_ok_valid c f hok).1, ?_⟩
    rcases addFilter_cases c f with ⟨msg, h⟩ | h
    · rw [h] at hok; cases hok
    · rw [h]
  · rcases addFilter_cases c f with ⟨m, h⟩ | h
    · rw [h]
    · rw [h] at hmsg; cases hmsg

/-- The theorem of C20 on two filters added to the list of scenario 3: one with
code point 64 is refused and the list is as it was; one with code point 10,
protocol TCP and destination ports 80 to 443 is accepted and becomes the third
filter. -/
theorem addFilter_validates_scenario :
    (∃ msg, (MFClassifier.mk scenarioFilters).addFilter { dscp := 64 }
      = (MFClassifier.mk scenarioFilters, .error msg)) ∧
    ((MFClassifier.mk scenarioFilters).addFilter
        { dscp := 10, protocol := 6, destPortMin := 80, destPortMax := 443 }).1.filters
      = scenarioFilters ++
          [{ dscp := 10, protocol := 6, destPortMin := 80, destPortMax := 443 }] :=
  ⟨(addFilter_validates (MFClassifier.mk scenarioFilters) { dscp := 64 }).1
      (fun hv => absurd hv.1.2 (by decide)),
   ((addFilter_validates (MFClassifier.mk scenarioFilters)
      { dscp := 10, protocol := 6, destPortMin := 80, destPortMax := 443 }).2.1 rfl).2⟩

/-! ### Marking and the behaviour-aggregate classifier -/

/-- C16: for every IPv4 or IPv6 datagram and every `D` in `[0,64)`, the
behaviour-aggregate classifier returns `D` for the datagram marked with `D`. -/
theorem mark_then_classify (D : Int) (h0 : 0 ≤ D) (h1 : D < 64) (d4 : IPv4Datagram)
    (d6 : IPv6Datagram) :
    BAClassifier.classifyPacket (TrafficConditioner.markPacket (.ipv4 d4) D) = D ∧
    BAClassifier.classifyPacket (TrafficConditioner.markPacket (.ipv6 d6) D) = D :=
  ⟨markPacket_classified h0 h1 (.ipv4 d4) (fun len h => by cases h),
   markPacket_classified h0 h1 (.ipv6 d6) (fun len h => by cases h)⟩

/-- The theorem of C16 at `D` = EF for the datagram of the scenarios, whose
ToS was 1. -/
theorem mark_then_classify_scenario :
    BAClassifier.classifyPacket
        (TrafficConditioner.markPacket (.ipv4 scenarioDatagram) DSCP_EF) = DSCP_EF :=
  (mark_then_classify DSCP_EF (by decide) (by decide) scenarioDatagram
    ⟨0, 0, 0, 0, .none, 0⟩).1

/-- C17, evaluated on an IPv4 datagram whose ToS byte is `0xC1` and marked
with 5: `markPacket` stores 5 in the whole byte, so the two most significant
bits, 3 before the marking, are 0 after it. In general the ToS (or
TrafficClass) byte after marking with `D` in `[0,64)` is `D`, whatever it was;
the other fields of the datagram, and a packet that is not an IP datagram, are
left as they are. -/
theorem markPacket_clears_upper_bits :
    TrafficConditioner.markPacket (.ipv4 upperBitsDatagram) 5
      = .ipv4 { upperBitsDatagram with typeOfService := 5 } ∧
    upperBitsDatagram.typeOfService / 64 = 3 ∧
    ({ upperBitsDatagram with typeOfService := 5 } : IPv4Datagram).typeOfService / 64 = 0 ∧
    (∀ (D : Int) (d4 : IPv4Datagram), 0 ≤ D → D < 64 →
      TrafficConditioner.markPacket (.ipv4 d4) D
        = .ipv4 { d4 with typeOfService := D.toNat }) ∧
    (∀ (D : Int) (d6 : IPv6Datagram), 0 ≤ D → D < 64 →
      TrafficConditioner.markPacket (.ipv6 d6) D
        = .ipv6 { d6 with trafficClass := D.toNat }) ∧
    (∀ (D : Int) (len : Nat), TrafficConditioner.markPacket (.other len) D = .other len) := by
  refine ⟨rfl, rfl, rfl, fun D d4 h0 h1 => ?_, fun D d6 h0 h1 => ?_, fun D len => rfl⟩
  · simp only [TrafficConditioner.markPacket, toUnsignedChar_of_byte h0 (by omega : D < 256)]
  · simp only [TrafficConditioner.markPacket, toUnsignedChar_of_byte h0 (by omega : D < 256)]

/-- C18: the behaviour-aggregate classifier returns `ToS & 0x3f`, the low six
bits of the ToS byte (its remainder modulo 64), for every IPv4 datagram; the
low six bits of the TrafficClass byte for every IPv6 datagram; and BE (0) for
every other packet. -/
theorem baClassifier_low_six_bits (d4 : IPv4Datagram) (d6 : IPv6Datagram) (len : Nat) :
    BAClassifier.classifyPacket (.ipv4 d4) = Int.land d4.typeOfService 0x3f ∧
    BAClassifier.classifyPacket (.ipv4 d4) = ((d4.typeOfService % 64 : Nat) : Int) ∧
    BAClassifier.classifyPacket (.ipv6 d6) = Int.land d6.trafficClass 0x3f ∧
    BAClassifier.classifyPacket (.ipv6 d6) = ((d6.trafficClass % 64 : Nat) : Int) ∧
    BAClassifier.classifyPacket (.other len) = DSCP_BE ∧ DSCP_BE = 0 :=
  ⟨rfl, land_63_nat _, rfl, land_63_nat _, rfl, rfl⟩


/-! ### The classifiers return code points -/

theorem built_filters_dscp {c : MFClassifier} (hc : c.Built) :
    ∀ f ∈ c.filters, 0 ≤ f.dscp ∧ f.dscp < 64 := by
  induction hc with
  | empty => intro f hf; simp at hf
  | @add c0 f0 _ hok ih =>
    intro f hf
    have hv := (addFilter_ok_valid c0 f0 hok).1
    have hl : (c0.addFilter f0).1.filters = c0.filters ++ [f0] := by
      rcases addFilter_cases c0 f0 with ⟨msg, h⟩ | h
      · rw [h] at hok; cases hok
      · rw [h]
    rw [hl] at hf
    rcases List.mem_append.mp hf with h | h
    · exact ih f h
    · rw [List.mem_singleton.mp h]
      exact hv.1

theorem scanFilters_result (test : MFClassifier.Filter → Except String Bool)
    (filters : List MFClassifier.Filter) (r : Int)
    (h : MFClassifier.scanFilters test filters = .ok r) :
    r = DSCP_BE ∨ ∃ f ∈ filters, r = f.dscp := by
  induction filters with
  | nil =>
    simp only [MFClassifier.scanFilters, Except.ok.injEq] at h
    exact Or.inl h.symm
  | cons f rest ih =>
    simp only [MFClassifier.scanFilters] at h
    cases ht : test f with
    | error e => rw [ht] at h; cases h
    | ok b =>
      rw [ht] at h
      cases b with
      | true =>
        simp only [Except.ok.injEq] at h
        exact Or.inr ⟨f, List.mem_cons_self f rest, h.symm⟩
      | false =>
        rcases ih h with h' | ⟨g, hg, hr⟩
        · exact Or.inl h'
        · exact Or.inr ⟨g, List.mem_cons_of_mem f hg, hr⟩

theorem scanFilters_total (test : MFClassifier.Filter → Except String Bool)
    (filters : List MFClassifier.Filter) (h : ∀ f ∈ filters, ∃ b, test f = .ok b) :
    ∃ r, MFClassifier.scanFilters test filters = .ok r := by
  induction filters with
  | nil => exact ⟨_, rfl⟩
  | cons f rest ih =>
    obtain ⟨b, hb⟩ := h f (List.mem_cons_self f rest)
    simp only [MFClassifier.scanFilters, hb]
    cases b with
    | true => exact ⟨_, rfl⟩
    | false => exact ih (fun g hg => h g (List.mem_cons_of_mem f hg))

theorem matchesPorts_total (f : MFClassifier.Filter) (proto : Int) (e : EncapsulatedPacket)
    (h : e.agrees proto) : ∃ b, f.matchesPorts proto e = .ok b := by
  have hp : ∃ ports, MFClassifier.Filter.transportPorts proto e = .ok ports := by
    unfold MFClassifier.Filter.transportPorts
    cases e with
    | udp s t =>
      simp only [EncapsulatedPacket.agrees] at h
      have h2 : (proto == IP_PROT_TCP) = false := by simpa using h
      cases h1 : proto == IP_PROT_UDP
      · simp only [h2, Bool.false_eq_true, if_false]; exact ⟨_, rfl⟩
      · simp only [if_true]; exact ⟨_, rfl⟩
    | tcp s t =>
      simp only [EncapsulatedPacket.agrees] at h
      have h2 : (proto == IP_PROT_UDP) = false := by simpa using h
      cases h1 : proto == IP_PROT_TCP
      · simp only [h2, Bool.false_eq_true, if_false]; exact ⟨_, rfl⟩
      · simp only [h2, Bool.false_eq_true, if_false, if_true]; exact ⟨_, rfl⟩
    | other =>
      simp only [EncapsulatedPacket.agrees] at h
      have h1 : (proto == IP_PROT_UDP) = false := by simpa using h.1
      have h2 : (proto == IP_PROT_TCP) = false := by simpa using h.2
      simp only [h1, h2, Bool.false_eq_true, if_false]; exact ⟨_, rfl⟩
    | none =>
      simp only [EncapsulatedPacket.agrees] at h
      have h1 : (proto == IP_PROT_UDP) = false := by simpa using h.1
      have h2 : (proto == IP_PROT_TCP) = false := by simpa using h.2
      simp only [h1, h2, Bool.false_eq_true, if_false]; exact ⟨_, rfl⟩
  obtain ⟨⟨sp, dp⟩, hports⟩ := hp
  unfold MFClassifier.Filter.matchesPorts
  rw [hports]
  simp only
  split_ifs <;> exact ⟨_, rfl⟩

theorem matchesIPv4_total (f : MFClassifier.Filter) (d : IPv4Datagram)
    (h : d.encapsulatedPacket.agrees d.transportProtocol) : ∃ b, f.matchesIPv4 d = .ok b := by
  unfold MFClassifier.Filter.matchesIPv4
  split_ifs
  · exact ⟨_, rfl⟩
  · exact ⟨_, rfl⟩
  · exact ⟨_, rfl⟩
  · exact ⟨_, rfl⟩
  · exact matchesPorts_total f _ _ h

theorem matchesIPv6_total (f : MFClassifier.Filter) (d : IPv6Datagram)
    (h : d.encapsulatedPacket.agrees d.transportProtocol) : ∃ b, f.matchesIPv6 d = .ok b := by
  unfold MFClassifier.Filter.matchesIPv6
  split_ifs
  · exact ⟨_, rfl⟩
  · exact ⟨_, rfl⟩
  · exact ⟨_, rfl⟩
  · exact ⟨_, rfl⟩
  · exact matchesPorts_total f _ _ h

theorem baClassifier_range (p : Packet) :
    0 ≤ BAClassifier.classifyPacket p ∧ BAClassifier.classifyPacket p ≤ 63 := by
  cases p with
  | ipv4 d =>
    have := land_63_nat d.typeOfService
    simp only [BAClassifier.classifyPacket, this]
    omega
  | ipv6 d =>
    have := land_63_nat d.trafficClass
    simp only [BAClassifier.classifyPacket, this]
    omega
  | other len => simp [BAClassifier.classifyPacket, DSCP_BE]

/-- C19: for every packet the result of the classifier is an integer between
0 and 63: for the behaviour-aggregate classifier always; for the multi-field
classifier with a filter list obtained from the empty list by calls of
`addFilter` that did not raise, whenever it returns, and it does return for
every packet that is not an IP datagram and for every IP datagram whose
encapsulated packet is of the class its protocol number announces. -/
theorem classifier_result_in_range (c : MFClassifier) (hc : c.Built) (p : Packet) :
    (0 ≤ BAClassifier.classifyPacket p ∧ BAClassifier.classifyPacket p ≤ 63) ∧
    (∀ r, c.classifyPacket p = .ok r → 0 ≤ r ∧ r ≤ 63) ∧
    (p.transportAgrees → ∃ r, c.classifyPacket p = .ok r ∧ 0 ≤ r ∧ r ≤ 63) := by
  have hrange : ∀ r, c.classifyPacket p = .ok r → 0 ≤ r ∧ r ≤ 63 := by
    intro r hr
    have key : r = DSCP_BE ∨ ∃ f ∈ c.filters, r = f.dscp := by
      cases p with
      | ipv4 d => exact scanFilters_result _ _ r hr
      | ipv6 d => exact scanFilters_result _ _ r hr
      | other len =>
        simp only [MFClassifier.classifyPacket, Except.ok.injEq] at hr
        exact Or.inl hr.symm
    rcases key with h | ⟨f, hf, h⟩
    · rw [h]; decide
    · have := built_filters_dscp hc f hf
      omega
  refine ⟨baClassifier_range p, hrange, fun hp => ?_⟩
  have htotal : ∃ r, c.classifyPacket p = .ok r := by
    cases p with
    | ipv4 d => exact scanFilters_total _ _ (fun f _ => matchesIPv4_total f d hp)
    | ipv6 d => exact scanFilters_total _ _ (fun f _ => matchesIPv6_total f d hp)
    | other len => exact ⟨_, rfl⟩
  obtain ⟨r, hr⟩ := htotal
  exact ⟨r, hr, hrange r hr⟩

/-- The theorem of C19 for the classifier built by adding the two filters of
scenario 3 to the empty list, on the UDP datagram of the scenario: the
multi-field classifier returns a code point between 0 and 63. -/
theorem classifier_result_in_range_scenario :
    ∃ r, (((MFClassifier.mk []).addFilter { protocol := IP_PROT_UDP, dscp := DSCP_EF }).1.addFilter
        { dscp := DSCP_BE }).1.classifyPacket (.ipv4 scenarioUdpDatagram) = .ok r ∧
      0 ≤ r ∧ r ≤ 63 :=
  (classifier_result_in_range _
    (MFClassifier.Built.add { dscp := DSCP_BE }
      (MFClassifier.Built.add { protocol := IP_PROT_UDP, dscp := DSCP_EF }
        MFClassifier.Built.empty rfl) rfl)
    (.ipv4 scenarioUdpDatagram)).2.2
    (show (EncapsulatedPacket.udp 1000 2000).agrees 17 from by
      simp [EncapsulatedPacket.agrees, IP_PROT_TCP])

/-! ### The ToS checks and the error messages of `addFilter` -/

/-- C21, counterexample: a filter whose ToS value is -1, otherwise as
constructed, is accepted by `addFilter`, although -1 is not in `[0,255]`. -/
theorem addFilter_accepts_tos_minus_one :
    ((MFClassifier.mk []).addFilter { tos := -1 }).2 = .ok () ∧
    ((MFClassifier.mk []).addFilter { tos := -1 }).1.filters = [{ tos := -1 }] ∧
    ¬ (0 ≤ ({ tos := -1 } : MFClassifier.Filter).tos ∧
       ({ tos := -1 } : MFClassifier.Filter).tos ≤ 255) := by
  refine ⟨rfl, rfl, ?_⟩
  decide

/-- C21, amended: every filter accepted by `addFilter` has its ToS value equal
to -1 or in `[0,255]` and its ToS mask in `[0,255]`; `addFilter` raises an
error, leaving the list as it was, for every filter whose ToS value is neither
-1 nor in `[0,255]` or whose mask lies outside `[0,255]`. -/
theorem addFilter_tos_range (c : MFClassifier) (f : MFClassifier.Filter) :
    ((c.addFilter f).2 = .ok () →
      (f.tos = -1 ∨ (0 ≤ f.tos ∧ f.tos ≤ 255)) ∧ (0 ≤ f.tosMask ∧ f.tosMask ≤ 255)) ∧
    ((f.tos ≠ -1 ∧ (f.tos < 0 ∨ 255 < f.tos)) ∨ (f.tosMask < 0 ∨ 255 < f.tosMask) →
      ∃ msg, c.addFilter f = (c, .error msg)) := by
  refine ⟨fun hok => (addFilter_ok_valid c f hok).2, fun hbad => ?_⟩
  rcases addFilter_cases c f with h | h
  · exact h
  · exfalso
    have := (addFilter_ok_valid c f (by rw [h])).2
    omega

/-- The theorem of C21 on the filter list of scenario 3: a filter with ToS
value 256 and one with mask -1 are refused, and the accepted filter with ToS
value 16 and mask 255 has both in range. -/
theorem addFilter_tos_range_scenario :
    (∃ msg, (MFClassifier.mk scenarioFilters).addFilter { tos := 256 }
      = (MFClassifier.mk scenarioFilters, .error msg)) ∧
    (∃ msg, (MFClassifier.mk scenarioFilters).addFilter { tosMask := -1 }
      = (MFClassifier.mk scenarioFilters, .error msg)) ∧
    (((16 : Int) = -1 ∨ ((0 : Int) ≤ 16 ∧ (16 : Int) ≤ 255)) ∧
      ((0 : Int) ≤ 255 ∧ (255 : Int) ≤ 255)) :=
  ⟨(addFilter_tos_range (MFClassifier.mk scenarioFilters) { tos := 256 }).2
      (Or.inl (by decide)),
   (addFilter_tos_range (MFClassifier.mk scenarioFilters) { tosMask := -1 }).2
      (Or.inr (by decide)),
   (addFilter_tos_range (MFClassifier.mk scenarioFilters) { tos := 16, tosMask := 255 }).1 rfl⟩

/-- C22: `addFilter` refuses a filter whose only defect is a destination
prefix length of 33 on an IPv4 address with the error `srcPrefixLength is
invalid`: the message names the source prefix length, which is valid (0), and
not the destination prefix length; the same filter with the prefix length 32
is accepted. -/
theorem addFilter_dest_prefix_error_names_source (c : MFClassifier) :
    c.addFilter longDestPrefixFilter = (c, .error "srcPrefixLength is invalid") ∧
    longDestPrefixFilter.srcPrefixLength = 0 ∧
    (c.addFilter { longDestPrefixFilter with destPrefixLength := 32 }).2 = .ok () :=
  ⟨rfl, rfl, rfl⟩

/-! ### The filters built by `MFClassifier::configure` -/

theorem filterOfElement_prefixLength (u : AttributeParsers) (e : cXMLElement)
    (f : MFClassifier.Filter) (h : MFClassifier.filterOfElement u e = .ok f) :
    f.srcPrefixLength = 0 ∧ f.destPrefixLength = 0 := by
  simp only [MFClassifier.filterOfElement, bind, Except.bind, pure, Except.pure] at h
  repeat' split at h
  all_goals first
    | (cases h; done)
    | (cases h; exact ⟨rfl, rfl⟩)

theorem filterOfElement_tos (u : AttributeParsers) (e : cXMLElement)
    (f : MFClassifier.Filter) (h : MFClassifier.filterOfElement u e = .ok f)
    (a b : String) (ht : e.getAttribute "tos" = some a) (hm : e.getAttribute "tosMask" = some b) :
    u.parseIntAttribute (some a) "tos" = .ok f.tos ∧
    u.parseIntAttribute (some a) "tosMask" = .ok f.tosMask := by
  simp only [MFClassifier.filterOfElement, bind, Except.bind, pure, Except.pure, ht, hm] at h
  repeat' split at h
  all_goals first
    | (cases h; done)
    | (cases h; exact ⟨by assumption, by assumption⟩)

/-- C23: the mask of a filter built by `configure` is parsed from the text of
the attribute `tos`, not from that of `tosMask`. For the rule
`dscp=46 tos=16 tosMask=255` the filter built has ToS value 16 and mask 16
instead of 255, and it matches a datagram with ToS byte 17, for which
`(16 & 255) == (17 & 255)` is false. -/
theorem configure_parses_mask_from_tos :
    (∀ (u : AttributeParsers) (e : cXMLElement) (f : MFClassifier.Filter) (a b : String),
      MFClassifier.filterOfElement u e = .ok f → e.getAttribute "tos" = some a →
      e.getAttribute "tosMask" = some b →
      u.parseIntAttribute (some a) "tosMask" = .ok f.tosMask) ∧
    tosRuleElement.getAttribute "tosMask" = some "255" ∧
    MFClassifier.configure scenarioParsers (MFClassifier.mk []) [tosRuleElement]
      = ({ filters := [{ dscp := 46, tos := 16, tosMask := 16 }] }, .ok ()) ∧
    ({ dscp := 46, tos := 16, tosMask := 16 } : MFClassifier.Filter).matchesIPv4 foreignDatagram
      = .ok true ∧
    foreignDatagram.typeOfService = 17 ∧
    Int.land 16 255 ≠ Int.land 17 255 := by
  refine ⟨fun u e f a b h ht hm => (filterOfElement_tos u e f h a b ht hm).2,
    rfl, rfl, rfl, rfl, ?_⟩
  decide

/-- C24: no filter built by `configure` has a prefix length other than 0, so
its address is never compared. For the rule
`dscp=46 srcAddress=10.0.0.1 srcPrefixLength=32` the filter built has the
source prefix length 0 and matches a datagram from 192.168.0.1, whose source
address differs from 10.0.0.1 within the first 32 bits; likewise for the rule
`dscp=46 destAddress=10.0.0.2 destPrefixLength=32` and a datagram to
192.168.0.2. -/
theorem configure_sets_no_prefix_length :
    (∀ (u : AttributeParsers) (e : cXMLElement) (f : MFClassifier.Filter),
      MFClassifier.filterOfElement u e = .ok f →
      f.srcPrefixLength = 0 ∧ f.destPrefixLength = 0) ∧
    MFClassifier.configure scenarioParsers (MFClassifier.mk []) [srcPrefixRuleElement]
      = ({ filters := [{ dscp := 46, srcAddr := .v4 0x0a000001 }] }, .ok ()) ∧
    ({ dscp := 46, srcAddr := .v4 0x0a000001 } : MFClassifier.Filter).matchesIPv4 foreignDatagram
      = .ok true ∧
    IPv4Address.prefixMatches foreignDatagram.srcAddress 0x0a000001 32 = false ∧
    MFClassifier.configure scenarioParsers (MFClassifier.mk []) [destPrefixRuleElement]
      = ({ filters := [{ dscp := 46, destAddr := .v4 0x0a000002 }] }, .ok ()) ∧
    ({ dscp := 46, destAddr := .v4 0x0a000002 } : MFClassifier.Filter).matchesIPv4 foreignDatagram
      = .ok true ∧
    IPv4Address.prefixMatches foreignDatagram.destAddress 0x0a000002 32 = false :=
  ⟨filterOfElement_prefixLength, rfl, rfl, rfl, rfl, rfl, rfl⟩

/-! ### The loops over the traffic profiles -/

theorem assignAll_never_returns (i : Int) (hi : i < 64) (meter : String) :
    ∀ (fuel : Nat) (j : Int) (map m : List (Option String)),
      assignAll i meter fuel j map ≠ some (.ok m) := by
  intro fuel
  induction fuel with
  | zero => intro j map m h; cases h
  | succ fuel ih =>
    intro j map m h
    have hi' : i < DSCP_MAX := hi
    simp only [assignAll, if_pos hi'] at h
    split at h
    · cases h
    · exact ih _ _ _ h

theorem assignAll_skipped (i : Int) (hi : 64 ≤ i) (meter : String) (fuel : Nat) (j : Int)
    (map : List (Option String)) : assignAll i meter (fuel + 1) j map = some (.ok map) := by
  have hi' : ¬ i < DSCP_MAX := by simp only [DSCP_MAX]; omega
  simp only [assignAll, if_neg hi']

theorem assignProfiles_never_returns (meters : List (String × IMeter)) (fuel : Nat) (i : Int)
    (hi : i < 64) (p : ProfileElement) (hp : p.dscp = none) (rest : List ProfileElement)
    (map m : List (Option String)) :
    assignProfiles meters fuel i (p :: rest) map ≠ some (.ok m) := by
  intro h
  simp only [assignProfiles, hp] at h
  cases hl : meters.lookup p.meter with
  | none => rw [hl] at h; cases h
  | some meter =>
    rw [hl] at h
    cases ha : assignAll i p.meter fuel 0 map with
    | none => rw [ha] at h; cases h
    | some r =>
      cases r with
      | error e => rw [ha] at h; cases h
      | ok m1 => exact assignAll_never_returns i hi p.meter fuel 0 map m1 ha

theorem initializeProfiles_never_returns (tc : TrafficConditioner) (fuel : Nat)
    (p : ProfileElement) (hp : p.dscp = none) (rest : List ProfileElement)
    (tc1 : TrafficConditioner) :
    tc.initializeProfiles fuel (p :: rest) ≠ some (.ok tc1) := by
  intro h
  simp only [TrafficConditioner.initializeProfiles, List.isEmpty_cons, Bool.false_eq_true,
    if_false] at h
  cases ha : assignProfiles tc.meters fuel 0 (p :: rest) (List.replicate DSCP_MAX.toNat none) with
  | none => rw [ha] at h; cases h
  | some r =>
    cases r with
    | error e => rw [ha] at h; cases h
    | ok m1 => exact assignProfiles_never_returns tc.meters fuel 0 (by decide) p hp rest _ m1 ha

/-- C25: the loop run for a traffic profile without the attribute `dscp` tests
the index `i` of the profile, not its own index `j`. For `i < 64` it never
ends normally, however many evaluations of its condition it is given: after the
64 entries are written it goes on to write `dscpToMeterMap[64]`, outside the
array; for `i ≥ 64` it ends at once and assigns nothing. So `initialize` does
not complete for the single profile `meter=tb` without `dscp`. Profiles that
list their code points are processed as described: with `a` for 1 and 2, then
`b` for 2, entry 1 is `a` and entry 2 is `b`. -/
theorem profile_without_dscp_overruns :
    (∀ (i : Int) (meter : String) (fuel : Nat) (map m : List (Option String)),
      i < 64 → assignAll i meter fuel 0 map ≠ some (.ok m)) ∧
    (∀ (i : Int) (meter : String) (fuel : Nat) (map : List (Option String)),
      64 ≤ i → assignAll i meter (fuel + 1) 0 map = some (.ok map)) ∧
    (∀ (fuel : Nat) (tc1 : TrafficConditioner),
      tokenBucketConditioner.initializeProfiles fuel [{ meter := "tb", dscp := none }]
        ≠ some (.ok tc1)) ∧
    assignAll 0 "tb" 64 0 (List.replicate 64 none) = none ∧
    assignAll 0 "tb" 65 0 (List.replicate 64 none)
      = some (.error "dscpToMeterMap: index out of range") ∧
    tokenBucketConditioner.initializeProfiles 65 [{ meter := "tb", dscp := none }]
      = some (.error "dscpToMeterMap: index out of range") ∧
    assignProfiles scenarioTwoMeters 0 0
        [{ meter := "a", dscp := some [1, 2] }, { meter := "b", dscp := some [2] }]
        (List.replicate 64 none)
      = some (.ok (((List.replicate 64 none).set 1 (some "a")).set 2 (some "b"))) := by
  refine ⟨fun i meter fuel map m hi => assignAll_never_returns i hi meter fuel 0 map m,
    fun i meter fuel map hi => assignAll_skipped i hi meter fuel 0 map,
    fun fuel tc1 => initializeProfiles_never_returns _ fuel _ rfl [] tc1, rfl, rfl, rfl, rfl⟩

/-! ### Defaults of a module without classifier, meters or action table -/

theorem meterPacket_total (tc : TrafficConditioner) (hm : tc.MeterMapOk) (now : ℚ)
    (p : Packet) (dscp : Int) (h0 : 0 ≤ dscp) (h1 : dscp < 64) :
    ∃ tc1 color, tc.meterPacket now p dscp = .ok (tc1, color) ∧ tc1.actions = tc.actions := by
  have hr : ¬ ¬ (0 ≤ dscp ∧ dscp < DSCP_MAX) := by simp [DSCP_MAX, h0, h1]
  simp only [TrafficConditioner.meterPacket, if_neg hr]
  cases hmap : tc.dscpToMeterMap with
  | none => exact ⟨tc, GREEN, rfl, rfl⟩
  | some map =>
    obtain ⟨hlen, hnames⟩ := hm map hmap
    have hlt : dscp.toNat < map.length := by omega
    simp only [List.getElem?_eq_getElem hlt]
    cases hentry : map[dscp.toNat] with
    | none => exact ⟨tc, GREEN, rfl, rfl⟩
    | some name =>
      have hin : some name ∈ map := by rw [← hentry]; exact List.getElem_mem _
      have := hnames name hin
      cases hl : tc.meters.lookup name with
      | none => rw [hl] at this; cases this
      | some meter => simp only [hl]; exact ⟨_, _, rfl, rfl⟩

theorem getActionCode_no_table (tc : TrafficConditioner) (h : tc.actions = none)
    (dscp color : Int) : tc.getActionCode dscp color = .ok (toUnsignedChar NopAction) := by
  simp only [TrafficConditioner.getActionCode, h]

/-- C26: for every packet and every code point `dscp` in `[0,64)`: without a
classifier `classifyPacket` returns BE (0); without a meter map, or with no
meter assigned to `dscp`, `meterPacket` returns GREEN and the module, its
meters included, is as it was; without an action table `getActionCode` returns
no-op for every `(dscp, color)`, and `conditionPacket` returns the packet it was
given, unchanged, whatever the metering returned, and it does return for a
module whose meter map refers to existing meters. -/
theorem unconfigured_defaults (tc : TrafficConditioner) (now : ℚ) (p : Packet) (dscp : Int)
    (h0 : 0 ≤ dscp) (h1 : dscp < 64) :
    (tc.classifier = none → tc.classifyPacket p = .ok DSCP_BE) ∧
    (tc.dscpToMeterMap = none ∨
        (∃ map, tc.dscpToMeterMap = some map ∧ map[dscp.toNat]? = some none) →
      tc.meterPacket now p dscp = .ok (tc, GREEN)) ∧
    (tc.actions = none →
      (∀ d c, tc.getActionCode d c = .ok (toUnsignedChar NopAction)) ∧
      (∀ tc1 color, tc.meterPacket now p dscp = .ok (tc1, color) →
        tc.conditionPacket now p dscp = .ok (tc1, some p)) ∧
      (tc.MeterMapOk → ∃ tc1, tc.conditionPacket now p dscp = .ok (tc1, some p))) := by
  have hr : ¬ ¬ (0 ≤ dscp ∧ dscp < DSCP_MAX) := by simp [DSCP_MAX, h0, h1]
  have hcond : ∀ tc1 color, tc.actions = none → tc.meterPacket now p dscp = .ok (tc1, color) →
      tc.conditionPacket now p dscp = .ok (tc1, some p) := by
    intro tc1 color ha hmeter
    have ha1 : tc1.actions = none := by
      obtain ⟨h, _⟩ := meterPacket_frame hmeter
      rw [h, ha]
    simp only [TrafficConditioner.conditionPacket, hmeter, getActionCode_no_table tc1 ha1]
    rfl
  refine ⟨fun hc => ?_, fun hm => ?_, fun ha => ⟨getActionCode_no_table tc ha, ?_, ?_⟩⟩
  · simp only [TrafficConditioner.classifyPacket, hc]
  · simp only [TrafficConditioner.meterPacket, if_neg hr]
    rcases hm with hm | ⟨map, hm, he⟩
    · simp only [hm]
    · simp only [hm, he]
  · exact fun tc1 color hmeter => hcond tc1 color ha hmeter
  · intro hok
    obtain ⟨tc1, color, hmeter, _⟩ := meterPacket_total tc hok now p dscp h0 h1
    exact ⟨tc1, hcond tc1 color ha hmeter⟩

/-- The theorem of C26 on a module with one color and nothing configured, and
the datagram of scenario 1: it is classified BE, metered GREEN, and returned as
it is, the module being as before. -/
theorem unconfigured_defaults_scenario :
    (conditionerWithColors 1).classifyPacket (.ipv4 scenarioDatagram) = .ok 0 ∧
    (conditionerWithColors 1).meterPacket 0 (.ipv4 scenarioDatagram) 0
      = .ok (conditionerWithColors 1, 0) ∧
    (conditionerWithColors 1).conditionPacket 0 (.ipv4 scenarioDatagram) 0
      = .ok (conditionerWithColors 1, some (.ipv4 scenarioDatagram)) :=
  ⟨(unconfigured_defaults (conditionerWithColors 1) 0 (.ipv4 scenarioDatagram) 0
      (by decide) (by decide)).1 rfl,
   (unconfigured_defaults (conditionerWithColors 1) 0 (.ipv4 scenarioDatagram) 0
      (by decide) (by decide)).2.1 (Or.inl rfl),
   ((unconfigured_defaults (conditionerWithColors 1) 0 (.ipv4 scenarioDatagram) 0
      (by decide) (by decide)).2.2 rfl).2.1 _ _ rfl⟩

/-! ### Port predicates on datagrams without ports -/

theorem matchesPorts_unresolved (f : MFClassifier.Filter) (proto : Int) (e : EncapsulatedPacket)
    (hf : f.srcPortMin ≥ 0 ∨ f.destPortMin ≥ 0)
    (hu : proto ≠ IP_PROT_UDP) (ht : proto ≠ IP_PROT_TCP) :
    f.matchesPorts proto e = .ok false := by
  have hports : MFClassifier.Filter.transportPorts proto e = .ok (-1, -1) := by
    simp [MFClassifier.Filter.transportPorts, hu, ht]
  simp only [MFClassifier.Filter.matchesPorts, hports]
  rcases hf with h | h
  · have h1 : (-1 : Int) < f.srcPortMin := by omega
    simp [h, h1]
  · have h1 : (-1 : Int) < f.destPortMin := by omega
    simp [h, h1]

/-- C27: for every filter with a source-port or destination-port predicate
(`srcPortMin ≥ 0` or `destPortMin ≥ 0`) and every IPv4 or IPv6 datagram whose
transport protocol is neither UDP nor TCP, `Filter::matches` returns false and
raises no error, whatever the datagram carries. -/
theorem port_filter_rejects_other_protocols (f : MFClassifier.Filter)
    (d4 : IPv4Datagram) (d6 : IPv6Datagram)
    (hf : f.srcPortMin ≥ 0 ∨ f.destPortMin ≥ 0) :
    (d4.transportProtocol ≠ IP_PROT_UDP → d4.transportProtocol ≠ IP_PROT_TCP →
      f.matchesIPv4 d4 = .ok false) ∧
    (d6.transportProtocol ≠ IP_PROT_UDP → d6.transportProtocol ≠ IP_PROT_TCP →
      f.matchesIPv6 d6 = .ok false) := by
  constructor
  · intro hu ht
    simp only [MFClassifier.Filter.matchesIPv4, matchesPorts_unresolved f _ _ hf hu ht]
    split_ifs <;> rfl
  · intro hu ht
    simp only [MFClassifier.Filter.matchesIPv6, matchesPorts_unresolved f _ _ hf hu ht]
    split_ifs <;> rfl

/-- The theorem of C27 on a filter for destination port 80 and datagrams
carrying ICMP and ICMPv6: neither matches. -/
theorem port_filter_rejects_other_protocols_scenario :
    ({ dscp := 10, destPortMin := 80, destPortMax := 80 } : MFClassifier.Filter).matchesIPv4
      scenarioIcmpDatagram = .ok false ∧
    ({ dscp := 10, destPortMin := 80, destPortMax := 80 } : MFClassifier.Filter).matchesIPv6
      scenarioIcmpv6Datagram = .ok false :=
  ⟨(port_filter_rejects_other_protocols { dscp := 10, destPortMin := 80, destPortMax := 80 }
      scenarioIcmpDatagram scenarioIcmpv6Datagram (Or.inr (by decide))).1
      (by decide) (by decide),
   (port_filter_rejects_other_protocols { dscp := 10, destPortMin := 80, destPortMax := 80 }
      scenarioIcmpDatagram scenarioIcmpv6Datagram (Or.inr (by decide))).2
      (by decide) (by decide)⟩

/-! ### Shape-only cells -/

theorem applyAction_shape_only (tc : TrafficConditioner) (p : Packet) (d c : Int) :
    tc.applyAction p d c (toUnsignedChar ShapeAction) = tc.shapePacket p d c := by
  have h1 : (((toUnsignedChar ShapeAction : Nat) : Int) == NopAction) = false := by decide
  have h2 : (((toUnsignedChar ShapeAction : Nat) : Int) == DropAction) = false := by decide
  have h3 : isMarkAction (toUnsignedChar ShapeAction) = false := by decide
  have h4 : isShapeAction (toUnsignedChar ShapeAction) = true := by decide
  simp [TrafficConditioner.applyAction, h1, h2, h3, h4]

/-- C28: when the metering of a packet gives the color `color`, a color of the
module, and the cell `(dscp, color)` holds the shape-only code, then
`conditionPacket` returns exactly what the shaper registered under
`(dscp, color)` returns for the packet as it was given (a packet or none), and
the packet itself, unchanged, when no shaper is registered under that key. -/
theorem shape_only_cell (tc tc1 : TrafficConditioner) (now : ℚ) (p : Packet) (dscp color : Int)
    (hmeter : tc.meterPacket now p dscp = .ok (tc1, color))
    (hc0 : 0 ≤ color) (hc1 : color < tc.numColors)
    (hcode : tc1.getActionCode dscp color = .ok (toUnsignedChar ShapeAction)) :
    (∀ shaper, tc.shapers.lookup (dscp, color) = some shaper →
      tc.conditionPacket now p dscp = .ok (tc1, shaper.shapePacket p)) ∧
    (tc.shapers.lookup (dscp, color) = none →
      tc.conditionPacket now p dscp = .ok (tc1, some p)) := by
  obtain ⟨_, hs, hn⟩ := meterPacket_frame hmeter
  have hd : 0 ≤ dscp ∧ dscp < DSCP_MAX := by
    by_contra hd
    simp [TrafficConditioner.meterPacket, hd] at hmeter
  have hr : ¬ ¬ (0 ≤ dscp ∧ dscp < DSCP_MAX) := not_not.mpr hd
  have hcol : ¬ ¬ (0 ≤ color ∧ color < tc1.numColors) := by
    rw [hn]; exact not_not.mpr ⟨hc0, hc1⟩
  have hcp : tc.conditionPacket now p dscp =
      (match tc1.shapers.lookup (dscp, color) with
       | some shaper => .ok (tc1, shaper.shapePacket p)
       | none => .ok (tc1, some p)) := by
    simp only [TrafficConditioner.conditionPacket, hmeter, hcode, applyAction_shape_only,
      TrafficConditioner.shapePacket, if_neg hr, if_neg hcol]
    cases tc1.shapers.lookup (dscp, color) <;> rfl
  rw [hs] at hcp
  constructor
  · intro shaper hl
    rw [hcp, hl]
  · intro hl
    rw [hcp, hl]

/-- The theorem of C28 on the module of scenario 1, whose cell `(2, 0)` is
shape-only with a holding shaper, and on the table of scenario 2, whose cell
`(1, 0)` is shape-only without a shaper: the first returns none, the second
the datagram as it was. -/
theorem shape_only_cell_scenario :
    (markAndShapeConditioner passingShaper holdingShaper).conditionPacket 0
        (.ipv4 scenarioDatagram) 2
      = .ok (markAndShapeConditioner passingShaper holdingShaper, none) ∧
    scenarioMarkTable.conditionPacket 0 (.ipv4 scenarioDatagram) 1
      = .ok (scenarioMarkTable, some (.ipv4 scenarioDatagram)) :=
  ⟨(shape_only_cell (markAndShapeConditioner passingShaper holdingShaper) _ 0
      (.ipv4 scenarioDatagram) 2 0 rfl (by decide) (by decide) rfl).1 holdingShaper rfl,
   (shape_only_cell scenarioMarkTable _ 0 (.ipv4 scenarioDatagram) 1 0 rfl
      (by decide) (by decide) rfl).2 rfl⟩


/-! ### The identity mark composed with a shape rule -/

theorem stepCode_mark_star {ds cs : List Int} {d c : Int} (hd : d ∈ ds) (hc : c ∈ cs)
    (x : ActionCode) :
    (ActionElement.mark ds cs (-1)).stepCode d c x = markCode d x := by
  have hcov : (ActionElement.mark ds cs (-1)).covers d c := ⟨hd, hc⟩
  simp only [ActionElement.stepCode, if_pos hcov, ActionElement.cellCode]
  rfl

theorem stepCode_shape {ds cs : List Int} {d c : Int} (hd : d ∈ ds) (hc : c ∈ cs)
    (sh : ITrafficShaper) (x : ActionCode) :
    (ActionElement.shape ds cs sh).stepCode d c x = shapeCode x := by
  have hcov : (ActionElement.shape ds cs sh).covers d c := ⟨hd, hc⟩
  simp only [ActionElement.stepCode, if_pos hcov, ActionElement.cellCode]

/-- C29: on a module with `n` colors and for every cell `(d, c)` of its table,
the rule list `[mark value=* on (d,c)]` leaves the cell, no-op before, with
the code mark-to-`d`, which is not no-op; the list
`[mark value=* on (d,c), shape on (d,c)]` leaves it with the code
mark-to-`d`-and-shape; the list `[shape on (d,c)]` leaves it with the
shape-only code; and the last two codes differ. -/
theorem star_mark_then_shape (n : Nat) (tc : TrafficConditioner) (hn : tc.numColors = n)
    (d c : Int) (hd0 : 0 ≤ d) (hd1 : d < 64) (hc0 : 0 ≤ c) (hc1 : c < (n : Int))
    (sh : ITrafficShaper) :
    (∃ t1, tc.initializeActions [.mark [d] [c] (-1)] = .ok t1 ∧
      t1.getActionCode d c = .ok (toUnsignedChar (MarkAction d)) ∧
      toUnsignedChar (MarkAction d) ≠ toUnsignedChar NopAction) ∧
    (∃ t2, tc.initializeActions [.mark [d] [c] (-1), .shape [d] [c] sh] = .ok t2 ∧
      t2.getActionCode d c = .ok (toUnsignedChar (MarkAndShapeAction d))) ∧
    (∃ t3, tc.initializeActions [.shape [d] [c] sh] = .ok t3 ∧
      t3.getActionCode d c = .ok (toUnsignedChar ShapeAction)) ∧
    toUnsignedChar (MarkAndShapeAction d) ≠ toUnsignedChar ShapeAction := by
  have hm : (ActionElement.mark [d] [c] (-1)).WellFormed n :=
    ⟨fun x hx => by rw [List.mem_singleton.mp hx]; exact ⟨hd0, hd1⟩,
     fun x hx => by rw [List.mem_singleton.mp hx]; exact ⟨hc0, hc1⟩, Or.inl rfl⟩
  have hs : (ActionElement.shape [d] [c] sh).WellFormed n :=
    ⟨fun x hx => by rw [List.mem_singleton.mp hx]; exact ⟨hd0, hd1⟩,
     fun x hx => by rw [List.mem_singleton.mp hx]; exact ⟨hc0, hc1⟩, trivial⟩
  have hdm : d ∈ [d] := List.mem_singleton.mpr rfl
  have hcm : c ∈ [c] := List.mem_singleton.mpr rfl
  have e1 : toUnsignedChar (MarkAction d) = d.toNat := toUnsignedChar_MarkAction hd0 hd1
  have e2 : toUnsignedChar (MarkAndShapeAction d) = d.toNat + 64 :=
    toUnsignedChar_MarkAndShapeAction hd0 hd1
  have e3 : toUnsignedChar ShapeAction = 253 := by decide
  have e4 : toUnsignedChar NopAction = 255 := by decide
  have m255 : markCode d 255 = d.toNat := by
    rw [markCode_eq hd0 hd1]; simp
  have hwf : ActionCode.WellFormed d.toNat := by
    right; right; right
    have key : (d.toNat : Nat) < 128 := by omega
    exact key
  have s1 : shapeCode d.toNat = d.toNat + 64 := by
    rw [shapeCode_eq hwf]
    have key : (if d.toNat = 255 then 253 else if d.toNat < 64 then d.toNat + 64 else d.toNat : Nat)
        = d.toNat + 64 := by split_ifs <;> omega
    exact key
  refine ⟨?_, ?_, ?_, ?_⟩
  · obtain ⟨t1, a1, -, a3, -⟩ := initializeActions_spec tc hn [.mark [d] [c] (-1)]
      (by intro e he; rw [List.mem_singleton.mp he]; exact hm)
    refine ⟨t1, a1, ?_, ?_⟩
    · rw [a3 d c hd0 hd1 hc0 hc1, e1]
      simp only [codeAfter, List.foldl, stepCode_mark_star hdm hcm, m255]
    · rw [e1, e4]; omega
  · obtain ⟨t2, a1, -, a3, -⟩ := initializeActions_spec tc hn
      [.mark [d] [c] (-1), .shape [d] [c] sh]
      (by
        intro e he
        simp only [List.mem_cons, List.mem_singleton, List.not_mem_nil, or_false] at he
        rcases he with rfl | rfl
        · exact hm
        · exact hs)
    refine ⟨t2, a1, ?_⟩
    rw [a3 d c hd0 hd1 hc0 hc1, e2]
    simp only [codeAfter, List.foldl, stepCode_mark_star hdm hcm, stepCode_shape hdm hcm, m255, s1]
  · obtain ⟨t3, a1, -, a3, -⟩ := initializeActions_spec tc hn [.shape [d] [c] sh]
      (by intro e he; rw [List.mem_singleton.mp he]; exact hs)
    refine ⟨t3, a1, ?_⟩
    rw [a3 d c hd0 hd1 hc0 hc1, e3]
    simp only [codeAfter, List.foldl, stepCode_shape hdm hcm]
    rw [shapeCode_255]
  · rw [e2, e3]; omega

/-- The theorem of C29 on a module of one color and the cell `(10, 0)`: the
two lists leave the codes 74 and 253. -/
theorem star_mark_then_shape_scenario :
    (∃ t2, (conditionerWithColors 1).initializeActions
        [.mark [10] [0] (-1), .shape [10] [0] holdingShaper] = .ok t2 ∧
      t2.getActionCode 10 0 = .ok 74) ∧
    (∃ t3, (conditionerWithColors 1).initializeActions [.shape [10] [0] holdingShaper] = .ok t3 ∧
      t3.getActionCode 10 0 = .ok 253) :=
  ⟨(star_mark_then_shape 1 (conditionerWithColors 1) rfl 10 0 (by decide) (by decide)
      (by decide) (by decide) holdingShaper).2.1,
   (star_mark_then_shape 1 (conditionerWithColors 1) rfl 10 0 (by decide) (by decide)
      (by decide) (by decide) holdingShaper).2.2.1⟩

/-! ### The encoding of the action codes -/

/-- C30: for every `d` in `[0,64)`, `DscpOfMarkAction` gives `d` back from
`MarkAction(d)` and from `MarkAndShapeAction(d)`; `isMarkAction` is true on
both and false on `ShapeAction`, `DropAction` and `NopAction`; `isShapeAction`
is true on `MarkAndShapeAction(d)` and `ShapeAction` and false on
`MarkAction(d)`, `DropAction` and `NopAction`; and the codes of the five kinds
are pairwise distinct: marks in 0..63, mark-and-shape in 64..127, then 253, 254
and 255. -/
theorem action_encoding_consistent (d : Int) (h0 : 0 ≤ d) (h1 : d < 64) :
    (DscpOfMarkAction (MarkAction d) = d ∧ DscpOfMarkAction (MarkAndShapeAction d) = d) ∧
    (isMarkAction (toUnsignedChar (MarkAction d)) = true ∧
      isMarkAction (toUnsignedChar (MarkAndShapeAction d)) = true ∧
      isMarkAction (toUnsignedChar ShapeAction) = false ∧
      isMarkAction (toUnsignedChar DropAction) = false ∧
      isMarkAction (toUnsignedChar NopAction) = false) ∧
    (isShapeAction (toUnsignedChar (MarkAndShapeAction d)) = true ∧
      isShapeAction (toUnsignedChar ShapeAction) = true ∧
      isShapeAction (toUnsignedChar (MarkAction d)) = false ∧
      isShapeAction (toUnsignedChar DropAction) = false ∧
      isShapeAction (toUnsignedChar NopAction) = false) ∧
    ((0 ≤ MarkAction d ∧ MarkAction d ≤ 63) ∧
      (64 ≤ MarkAndShapeAction d ∧ MarkAndShapeAction d ≤ 127) ∧
      ShapeAction = 253 ∧ DropAction = 254 ∧ NopAction = 255 ∧
      (∀ e : Int, 0 ≤ e → e < 64 → MarkAction d ≠ MarkAndShapeAction e)) := by
  obtain ⟨n, rfl⟩ := Int.eq_ofNat_of_zero_le h0
  have hn : n < 64 := by omega
  have key : ∀ k : Fin 64,
      (DscpOfMarkAction (MarkAction (k.val : Int)) = (k.val : Int) ∧
        DscpOfMarkAction (MarkAndShapeAction (k.val : Int)) = (k.val : Int)) ∧
      (isMarkAction (toUnsignedChar (MarkAction (k.val : Int))) = true ∧
        isMarkAction (toUnsignedChar (MarkAndShapeAction (k.val : Int))) = true) ∧
      (isShapeAction (toUnsignedChar (MarkAndShapeAction (k.val : Int))) = true ∧
        isShapeAction (toUnsignedChar (MarkAction (k.val : Int))) = false) ∧
      (MarkAndShapeAction (k.val : Int) = (k.val : Int) + 64) := by decide
  obtain ⟨⟨a1, a2⟩, ⟨b1, b2⟩, ⟨c1, c2⟩, e1⟩ := key ⟨n, hn⟩
  simp only at a1 a2 b1 b2 c1 c2 e1
  refine ⟨⟨a1, a2⟩, ⟨b1, b2, by decide, by decide, by decide⟩,
    ⟨c1, by decide, c2, by decide, by decide⟩, ⟨h0, ?_⟩, ⟨?_, ?_⟩, rfl, rfl, rfl, ?_⟩
  · simp only [MarkAction]; omega
  · rw [e1]; omega
  · rw [e1]; omega
  · intro e he0 he1
    rw [lor_64_of_dscp he0 he1 |> fun h => (h : MarkAndShapeAction e = e + 64)]
    simp only [MarkAction]; omega

/-- The theorem of C30 at the code point EF (46). -/
theorem action_encoding_consistent_scenario :
    DscpOfMarkAction (MarkAndShapeAction 46) = 46 ∧
    isShapeAction (toUnsignedChar (MarkAction 46)) = false :=
  ⟨(action_encoding_consistent 46 (by decide) (by decide)).1.2,
   (action_encoding_consistent 46 (by decide) (by decide)).2.2.1.2.2.1⟩

/-! ### The volume admitted by the token bucket -/

theorem roundHalfEven_tie (f : Int) (hodd : f % 2 = 1) :
    roundHalfEven ((f : ℚ) + 1 / 2) = f + 1 := by
  have hf : ⌊(f : ℚ) + 1 / 2⌋ = f := by
    rw [Int.floor_eq_iff]
    constructor <;> linarith
  unfold roundHalfEven
  rw [hf]
  have e : (f : ℚ) + 1 / 2 - f = 1 / 2 := by ring
  rw [e]
  simp only [lt_self_iff_false, if_false]
  rw [if_neg (by omega)]

/-- The double nearest to `x` when `x` lies halfway between two doubles and
the lower one has an odd significand: the upper one. -/
theorem roundToDouble_tie (x : ℚ) (e f : Int) (q : ℚ) (hq : q = 2 ^ (e - 52)) (he : -1022 ≤ e)
    (h1 : (2 : ℚ) ^ e ≤ |x|) (h2 : |x| < (2 : ℚ) ^ (e + 1)) (hx : x / q = f + 1 / 2)
    (hodd : f % 2 = 1) : roundToDouble x = (f + 1) * q := by
  have hx0 : x ≠ 0 := by
    intro h0
    rw [h0, abs_zero] at h1
    exact absurd h1 (not_le.mpr (by positivity))
  unfold roundToDouble
  rw [if_neg hx0, doubleSpacing_eq x e he h1 h2, ← hq, hx, roundHalfEven_tie f hodd]
  push_cast
  ring

theorem roundToDouble_three : roundToDouble 3 = 3 := by
  rw [roundToDouble_eq 3 1 (3 * 2 ^ 51) (1 / 2 ^ 51) (by norm_num) (by norm_num)
    (by norm_num) (by norm_num) (by norm_num)]
  norm_num

/-- At the rate `6004799503160661 / 2 ^ 51` bits/s (the double nearest to 8/3)
and 3 s the source computes 8 tokens: the exact product `8 - 2 ^ (-51)` lies
halfway between two doubles and is rounded up to 8. -/
theorem numTokens_three_seconds : numTokens 3 (6004799503160661 / 2 ^ 51) = 8 := by
  have e2 : roundToDouble (3 * (6004799503160661 / 2 ^ 51)) = 8 := by
    rw [roundToDouble_tie _ 2 9007199254740991 (1 / 2 ^ 50) (by norm_num) (by norm_num)
      (by norm_num [abs_of_nonneg]) (by norm_num [abs_of_nonneg]) (by norm_num) (by norm_num)]
    norm_num
  simp only [numTokens, SIMTIME_DBL, roundToDouble_three, e2]
  rw [truncToLong_eq_floor (by norm_num), Int.floor_eq_iff]
  norm_num

/-- C31, as the claim states it, fails, in two ways. The source holds the
packet size in an `int`: a packet of `2 ^ 29` bytes, whose 32-bit size is 0,
is colored GREEN by the bucket of scenario 1, which admits `2 ^ 32` bits
against a bound of 10,000. And the source forms the refill in the type
`double`: at the rate `6004799503160661 / 2 ^ 51` bits/s with CBS = 8, packets
of 8 bits at the times 0 and 3 are both GREEN, 16 bits in all, while the
refill amounts `floor(elapsed * CIR)` are 0 and 7 and the bound is 15. -/
theorem tokenBucket_green_exceeds_floor_bound :
    (scenarioTokenBucket.greenBits [(0, Packet.other 536870912)] = 4294967296 ∧
      scenarioTokenBucket.refillAmounts [(0, Packet.other 536870912)] = [0] ∧
      scenarioTokenBucket.CBS = 10000) ∧
    ((TokenBucket.configure (6004799503160661 / 2 ^ 51) 8 0).greenBits
        [(0, Packet.other 1), (3, Packet.other 1)] = 16 ∧
      (TokenBucket.configure (6004799503160661 / 2 ^ 51) 8 0).refillAmounts
        [(0, Packet.other 1), (3, Packet.other 1)] = [0, 7]) := by
  have hn : truncToLong (roundToDouble (SIMTIME_DBL (3 - 0) * (6004799503160661 / 2 ^ 51)))
      = 8 := by
    rw [sub_zero]; exact numTokens_three_seconds
  have h1 : (TokenBucket.configure (6004799503160661 / 2 ^ 51) 8 0).packetArrived 0
      (Packet.other 1)
      = ({ CIR := 6004799503160661 / 2 ^ 51, CBS := 8, Tc := 0, lastUpdateTime := 0 },
          GREEN) := by
    norm_num [TokenBucket.configure, TokenBucket.packetArrived, TokenBucket.refill, SIMTIME_DBL,
      roundToDouble_zero, truncToLong, toInt, Packet.getByteLength]
  have h2 : ({ CIR := 6004799503160661 / 2 ^ 51, CBS := 8, Tc := 0, lastUpdateTime := 0 } :
      TokenBucket).packetArrived 3 (Packet.other 1)
      = ({ CIR := 6004799503160661 / 2 ^ 51, CBS := 8, Tc := 0, lastUpdateTime := 3 },
          GREEN) := by
    simp only [TokenBucket.packetArrived, TokenBucket.refill, hn]
    norm_num [toInt, Packet.getByteLength]
  have hf : ⌊((3 - 0 : ℚ)) * (6004799503160661 / 2 ^ 51)⌋ = 7 := by
    rw [Int.floor_eq_iff]; norm_num
  refine ⟨⟨?_, ?_, rfl⟩, ?_, ?_⟩
  · norm_num [TokenBucket.greenBits, scenarioTokenBucket, TokenBucket.configure,
      TokenBucket.packetArrived, TokenBucket.refill, SIMTIME_DBL, roundToDouble_zero,
      truncToLong, toInt, Packet.getByteLength, GREEN, RED]
  · norm_num [TokenBucket.refillAmounts, scenarioTokenBucket, TokenBucket.configure]
  · simp only [TokenBucket.greenBits, h1, h2]
    norm_num [Packet.getByteLength]
  · simp only [TokenBucket.refillAmounts, h1, hf]
    norm_num [TokenBucket.configure]

theorem tokenBucket_green_step (m : TokenBucket) (now : ℚ) (p : Packet) (h0 : 0 ≤ m.Tc)
    (hr : 0 ≤ numTokens (now - m.lastUpdateTime) m.CIR)
    (hsz : 8 * p.getByteLength < 2 ^ 31) :
    0 ≤ (m.packetArrived now p).1.Tc ∧
    (if (m.packetArrived now p).2 = GREEN then 8 * p.getByteLength else 0)
      + (m.packetArrived now p).1.Tc ≤ m.Tc + numTokens (now - m.lastUpdateTime) m.CIR := by
  have hs := packet_sizeInBits_nonneg p
  simp only [numTokens] at hr ⊢
  simp only [TokenBucket.packetArrived, TokenBucket.refill, packetSizeInBits_eq p hsz]
  split_ifs <;> simp only [GREEN, RED] at * <;> omega

theorem tokenBucket_green_bound (l : List (ℚ × Packet)) :
    ∀ m : TokenBucket, 0 ≤ m.Tc → (∀ r ∈ m.numTokensOf l, 0 ≤ r) →
      (∀ a ∈ l, 8 * a.2.getByteLength < 2 ^ 31) →
      m.greenBits l ≤ m.Tc + (m.numTokensOf l).sum := by
  induction l with
  | nil => intro m h0 _ _; simpa [TokenBucket.greenBits, TokenBucket.numTokensOf] using h0
  | cons a rest ih =>
    intro m h0 hr hsz
    simp only [TokenBucket.numTokensOf, List.mem_cons, forall_eq_or_imp] at hr
    obtain ⟨h1, h2⟩ := tokenBucket_green_step m a.1 a.2 h0 hr.1
      (hsz a (List.mem_cons_self a rest))
    have := ih (m.packetArrived a.1 a.2).1 h1 hr.2
      (fun b hb => hsz b (List.mem_cons_of_mem a hb))
    simp only [TokenBucket.greenBits, TokenBucket.numTokensOf, List.sum_cons]
    omega

theorem numTokensOf_nonneg (l : List (ℚ × Packet)) :
    ∀ m : TokenBucket, 0 ≤ m.CIR → clockNonDecreasing m.lastUpdateTime l →
      ∀ r ∈ m.numTokensOf l, 0 ≤ r := by
  induction l with
  | nil => intro m _ _ r hr; simp [TokenBucket.numTokensOf] at hr
  | cons a rest ih =>
    intro m hc hclock r hr
    simp only [clockNonDecreasing, List.map_cons, List.chain_cons] at hclock
    obtain ⟨f1, -, f3⟩ := tokenBucket_packetArrived_frame m a.1 a.2
    simp only [TokenBucket.numTokensOf, List.mem_cons] at hr
    rcases hr with rfl | hr
    · exact numTokens_nonneg (sub_nonneg.mpr hclock.1) hc
    · exact ih (m.packetArrived a.1 a.2).1 (by rw [f1]; exact hc)
        (by rw [f3]; exact hclock.2) r hr

/-- C31, amended: for every token bucket in its configured state
(`Tc = CBS ≥ 0`) and every finite sequence of arrivals of packets shorter than
`2 ^ 28` bytes whose refill amounts `(long)(SIMTIME_DBL(elapsed) * CIR)`, as
the source computes them in the type `double`, are all non-negative, with
values of type `long` within range, the total size in bits of the packets
colored GREEN is at most `CBS` plus the sum of those refill amounts. -/
theorem tokenBucket_green_total_bounded (cir : ℚ) (cbs : Int) (t0 : ℚ) (l : List (ℚ × Packet))
    (hcbs : 0 ≤ cbs) (hr : ∀ r ∈ (TokenBucket.configure cir cbs t0).numTokensOf l, 0 ≤ r)
    (hsz : ∀ a ∈ l, 8 * a.2.getByteLength < 2 ^ 31)
    (hl : LongRange cbs ∧ ∀ a ∈ l, |(a.1 - t0) * cir| ≤ 2 ^ 62) :
    (TokenBucket.configure cir cbs t0).greenBits l
      ≤ cbs + ((TokenBucket.configure cir cbs t0).numTokensOf l).sum :=
  tokenBucket_green_bound l (TokenBucket.configure cir cbs t0) hcbs hr hsz

/-- The theorem of C31 on the bucket of scenario 1 and packets of 8,000,
8,000 and 2,000 bits arriving at 0, 1 and 2 ms. -/
theorem tokenBucket_green_total_bounded_scenario :
    (scenarioTokenBucket.greenBits
        [(0, .other 1000), (1 / 1000, .other 1000), (2 / 1000, .other 250)] : Int)
      ≤ 10000 + (scenarioTokenBucket.numTokensOf
        [(0, .other 1000), (1 / 1000, .other 1000), (2 / 1000, .other 250)]).sum :=
  tokenBucket_green_total_bounded 1000000 10000 0
    [(0, .other 1000), (1 / 1000, .other 1000), (2 / 1000, .other 250)] (by decide)
    (numTokensOf_nonneg _ _ (by norm_num [TokenBucket.configure])
      (by norm_num [clockNonDecreasing, TokenBucket.configure]))
    (by
      intro a ha
      simp only [List.mem_cons, List.mem_singleton, List.not_mem_nil, or_false] at ha
      rcases ha with rfl | rfl | rfl <;> norm_num [Packet.getByteLength])
    (by
      refine ⟨by norm_num [LongRange], ?_⟩
      intro a ha
      simp only [List.mem_cons, List.mem_singleton, List.not_mem_nil, or_false] at ha
      rcases ha with rfl | rfl | rfl <;> norm_num [abs_of_nonneg])

/-! ### A token bucket that never regains tokens -/

theorem scenarioTokenBucket_first (s : ℚ) (hs : 0 ≤ s) (p : Packet)
    (hp : p.getByteLength = 1000) :
    scenarioTokenBucket.packetArrived s p
      = ({ CIR := 1000000, CBS := 10000, Tc := 2000, lastUpdateTime := s }, GREEN) := by
  have hf : 0 ≤ truncToLong (roundToDouble (SIMTIME_DBL (s - 0) * 1000000)) :=
    numTokens_nonneg (by linarith) (by norm_num)
  simp only [scenarioTokenBucket, TokenBucket.configure, TokenBucket.packetArrived,
    TokenBucket.refill, hp]
  generalize truncToLong (roundToDouble (SIMTIME_DBL (s - 0) * 1000000)) = F at hf
  have key : (if (10000 : Int) + F ≤ 10000 then 10000 + F else 10000) = 10000 := by
    split_ifs <;> omega
  rw [key]
  norm_num [toInt]

theorem scenarioTokenBucket_later (t : ℚ) (p : Packet) (hp : p.getByteLength = 1000) :
    ({ CIR := 1000000, CBS := 10000, Tc := 2000, lastUpdateTime := t } : TokenBucket).packetArrived
        (t + 1) p
      = ({ CIR := 1000000, CBS := 10000, Tc := 2000, lastUpdateTime := t + 1 }, RED) := by
  have e : t + 1 - t = 1 := by ring
  have hn : truncToLong (roundToDouble (SIMTIME_DBL 1 * 1000000)) = 1000000 :=
    numTokens_second_million
  simp only [TokenBucket.packetArrived, TokenBucket.refill, e, hn, hp]
  norm_num [toInt]

theorem scenarioTokenBucket_rest (ps : List Packet) :
    ∀ t : ℚ, (∀ q ∈ ps, q.getByteLength = 1000) →
      ({ CIR := 1000000, CBS := 10000, Tc := 2000, lastUpdateTime := t } : TokenBucket).colors
          (secondApart (t + 1) ps) = List.replicate ps.length RED ∧
      (({ CIR := 1000000, CBS := 10000, Tc := 2000, lastUpdateTime := t } : TokenBucket).arrivals
          (secondApart (t + 1) ps)).Tc = 2000 := by
  induction ps with
  | nil => intro t _; exact ⟨rfl, rfl⟩
  | cons q rest ih =>
    intro t h
    have hq := h q (List.mem_cons_self q rest)
    obtain ⟨i1, i2⟩ := ih (t + 1) (fun x hx => h x (List.mem_cons_of_mem q hx))
    simp only [secondApart, TokenBucket.colors, TokenBucket.arrivals, List.foldl_cons,
      scenarioTokenBucket_later t q hq, List.length_cons, List.replicate_succ]
    exact ⟨by rw [i1], i2⟩

/-- C32: the token bucket with CBS = 10,000 bits and CIR = 1,000,000 bits/s,
configured at time 0, and packets of 8,000 bits arriving one second apart,
the first at any time `s ≥ 0`: the first packet is GREEN and leaves `Tc` at
2,000; every later packet, however many arrive, is RED, and `Tc` is 2,000
after the last. -/
theorem tokenBucket_never_regains (s : ℚ) (hs : 0 ≤ s) (p : Packet) (ps : List Packet)
    (hp : p.getByteLength = 1000) (hps : ∀ q ∈ ps, q.getByteLength = 1000) :
    scenarioTokenBucket.CBS = 10000 ∧ scenarioTokenBucket.CIR = 1000000 ∧
    scenarioTokenBucket.Tc = 10000 ∧
    (scenarioTokenBucket.packetArrived s p).2 = GREEN ∧
    (scenarioTokenBucket.packetArrived s p).1.Tc = 2000 ∧
    scenarioTokenBucket.colors (secondApart s (p :: ps)) = GREEN :: List.replicate ps.length RED ∧
    (scenarioTokenBucket.arrivals (secondApart s (p :: ps))).Tc = 2000 := by
  have h1 := scenarioTokenBucket_first s hs p hp
  obtain ⟨i1, i2⟩ := scenarioTokenBucket_rest ps s hps
  refine ⟨rfl, rfl, rfl, by rw [h1], by rw [h1], ?_, ?_⟩
  · simp only [secondApart, TokenBucket.colors, h1, i1]
  · simp only [secondApart, TokenBucket.arrivals, List.foldl_cons, h1]
    exact i2

/-- The theorem of C32 on four packets arriving at the seconds 1 to 4. -/
theorem tokenBucket_never_regains_scenario :
    scenarioTokenBucket.colors
        [(1, .other 1000), (2, .other 1000), (3, .other 1000), (4, .other 1000)]
      = [GREEN, RED, RED, RED] ∧
    (scenarioTokenBucket.arrivals
        [(1, .other 1000), (2, .other 1000), (3, .other 1000), (4, .other 1000)]).Tc = 2000 := by
  have h := tokenBucket_never_regains 1 (by norm_num) (.other 1000)
    [.other 1000, .other 1000, .other 1000] rfl (by
      intro q hq
      simp only [List.mem_cons, List.mem_singleton, List.not_mem_nil, or_false] at hq
      rcases hq with rfl | rfl | rfl <;> rfl)
  refine ⟨?_, ?_⟩
  · have := h.2.2.2.2.2.1
    norm_num [secondApart] at this
    exact this
  · have := h.2.2.2.2.2.2
    norm_num [secondApart] at this
    exact this

/-! ### Well-formedness of the action table -/

theorem stepCode_eq_254 {n : Nat} (e : ActionElement) (he : e.WellFormed n) (d c : Int)
    (x : Nat) (hx : ActionCode.WellFormed x) (h : e.stepCode d c x = (254 : Nat)) :
    x = 254 ∨ (e.isDrop = true ∧ e.covers d c) := by
  obtain ⟨w1, w2, w3⟩ := he
  by_cases hc : e.covers d c
  · have hd := w1 d hc.1
    cases e with
    | drop ds cs => exact Or.inr ⟨rfl, hc⟩
    | mark ds cs v =>
      left
      simp only [ActionElement.stepCode, if_pos hc, ActionElement.cellCode] at h
      have hD : 0 ≤ (if (v != -1) = true then v else d) ∧ (if (v != -1) = true then v else d) < 64 := by
        simp only at w3
        split_ifs with hv
        · rcases w3 with w3 | w3
          · simp [w3] at hv
          · exact w3
        · exact hd
      generalize (if (v != -1) = true then v else d) = D at h hD
      rw [markCode_eq hD.1 hD.2] at h
      have h' : (if x = 255 then D.toNat else if x = 253 then D.toNat + 64 else x : Nat) = 254 := h
      split_ifs at h' <;> omega
    | shape ds cs sh =>
      left
      simp only [ActionElement.stepCode, if_pos hc, ActionElement.cellCode] at h
      rw [shapeCode_eq hx] at h
      have h' : (if x = 255 then 253 else if x < 64 then x + 64 else x : Nat) = 254 := h
      split_ifs at h' <;> omega
    | other ds cs =>
      left
      simp only [ActionElement.stepCode, if_pos hc, ActionElement.cellCode] at h
      exact h
  · left
    simp only [ActionElement.stepCode, if_neg hc] at h
    exact h

theorem stepCode_wellFormed {n : Nat} (e : ActionElement) (he : e.WellFormed n) (d c : Int)
    (x : Nat) (hx : ActionCode.WellFormed x) : ActionCode.WellFormed (e.stepCode d c x) := by
  obtain ⟨w1, w2, w3⟩ := he
  by_cases hc : e.covers d c
  · have hd := w1 d hc.1
    cases e with
    | drop ds cs =>
      rw [stepCode_drop (e := .drop ds cs) rfl hc x]
      exact Or.inr (Or.inl rfl)
    | mark ds cs v =>
      simp only [ActionElement.stepCode, if_pos hc, ActionElement.cellCode]
      have hD : 0 ≤ (if (v != -1) = true then v else d) ∧
          (if (v != -1) = true then v else d) < 64 := by
        simp only at w3
        split_ifs with hv
        · rcases w3 with w3 | w3
          · simp [w3] at hv
          · exact w3
        · exact hd
      generalize (if (v != -1) = true then v else d) = D at hD
      rw [markCode_eq hD.1 hD.2]
      have hx' : (x : Nat) = 255 ∨ (x : Nat) = 254 ∨ (x : Nat) = 253 ∨ (x : Nat) < 128 := hx
      have key : ((if x = 255 then D.toNat else if x = 253 then D.toNat + 64 else x : Nat) = 255
          ∨ (if x = 255 then D.toNat else if x = 253 then D.toNat + 64 else x : Nat) = 254
          ∨ (if x = 255 then D.toNat else if x = 253 then D.toNat + 64 else x : Nat) = 253
          ∨ (if x = 255 then D.toNat else if x = 253 then D.toNat + 64 else x : Nat) < 128) := by
        split_ifs <;> omega
      exact key
    | shape ds cs sh =>
      simp only [ActionElement.stepCode, if_pos hc, ActionElement.cellCode]
      rw [shapeCode_eq hx]
      have hx' : (x : Nat) = 255 ∨ (x : Nat) = 254 ∨ (x : Nat) = 253 ∨ (x : Nat) < 128 := hx
      have key : ((if x = 255 then 253 else if x < 64 then x + 64 else x : Nat) = 255
          ∨ (if x = 255 then 253 else if x < 64 then x + 64 else x : Nat) = 254
          ∨ (if x = 255 then 253 else if x < 64 then x + 64 else x : Nat) = 253
          ∨ (if x = 255 then 253 else if x < 64 then x + 64 else x : Nat) < 128) := by
        split_ifs <;> omega
      exact key
    | other ds cs =>
      simp only [ActionElement.stepCode, if_pos hc, ActionElement.cellCode]
      exact hx
  · simp only [ActionElement.stepCode, if_neg hc]
    exact hx

theorem codeAfter_wellFormed {n : Nat} (es : List ActionElement)
    (hes : ∀ e ∈ es, e.WellFormed n) (d c : Int) :
    ∀ x : Nat, ActionCode.WellFormed x →
      ActionCode.WellFormed (codeAfter es d c x) ∧
      (codeAfter es d c x = (254 : Nat) →
        x = 254 ∨ ∃ e ∈ es, e.isDrop = true ∧ e.covers d c) := by
  induction es with
  | nil => intro x hx; exact ⟨hx, fun h => Or.inl h⟩
  | cons e rest ih =>
    intro x hx
    have he := hes e (List.mem_cons_self e rest)
    have hstep := stepCode_wellFormed e he d c x hx
    obtain ⟨i1, i2⟩ := ih (fun a ha => hes a (List.mem_cons_of_mem e ha)) _ hstep
    simp only [codeAfter, List.foldl_cons] at i1 i2 ⊢
    refine ⟨i1, fun h => ?_⟩
    rcases i2 h with h1 | ⟨e', he', hd, hc⟩
    · rcases stepCode_eq_254 e he d c x hx h1 with h2 | ⟨hd, hc⟩
      · exact Or.inl h2
      · exact Or.inr ⟨e, List.mem_cons_self e rest, hd, hc⟩
    · exact Or.inr ⟨e', List.mem_cons_of_mem e he', hd, hc⟩

/-- C33: on a module of `n` colors, the construction of the action table from
any list of action elements whose code points and mark values are in `[0,64)`
(or `*`) and whose colors are below `n` succeeds, and every cell of the table
then holds 255 (no-op), 254 (drop), 253 (shape-only), a value in 0..63 (mark)
or a value in 64..127 (mark-and-shape); no cell holds a byte in 128..252; and
a cell holds 254 only if a `drop` element covers it. -/
theorem action_table_codes_well_formed (n : Nat) (tc : TrafficConditioner)
    (hn : tc.numColors = n) (es : List ActionElement) (hes : ∀ e ∈ es, e.WellFormed n) :
    ∃ tc', tc.initializeActions es = .ok tc' ∧
      ∀ d c, 0 ≤ d → d < 64 → 0 ≤ c → c < (n : Int) →
        ∃ x : Nat, tc'.getActionCode d c = .ok x ∧
          (x = 255 ∨ x = 254 ∨ x = 253 ∨ x < 64 ∨ (64 ≤ x ∧ x < 128)) ∧
          ¬ (128 ≤ x ∧ x ≤ 252) ∧
          (x = 254 → ∃ e ∈ es, e.isDrop = true ∧ e.covers d c) := by
  obtain ⟨tc', a1, -, a3, -⟩ := initializeActions_spec tc hn es hes
  refine ⟨tc', a1, fun d c hd0 hd1 hc0 hc1 => ?_⟩
  obtain ⟨w, o⟩ := codeAfter_wellFormed es hes d c 255 (Or.inl rfl)
  refine ⟨codeAfter es d c 255, a3 d c hd0 hd1 hc0 hc1, ?_, ?_, fun h => ?_⟩
  · have key : ∀ y : Nat, (y = 255 ∨ y = 254 ∨ y = 253 ∨ y < 128) →
        (y = 255 ∨ y = 254 ∨ y = 253 ∨ y < 64 ∨ (64 ≤ y ∧ y < 128)) := by
      intro y hy; omega
    exact key _ w
  · have key : ∀ y : Nat, (y = 255 ∨ y = 254 ∨ y = 253 ∨ y < 128) →
        ¬ (128 ≤ y ∧ y ≤ 252) := by
      intro y hy; omega
    exact key _ w
  · rcases o h with h1 | h1
    · exact absurd h1 (by decide)
    · exact h1

/-- The theorem of C33 on a module of one color and the rules
`mark dscp=1 value=2`, `shape dscp="1 2"`, `drop dscp=3`. -/
theorem action_table_codes_well_formed_scenario :
    ∃ tc', (conditionerWithColors 1).initializeActions
        [.mark [1] [0] 2, .shape [1, 2] [0] holdingShaper, .drop [3] [0]] = .ok tc' ∧
      ∀ d c, 0 ≤ d → d < 64 → 0 ≤ c → c < ((1 : Nat) : Int) →
        ∃ x : Nat, tc'.getActionCode d c = .ok x ∧
          (x = 255 ∨ x = 254 ∨ x = 253 ∨ x < 64 ∨ (64 ≤ x ∧ x < 128)) ∧
          ¬ (128 ≤ x ∧ x ≤ 252) ∧
          (x = 254 → ∃ e ∈ [ActionElement.mark [1] [0] 2, .shape [1, 2] [0] holdingShaper,
            .drop [3] [0]], e.isDrop = true ∧ e.covers d c) :=
  action_table_codes_well_formed 1 (conditionerWithColors 1) rfl
    [.mark [1] [0] 2, .shape [1, 2] [0] holdingShaper, .drop [3] [0]]
    (by
      intro e he
      simp only [List.mem_cons, List.mem_singleton, List.not_mem_nil, or_false] at he
      rcases he with rfl | rfl | rfl
      · exact ⟨by decide, by decide, Or.inr (by decide)⟩
      · exact ⟨by decide, by decide, trivial⟩
      · exact ⟨by decide, by decide, trivial⟩)

end Diffserv
